import Mathlib

/-!
# C64-BASIC-Emulator: a shallow embedding of `main.cpp`

The interpreter of `main.cpp` is translated function by function.

Modelling conventions.

* `std::string` is a list of characters (`Str`); `std::vector` is a `List`.
  The operator stack of `to_rpn`, the operand stack of `eval_rpn` and the two
  control stacks keep their top (`back()`) at the head of the list.
* A `float` is modelled by the rational number it holds (`ℚ`).  A decimal
  text that is read, and the result of `+`, `-`, `*`, `/` and of the addition
  in `NEXT`, is rounded to the nearest `float`, ties to even (`to_float`).
  The infinities, NaN and the negative zero are not represented: where the
  source computes one of them (an overflow, a division by zero, a product,
  quotient or negation whose result is the negative zero, the input `-0`),
  and for the transcendental functions and `RND`, the model stops with
  `Err.inexact`, which marks the limit of the model and is not a `throw` of
  the source.
* A `throw` is an `Except.error`.  `Err` has one constructor per `throw` site
  of the source, two for the exceptions thrown by the C++ library
  (`outOfRange`, `badVariantAccess`) and `undefinedBehaviour` for a library
  precondition that the source violates (`back()` of an empty vector, an index
  past the end).
* Loops whose termination is not evident run on fuel; `Err.outOfFuel` is
  returned when the fuel is exhausted.
* `std::unordered_map<std::string, TokenValue>` is an association list with
  unique keys (`Env`).
* `int` is `ℤ`; an `int` computation that leaves the range of `int` is
  `Err.undefinedBehaviour`.
* A method of `BasicInterpreter` returns an `Outcome`: the state it leaves
  together with the error it threw, if any, so that the changes made before a
  `throw` stay visible.
-/

namespace C64Basic

/-- The text type `std::string`. -/
abbrev Str := List Char

/-- The character `"` (code 34). -/
def dquote : Char := Char.ofNat 34

/-! ## Data model (`main.cpp` lines 12-45) -/

inductive TokenType
  | NUMBER | STRING | BITWISE | NAME | OP | KEYWORD
  | FUNC | LPAREN | RPAREN | COMMA | SKIP | UNKNOWN
  deriving DecidableEq, Repr

/-- The variant `std::variant<float, std::string>`. -/
inductive TokenValue
  | num (x : ℚ)
  | str (s : Str)
  deriving DecidableEq

structure Token where
  type : TokenType
  value : TokenValue
  deriving DecidableEq

structure ForElement where
  var : Str
  end_ : ℚ
  step : ℚ
  index : Int
  deriving DecidableEq

structure ProgramLine where
  lineno : Int
  line : Str
  deriving DecidableEq

/-- Every way in which a call of the source fails to return.  The two
"unknown line" errors carry the text of their message: the source builds it
by adding the line number to the address of a string literal (see
`literal_plus`). -/
inductive Err
  | tokenizerStuck
  | mismatchedParentheses
  | unknownTokenType
  | errorAtParsingFunction
  | unknownOperator (op : Str)
  | unknownBitwiseOp (op : Str)
  | unknownTokenTypeInEval
  | gotoUnknownLine (what : Str)
  | returnWithoutGosub
  | ifWithoutThen
  | ifThenUnknownLine (what : Str)
  | malformedFor
  | forWithoutTo
  | nextWithoutFor
  | nextVariableMismatch
  | unknownStatement (stmt : Str)
  | outOfRange
  | badVariantAccess
  | undefinedBehaviour
  | inexact
  | outOfFuel
  deriving DecidableEq

deriving instance DecidableEq for Except

/-- The variable environment `std::unordered_map<std::string, TokenValue>`. -/
abbrev Env := List (Str × TokenValue)

/-- The lookup `env.find(name)`. -/
def env_find : Env → Str → Option TokenValue
  | [], _ => none
  | (k, v) :: rest, name => if k = name then some v else env_find rest name

/-- The assignment `env[name] = v`. -/
def env_set : Env → Str → TokenValue → Env
  | [], name, v => [(name, v)]
  | (k, w) :: rest, name, v =>
    if k = name then (k, v) :: rest else (k, w) :: env_set rest name v

/-- The read `env[name]`: a missing key is first inserted with the
value-initialised variant, which is the float `0.0`. -/
def env_index (env : Env) (name : Str) : TokenValue × Env :=
  match env_find env name with
  | some v => (v, env)
  | none => (TokenValue.num 0, env_set env name (TokenValue.num 0))

/-! ## Helper functions (`main.cpp` lines 52-78) -/

def as_number : TokenValue → ℚ
  | TokenValue.num x => x
  | TokenValue.str _ => 0

/-- Rounding to the nearest natural number, ties to even. -/
def round_half_even (r : ℚ) : Nat :=
  let f := r.floor.toNat
  let d := r - f
  if d < 1 / 2 then f
  else if 1 / 2 < d then f + 1
  else if f % 2 = 0 then f else f + 1

/-- The digits of `n`, padded on the left with zeros to width `w`. -/
def pad_digits (w n : Nat) : Str :=
  let ds := Nat.toDigits 10 n
  List.replicate (w - ds.length) '0' ++ ds

/-- The conversion `std::to_string(float)`, the format `%f`: six decimals. -/
def to_string (x : ℚ) : Str :=
  let n := round_half_even (|x| * 1000000)
  (if x < 0 then ['-'] else []) ++ Nat.toDigits 10 (n / 1000000) ++ ['.']
    ++ pad_digits 6 (n % 1000000)

def as_string : TokenValue → Str
  | TokenValue.str s => s
  | TokenValue.num x => to_string x

def is_string_var (name : Str) : Bool :=
  !name.isEmpty && name.getLast? == some '$'

/-- The characters of `" \t\n\r\f\v"`. -/
def is_space (c : Char) : Bool :=
  c == ' ' || c == '\t' || c == '\n' || c == '\r' || c == Char.ofNat 12 || c == Char.ofNat 11

/-- The function `strip`: the text between the first and the last character
that is not white space, empty when there is none. -/
def strip (s : Str) : Str :=
  ((s.dropWhile is_space).reverse.dropWhile is_space).reverse

/-- The accessor `std::get<std::string>`. -/
def get_string : TokenValue → Except Err Str
  | TokenValue.str s => Except.ok s
  | TokenValue.num _ => Except.error Err.badVariantAccess

/-- The conversion `(int)x` of a float: truncation toward zero, defined when
the result fits an `int`. -/
def float_to_int (x : ℚ) : Except Err Int :=
  let i : Int := if 0 ≤ x then x.floor else -((-x).floor)
  if -2147483648 ≤ i ∧ i ≤ 2147483647 then Except.ok i else Except.error Err.undefinedBehaviour

/-- The implicit conversion of a float to `size_t`: truncation toward zero,
defined when the truncated value is not negative. -/
def float_to_size (x : ℚ) : Except Err Nat :=
  if x ≤ -1 then Except.error Err.undefinedBehaviour
  else if 18446744073709551616 ≤ x then Except.error Err.undefinedBehaviour
  else Except.ok x.floor.toNat

/-- The conversion `(int)n` of a `size_t`, for a value within the range of
`int`; the model does not cover a larger one. -/
def size_to_int (n : Nat) : Except Err Int :=
  if n ≤ 2147483647 then Except.ok (n : Int) else Except.error Err.inexact

/-- The power `2 ^ e` for an integer `e`. -/
def pow2 (e : Int) : ℚ :=
  if 0 ≤ e then ((2 ^ e.toNat : Nat) : ℚ) else 1 / ((2 ^ (-e).toNat : Nat) : ℚ)

/-- The number of times `n` can be halved before it falls below 2, that is,
the integer part of its binary logarithm; `fuel` bounds the halvings. -/
def log2_floor : Nat → Nat → Nat
  | 0, _ => 0
  | fuel + 1, n => if n < 2 then 0 else log2_floor fuel (n / 2) + 1

/-- The exponent `e` with `2 ^ e ≤ x < 2 ^ (e + 1)` of a positive `x`. -/
def ilog2 (x : ℚ) : Int :=
  let k : Int :=
    (log2_floor x.num.natAbs x.num.natAbs : Int) - (log2_floor x.den x.den : Int)
  if x < pow2 k then k - 1 else k

/-- Rounding to the nearest binary floating-point number with `p` significant
bits whose least normal exponent is `emin`, ties to the even significand
(IEEE 754 `roundTiesToEven`); below `2 ^ emin` the spacing stays that of the
subnormal numbers.  The exponent is not bounded above. -/
def round_binary (p : Nat) (emin : Int) (x : ℚ) : ℚ :=
  if x = 0 then 0
  else
    let e := max (ilog2 |x|) emin
    let ulp := pow2 (e - (p - 1 : Nat))
    let m := round_half_even (|x| / ulp)
    if x < 0 then -((m : ℚ) * ulp) else (m : ℚ) * ulp

/-- Rounding to `double` (binary64). -/
def to_double (x : ℚ) : ℚ := round_binary 53 (-1022) x

/-- Rounding to `float` (binary32). -/
def to_float (x : ℚ) : ℚ := round_binary 24 (-126) x

/-- The value `x` when a `float` holds it exactly. -/
def float_exact (x : ℚ) : Except Err ℚ :=
  if to_float x = x ∧ |x| < pow2 128 then Except.ok x else Except.error Err.inexact

/-- The `float` result of an arithmetic operation whose exact value is `x`:
the rounded value, unless it leaves the finite range (the source then holds
an infinity). -/
def float_result (x : ℚ) : Except Err ℚ :=
  if |to_float x| < pow2 128 then Except.ok (to_float x) else Except.error Err.inexact

/-- The negation `-x` of a `float`; that of zero is the negative zero, which
is not represented. -/
def float_neg (x : ℚ) : Except Err ℚ :=
  if x = 0 then Except.error Err.inexact else Except.ok (-x)

/-- The `float` result of a product or quotient of `a` and `b` whose exact
value is `x`: a result that is zero carries the sign of the operation, and
the negative zero is not represented. -/
def float_signed_result (a b x : ℚ) : Except Err ℚ :=
  if to_float x = 0 ∧ ((a < 0 ∧ 0 ≤ b) ∨ (0 ≤ a ∧ b < 0)) then Except.error Err.inexact
  else float_result x

/-- The function `::toupper` in the C locale, over a whole text. -/
def to_upper (s : Str) : Str := s.map Char.toUpper

/-! ## Lexer (`main.cpp` lines 83-177)

Each rule of `rules` is a function from the text at the current position to
the result of `std::regex_search` with `match_continuous`: `none` when the
pattern does not match there, otherwise the length `m.length()` of the match
and the text that `tokenize` keeps, `txt = m[1]`.  In `std::match_results`,
`m[0]` is the whole match and `m[1]` the first parenthesised group; a pattern
without a group, and an optional group that took no part in the match, give an
unmatched `sub_match`, whose text is empty.  Only the patterns of `NUMBER`,
`STRING` and `BITWISE` have a group. -/

/-- The class `\w` of the pattern `\b`. -/
def is_word (c : Char) : Bool := c.isAlphanum || c == '_'

/-- Pattern `\d+(\.\d*)?`; the group is the fraction with its point. -/
def match_NUMBER (s : Str) : Option (Nat × Str) :=
  let ds := s.takeWhile Char.isDigit
  if ds.isEmpty then none
  else
    match s.drop ds.length with
    | '.' :: rest =>
      let fs := rest.takeWhile Char.isDigit
      some (ds.length + 1 + fs.length, '.' :: fs)
    | _ => some (ds.length, [])

/-- Pattern `\"([^"]*)\"`; the group is the text between the quotes. -/
def match_STRING (s : Str) : Option (Nat × Str) :=
  match s with
  | q :: rest =>
    if q = dquote then
      let body := rest.takeWhile (fun c => c != dquote)
      match rest.drop body.length with
      | _ :: _ => some (body.length + 2, body)
      | [] => none
    else none
  | [] => none

/-- One alternative of `\b(AND|OR|NOT)\b`.  The search range starts at the
current position, so the first `\b` holds as soon as the word starts there;
the second one asks that no word character follows. -/
def match_word (w s : Str) : Option (Nat × Str) :=
  if w.isPrefixOf s then
    match s.drop w.length with
    | [] => some (w.length, w)
    | c :: _ => if is_word c then none else some (w.length, w)
  else none

/-- Pattern `\b(AND|OR|NOT)\b`; the group is the word. -/
def match_BITWISE (s : Str) : Option (Nat × Str) :=
  (match_word "AND".toList s).orElse fun _ =>
  (match_word "OR".toList s).orElse fun _ =>
  match_word "NOT".toList s

/-- Pattern `[A-Za-z][A-Za-z0-9\$]*`; it has no group. -/
def match_NAME (s : Str) : Option (Nat × Str) :=
  match s with
  | c :: rest =>
    if c.isAlpha then
      some (1 + (rest.takeWhile (fun d => d.isAlphanum || d == '$')).length, [])
    else none
  | [] => none

/-- The class `[+\-*/\^=<>:;]`. -/
def is_op_char (c : Char) : Bool :=
  c == '+' || c == '-' || c == '*' || c == '/' || c == '^' || c == '='
    || c == '<' || c == '>' || c == ':' || c == ';'

/-- Pattern `<=|>=|<>|[+\-*/\^=<>:;]`; it has no group. -/
def match_OP (s : Str) : Option (Nat × Str) :=
  match s with
  | '<' :: '=' :: _ => some (2, [])
  | '>' :: '=' :: _ => some (2, [])
  | '<' :: '>' :: _ => some (2, [])
  | c :: _ => if is_op_char c then some (1, []) else none
  | [] => none

/-- A pattern of one given character; it has no group. -/
def match_char (x : Char) (s : Str) : Option (Nat × Str) :=
  match s with
  | c :: _ => if c = x then some (1, []) else none
  | [] => none

/-- Pattern `[ \t]+`; it has no group. -/
def match_SKIP (s : Str) : Option (Nat × Str) :=
  let ws := s.takeWhile (fun c => c == ' ' || c == '\t')
  if ws.isEmpty then none else some (ws.length, [])

/-- Pattern `.`: any character that is not a line terminator; no group. -/
def match_UNKNOWN (s : Str) : Option (Nat × Str) :=
  match s with
  | c :: _ => if c == '\n' || c == '\r' then none else some (1, [])
  | [] => none

/-- The table `rules`, in the order of the source. -/
def rules : List (TokenType × (Str → Option (Nat × Str))) :=
  [ (TokenType.NUMBER, match_NUMBER),
    (TokenType.STRING, match_STRING),
    (TokenType.BITWISE, match_BITWISE),
    (TokenType.NAME, match_NAME),
    (TokenType.OP, match_OP),
    (TokenType.LPAREN, match_char '('),
    (TokenType.RPAREN, match_char ')'),
    (TokenType.COMMA, match_char ','),
    (TokenType.SKIP, match_SKIP),
    (TokenType.UNKNOWN, match_UNKNOWN) ]

/-- The inner `for` loop of `tokenize`: the first rule that matches gives
`kind`, the match length and `txt = m[1]`. -/
def first_match : List (TokenType × (Str → Option (Nat × Str))) → Str →
    Option (TokenType × Nat × Str)
  | [], _ => none
  | (kind, pat) :: rest, s =>
    match pat s with
    | some (len, txt) => some (kind, len, txt)
    | none => first_match rest s

def KEYWORDS : List Str :=
  [ "PRINT", "LET", "INPUT", "GOTO", "IF", "THEN", "FOR", "TO", "STEP", "NEXT",
    "GOSUB", "RETURN", "REM", "END", "STOP", "DATA", "READ", "RESTORE", "LIST",
    "RUN", "NEW" ].map String.toList

/-- The table `FUNCS`: the number of arguments of each built-in function. -/
def FUNCS : List (Str × Nat) :=
  [ ("ABS", 1), ("ATN", 1), ("COS", 1), ("EXP", 1), ("INT", 1),
    ("LOG", 1), ("SGN", 1), ("SIN", 1), ("SQR", 1), ("TAN", 1),
    ("RND", 1), ("PEEK", 1), ("POS", 0), ("SPC", 1), ("TAB", 1),
    ("ASC", 1), ("LEN", 1), ("VAL", 1), ("CHR$", 1), ("STR$", 1),
    ("LEFT$", 2), ("MID$", 3), ("RIGHT$", 2) ].map fun p => (p.1.toList, p.2)

/-- The value of the digits `ds` read as a decimal fraction `0.ds`. -/
def frac_value : Str → ℚ
  | [] => 0
  | c :: rest => ((c.toNat - 48 : Nat) + frac_value rest) / 10

/-- The value of the digits `ds` read as a natural number, after `acc`. -/
def digits_value (acc : Nat) : Str → Nat
  | [] => acc
  | c :: rest => digits_value (10 * acc + (c.toNat - 48)) rest

/-- The function `atof` on plain decimal text: optional white space and sign,
digits, an optional point and digits; the longest such prefix is converted to
the nearest `double` and text without one gives `0`.  Exponents, hexadecimal
and the special values are not covered; `tokenize` never passes them. -/
def atof (s : Str) : ℚ :=
  let s1 := s.dropWhile is_space
  let neg := s1.head? == some '-'
  let s2 := if s1.head? == some '-' || s1.head? == some '+' then s1.drop 1 else s1
  let ip := s2.takeWhile Char.isDigit
  let s3 := s2.drop ip.length
  let fp := match s3 with
    | '.' :: rest => rest.takeWhile Char.isDigit
    | _ => []
  if ip.isEmpty && fp.isEmpty then 0
  else
    let v : ℚ := (digits_value 0 ip : ℚ) + frac_value fp
    to_double (if neg then -v else v)

/-- One token of `tokenize` from the matched `kind` and `txt`; `none` for the
white space that is skipped.  The `double` of `atof` is stored in a `float`. -/
def make_token (kind : TokenType) (txt : Str) : Option Token :=
  match kind with
  | TokenType.SKIP => none
  | TokenType.NUMBER => some ⟨kind, TokenValue.num (to_float (atof txt))⟩
  | TokenType.STRING => some ⟨kind, TokenValue.str txt⟩
  | TokenType.BITWISE => some ⟨kind, TokenValue.str txt⟩
  | TokenType.NAME =>
    let up := to_upper txt
    if up ∈ KEYWORDS then some ⟨TokenType.KEYWORD, TokenValue.str up⟩
    else if (FUNCS.lookup up).isSome then some ⟨TokenType.FUNC, TokenValue.str up⟩
    else some ⟨TokenType.NAME, TokenValue.str up⟩
  | TokenType.OP => some ⟨kind, TokenValue.str txt⟩
  | TokenType.LPAREN => some ⟨kind, TokenValue.str txt⟩
  | TokenType.RPAREN => some ⟨kind, TokenValue.str txt⟩
  | TokenType.COMMA => some ⟨kind, TokenValue.str txt⟩
  | _ => some ⟨TokenType.UNKNOWN, TokenValue.str txt⟩

/-- The `while` loop of `tokenize` on the text that remains after `pos`. -/
def tokenize_loop : Nat → Str → Except Err (List Token)
  | _, [] => Except.ok []
  | 0, _ :: _ => Except.error Err.outOfFuel
  | fuel + 1, c :: cs =>
    match first_match rules (c :: cs) with
    | none => Except.error Err.tokenizerStuck
    | some (kind, len, txt) =>
      match tokenize_loop fuel ((c :: cs).drop len) with
      | Except.error e => Except.error e
      | Except.ok toks =>
        match make_token kind txt with
        | none => Except.ok toks
        | some t => Except.ok (t :: toks)

def tokenize (s : Str) : Except Err (List Token) :=
  tokenize_loop s.length s

/-! ## Expression parser: shunting-yard (`main.cpp` lines 184-249) -/

def PREC : List (Str × Int) :=
  [ ("^", 5), ("*", 4), ("/", 4), ("+", 3), ("-", 3),
    ("AND", 2), ("OR", 2), ("NOT", 2),
    ("=", 1), ("<", 1), (">", 1), ("<=", 1), (">=", 1), ("<>", 1) ].map
    fun p => (p.1.toList, p.2)

def RIGHT_ASSOC : List Str := [ "^".toList ]

/-- The lookup `PREC.at(std::get<std::string>(v))`. -/
def PREC_at (v : TokenValue) : Except Err Int :=
  match get_string v with
  | Except.error e => Except.error e
  | Except.ok s =>
    match PREC.lookup s with
    | some p => Except.ok p
    | none => Except.error Err.outOfRange

/-- The `while` loop of the `RPAREN` branch: the stack entries above the first
`LPAREN` move to the output. -/
def pop_to_lparen : List Token → List Token → List Token × List Token
  | out, [] => (out, [])
  | out, top :: rest =>
    if top.type ≠ TokenType.LPAREN then pop_to_lparen (out ++ [top]) rest
    else (out, top :: rest)

/-- The `while` loop of the `OP` branch for the operator with payload `val`. -/
def pop_ops (val : TokenValue) : List Token → List Token →
    Except Err (List Token × List Token)
  | out, [] => Except.ok (out, [])
  | out, top :: rest =>
    if top.type ≠ TokenType.OP then
      match PREC_at top.value with
      | Except.error e => Except.error e
      | Except.ok at_o2 =>
        match PREC_at val with
        | Except.error e => Except.error e
        | Except.ok at_val =>
          if at_o2 > at_val ∧ (at_o2 = at_val ∧ as_string val ∉ RIGHT_ASSOC) then
            pop_ops val (out ++ [top]) rest
          else Except.ok (out, top :: rest)
    else Except.ok (out, top :: rest)

/-- The body of the `for` loop of `to_rpn` for one token. -/
def to_rpn_step (t : Token) (out stack : List Token) :
    Except Err (List Token × List Token) :=
  match t.type with
  | TokenType.NUMBER => Except.ok (out ++ [t], stack)
  | TokenType.STRING => Except.ok (out ++ [t], stack)
  | TokenType.NAME => Except.ok (out ++ [t], stack)
  | TokenType.KEYWORD => Except.ok (out ++ [t], stack)
  | TokenType.FUNC => Except.ok (out, t :: stack)
  | TokenType.LPAREN => Except.ok (out, t :: stack)
  | TokenType.RPAREN =>
    match pop_to_lparen out stack with
    | (_, []) => Except.error Err.mismatchedParentheses
    | (out1, _ :: stack1) =>
      match stack1 with
      | [] => Except.ok (out1, [])
      | top :: stack2 =>
        if top.type ≠ TokenType.FUNC then Except.ok (out1 ++ [top], stack2)
        else Except.ok (out1, top :: stack2)
  | TokenType.OP =>
    match pop_ops t.value out stack with
    | Except.error e => Except.error e
    | Except.ok (out1, stack1) => Except.ok (out1, t :: stack1)
  | TokenType.BITWISE =>
    match stack with
    | [] => Except.ok (out, [t])
    | top :: rest =>
      if top.type ≠ TokenType.BITWISE then Except.ok (out ++ [top], t :: rest)
      else Except.ok (out, t :: top :: rest)
  | TokenType.COMMA => Except.ok (out, t :: stack)
  | _ => Except.error Err.unknownTokenType

/-- The `for` loop of `to_rpn`. -/
def to_rpn_loop : List Token → List Token → List Token →
    Except Err (List Token × List Token)
  | [], out, stack => Except.ok (out, stack)
  | t :: ts, out, stack =>
    match to_rpn_step t out stack with
    | Except.error e => Except.error e
    | Except.ok (out1, stack1) => to_rpn_loop ts out1 stack1

/-- The final `while` loop of `to_rpn`: the stack is emptied into the output. -/
def to_rpn_flush : List Token → List Token → Except Err (List Token)
  | out, [] => Except.ok out
  | out, top :: rest =>
    if top.type = TokenType.LPAREN ∨ top.type = TokenType.RPAREN then
      Except.error Err.mismatchedParentheses
    else to_rpn_flush (out ++ [top]) rest

def to_rpn (tokens : List Token) : Except Err (List Token) :=
  match to_rpn_loop tokens [] [] with
  | Except.error e => Except.error e
  | Except.ok (out, stack) => to_rpn_flush out stack

/-! ## Built-in functions and the postfix evaluator (`main.cpp` lines 253-389) -/

/-- The access `args[i]`. -/
def arg (args : List TokenValue) (i : Nat) : Except Err TokenValue :=
  match args.get? i with
  | some v => Except.ok v
  | none => Except.error Err.undefinedBehaviour

/-- The call `s.substr(pos, n)`. -/
def substr (s : Str) (pos n : Nat) : Except Err Str :=
  if pos > s.length then Except.error Err.outOfRange
  else Except.ok ((s.drop pos).take n)

/-- The character with the code `i` reduced to one byte. -/
def char_of_int (i : Int) : Char := Char.ofNat (i % 256).toNat

/-- The function `std::pow` where its value is an exact rational: an integer
exponent, and a base other than zero when the exponent is negative. -/
def float_pow (a b : ℚ) : Except Err ℚ :=
  if b.den = 1 then
    if 0 ≤ b.num then float_exact (a ^ b.num.toNat)
    else if a = 0 then Except.error Err.inexact
    else float_exact (1 / a ^ (-b.num).toNat)
  else Except.error Err.inexact

/-- The `if` chain of `eval_func`, inside its `try` block. -/
def eval_func_body (name : Str) (args : List TokenValue) : Except Err TokenValue :=
  if name = "ABS".toList then do
    let a ← arg args 0
    pure (TokenValue.num |as_number a|)
  else if name = "ATN".toList then do let _ ← arg args 0; throw Err.inexact
  else if name = "COS".toList then do let _ ← arg args 0; throw Err.inexact
  else if name = "EXP".toList then do let _ ← arg args 0; throw Err.inexact
  else if name = "INT".toList then do
    let a ← arg args 0
    pure (TokenValue.num (as_number a).floor)
  else if name = "LOG".toList then do let _ ← arg args 0; throw Err.inexact
  else if name = "SGN".toList then do
    let a ← arg args 0
    pure (TokenValue.num (if as_number a = 0 then 0 else as_number a / |as_number a|))
  else if name = "SIN".toList then do let _ ← arg args 0; throw Err.inexact
  else if name = "SQR".toList then do let _ ← arg args 0; throw Err.inexact
  else if name = "TAN".toList then do let _ ← arg args 0; throw Err.inexact
  else if name = "RND".toList then throw Err.inexact
  else if name = "SPC".toList then do
    let a ← arg args 0
    let n ← float_to_int (as_number a)
    if n < 0 then throw Err.outOfRange
    else pure (TokenValue.str (List.replicate n.toNat ' '))
  else if name = "CHR$".toList then do
    let a ← arg args 0
    let n ← float_to_int (as_number a)
    pure (TokenValue.num (((n + 128) % 256 - 128 : Int) : ℚ))
  else if name = "STR$".toList then do
    let a ← arg args 0
    pure (TokenValue.str (as_string a))
  else if name = "ASC".toList then do
    let a ← arg args 0
    let n ← float_to_int (as_number a)
    if -128 ≤ n ∧ n ≤ 127 then pure (TokenValue.str [char_of_int n])
    else throw Err.undefinedBehaviour
  else if name = "LEN".toList then do
    let a ← arg args 0
    pure (TokenValue.num (to_float ((as_string a).length : ℚ)))
  else if name = "VAL".toList then do
    let a ← arg args 0
    pure (TokenValue.num (as_number a))
  else if name = "LEFT$".toList then do
    let a ← arg args 0
    let b ← arg args 1
    let n ← float_to_size (as_number b)
    let r ← substr (as_string a) 0 n
    pure (TokenValue.str r)
  else if name = "RIGHT$".toList then do
    let a ← arg args 0
    let b ← arg args 1
    let len ← size_to_int (as_string a).length
    let pos ← float_to_size (to_float (to_float (len : ℚ) - as_number b))
    let n ← float_to_size (as_number b)
    let r ← substr (as_string a) pos n
    pure (TokenValue.str r)
  else if name = "MID$".toList then do
    let a ← arg args 0
    let b ← arg args 1
    let c ← arg args 2
    let pos ← float_to_size (as_number b)
    let n ← float_to_size (as_number c)
    let r ← substr (as_string a) pos n
    pure (TokenValue.str r)
  else pure (TokenValue.num 0)

/-- The function `eval_func`: its `catch (...)` turns every C++ exception of
the body into the one error "Error at parsing function". -/
def eval_func (name : Str) (args : List TokenValue) : Except Err TokenValue :=
  match eval_func_body name args with
  | Except.error Err.outOfRange => Except.error Err.errorAtParsingFunction
  | Except.error Err.badVariantAccess => Except.error Err.errorAtParsingFunction
  | r => r

/-- The lookup `FUNCS.at(fname)`. -/
def FUNCS_at (fname : Str) : Except Err Nat :=
  match FUNCS.lookup fname with
  | some n => Except.ok n
  | none => Except.error Err.outOfRange

/-- The arithmetic and comparison operators of `eval_rpn` on `a` and `b`. -/
def eval_op (op : Str) (a b : ℚ) : Except Err ℚ :=
  if op = "+".toList then float_result (a + b)
  else if op = "-".toList then float_result (a - b)
  else if op = "*".toList then float_signed_result a b (a * b)
  else if op = "/".toList then
    (if b = 0 then Except.error Err.inexact else float_signed_result a b (a / b))
  else if op = "^".toList then float_pow a b
  else if op = "=".toList then Except.ok (if a = b then 1 else 0)
  else if op = "<".toList then Except.ok (if a < b then 1 else 0)
  else if op = ">".toList then Except.ok (if a > b then 1 else 0)
  else if op = "<=".toList then Except.ok (if a ≤ b then 1 else 0)
  else if op = ">=".toList then Except.ok (if a ≥ b then 1 else 0)
  else if op = "<>".toList then Except.ok (if a ≠ b then 1 else 0)
  else Except.error (Err.unknownOperator op)

/-- The body of the `for` loop of `eval_rpn` for one token, on the operand
stack `st` (top first): the new stack, or the error thrown, and the
environment, which the source holds by reference. -/
def eval_rpn_step (t : Token) (env : Env) (st : List TokenValue) :
    Except Err (List TokenValue) × Env :=
  match t.type with
  | TokenType.NUMBER => (Except.ok (t.value :: st), env)
  | TokenType.STRING => (Except.ok (t.value :: st), env)
  | TokenType.NAME =>
    match get_string t.value with
    | Except.error e => (Except.error e, env)
    | Except.ok name =>
      if (env_find env name).isSome then
        (Except.ok ((env_index env name).1 :: st), (env_index env name).2)
      else if is_string_var name || name == "SPC".toList then
        (Except.ok (TokenValue.str [] :: st), env)
      else (Except.ok (TokenValue.num 0 :: st), env)
  | TokenType.FUNC =>
    match get_string t.value with
    | Except.error e => (Except.error e, env)
    | Except.ok fname =>
      match FUNCS_at fname with
      | Except.error e => (Except.error e, env)
      | Except.ok argc =>
        if st.length < argc then (Except.error Err.undefinedBehaviour, env)
        else
          match eval_func fname (st.take argc).reverse with
          | Except.error e => (Except.error e, env)
          | Except.ok v => (Except.ok (v :: st.drop argc), env)
  | TokenType.OP =>
    match get_string t.value with
    | Except.error e => (Except.error e, env)
    | Except.ok op =>
      match st with
      | [] => (Except.error Err.undefinedBehaviour, env)
      | [x] =>
        if op = "-".toList then
          ((float_neg (as_number x)).map fun r => [TokenValue.num r], env)
        else (Except.error Err.undefinedBehaviour, env)
      | y :: x :: rest =>
        match eval_op op (as_number x) (as_number y) with
        | Except.error e => (Except.error e, env)
        | Except.ok r => (Except.ok (TokenValue.num r :: rest), env)
  | TokenType.BITWISE =>
    match get_string t.value with
    | Except.error e => (Except.error e, env)
    | Except.ok op =>
      if op = "NOT".toList then
        match st with
        | [] => (Except.error Err.undefinedBehaviour, env)
        | x :: rest =>
          (Except.ok (TokenValue.num (if as_number x = 0 then 1 else 0) :: rest), env)
      else
        match st with
        | y :: x :: rest =>
          if op = "AND".toList then
            (Except.ok (TokenValue.num
              (if as_number x ≠ 0 ∧ as_number y ≠ 0 then 1 else 0) :: rest), env)
          else if op = "OR".toList then
            (Except.ok (TokenValue.num
              (if as_number x ≠ 0 ∨ as_number y ≠ 0 then 1 else 0) :: rest), env)
          else (Except.error (Err.unknownBitwiseOp op), env)
        | _ => (Except.error Err.undefinedBehaviour, env)
  | TokenType.COMMA => (Except.ok st, env)
  | _ => (Except.error Err.unknownTokenTypeInEval, env)

/-- The `for` loop of `eval_rpn`. -/
def eval_rpn_loop : List Token → Env → List TokenValue →
    Except Err (List TokenValue) × Env
  | [], env, st => (Except.ok st, env)
  | t :: ts, env, st =>
    match eval_rpn_step t env st with
    | (Except.error e, env1) => (Except.error e, env1)
    | (Except.ok st1, env1) => eval_rpn_loop ts env1 st1

/-- The function `eval_rpn`: the value on top of the operand stack, or the
float `0.0` when the stack is empty, together with the environment as the
call leaves it. -/
def eval_rpn (rpn : List Token) (env : Env) : Except Err TokenValue × Env :=
  match eval_rpn_loop rpn env [] with
  | (Except.error e, env1) => (Except.error e, env1)
  | (Except.ok [], env1) => (Except.ok (TokenValue.num 0), env1)
  | (Except.ok (top :: _), env1) => (Except.ok top, env1)

/-! ## Program storage and interpreter (`main.cpp` lines 395-759)

A method of the class is a function from the state before the call to the
state the call leaves and the error it threw, if any: a `throw` keeps the
changes made before it. -/

/-- The fields of `class BasicInterpreter`, with the text written to
`std::cout` so far and the lines that `std::cin` still holds. -/
structure BasicInterpreter where
  program : List ProgramLine
  vars : Env
  for_stack : List ForElement
  gosub_stack : List Int
  pc : Int
  running : Bool
  cout : Str
  cin : List Str
  deriving DecidableEq

/-- The outcome of a method: the error thrown, if any, and the state left. -/
abbrev Outcome := Option Err × BasicInterpreter

/-- The method `output_callback`: the text and a line end go to `std::cout`. -/
def output_callback (text : Str) (s : BasicInterpreter) : BasicInterpreter :=
  { s with cout := s.cout ++ text ++ ['\n'] }

/-- The scan of `find_line_index` from index `i` on. -/
def find_line_from (line_target : Int) : List ProgramLine → Int → Int
  | [], _ => -1
  | line :: rest, i =>
    if line.lineno = line_target then i else find_line_from line_target rest (i + 1)

/-- The method `find_line_index`: the index of the first stored line with the
number `line_target`, or `-1`. -/
def find_line_index (s : BasicInterpreter) (line_target : Int) : Int :=
  find_line_from line_target s.program 0

/-- The access `toks[i]`. -/
def tok_at (toks : List Token) (i : Nat) : Except Err Token :=
  match toks.get? i with
  | some t => Except.ok t
  | none => Except.error Err.undefinedBehaviour

/-- The text that `what()` returns for the two errors thrown by `to_rpn`. -/
def what (e : Err) : Str :=
  match e with
  | Err.mismatchedParentheses => "Mismatched parentheses".toList
  | Err.unknownTokenType => "Unknown token type".toList
  | _ => []

/-- Whether the token is the `OP` token `;`, the test of the inner loop of
`do_PRINT`. -/
def is_semicolon (t : Token) : Bool :=
  t.type == TokenType.OP && as_string t.value == ";".toList

/-- The part that one turn of the outer loop of `do_PRINT` reads at the head
of `toks`: the parts so far with the new one, and the tokens that remain. -/
def print_part (toks : List Token) (parts : List Str) (env : Env) :
    Except Err (List Str × List Token) × Env :=
  match toks with
  | [] => (Except.ok (parts, []), env)
  | t :: ts =>
    if t.type = TokenType.STRING then (Except.ok (parts ++ [as_string t.value], ts), env)
    else
      let sub := (t :: ts).takeWhile (fun x => !is_semicolon x)
      let rest := (t :: ts).drop sub.length
      if sub.isEmpty then (Except.ok (parts, rest), env)
      else
        match to_rpn sub with
        | Except.error e => (Except.error e, env)
        | Except.ok rpn =>
          match eval_rpn rpn env with
          | (Except.error e, env1) => (Except.error e, env1)
          | (Except.ok v, env1) => (Except.ok (parts ++ [as_string v], rest), env1)

/-- The outer `while` loop of `do_PRINT` on the tokens from index `i` on: the
parts collected and the separator. -/
def do_PRINT_loop : Nat → List Token → List Str → Str → Env →
    Except Err (List Str × Str) × Env
  | _, [], parts, sep, env => (Except.ok (parts, sep), env)
  | 0, _ :: _, _, _, env => (Except.error Err.outOfFuel, env)
  | fuel + 1, t :: ts, parts, sep, env =>
    match print_part (t :: ts) parts env with
    | (Except.error e, env1) => (Except.error e, env1)
    | (Except.ok (parts1, rest), env1) =>
      match rest with
      | [] => (Except.ok (parts1, sep), env1)
      | u :: us =>
        if u.type = TokenType.OP then
          let op := as_string u.value
          let sep1 := if op = ",".toList then " ".toList else sep
          let sep2 := if op = ";".toList then [] else sep1
          do_PRINT_loop fuel us parts1 sep2 env1
        else do_PRINT_loop fuel (u :: us) parts1 sep env1

/-- The method `do_PRINT`: every part is followed by the last separator. -/
def do_PRINT (toks : List Token) (s : BasicInterpreter) : Outcome :=
  match do_PRINT_loop toks.length toks [] " ".toList s.vars with
  | (Except.error e, env1) => (some e, { s with vars := env1 })
  | (Except.ok (parts, sep), env1) =>
    (none, output_callback (parts.map (fun part => part ++ sep)).flatten { s with vars := env1 })

/-- The `try` block of the assignment branch: the postfix form, which stays
empty when `to_rpn` throws a `std::runtime_error`, whose message is printed. -/
def assign_rpn (toks : List Token) (s : BasicInterpreter) :
    Except Err (List Token) × BasicInterpreter :=
  match to_rpn (toks.drop 2) with
  | Except.ok rpn => (Except.ok rpn, s)
  | Except.error Err.mismatchedParentheses =>
    (Except.ok [], { s with cout := s.cout ++ what Err.mismatchedParentheses ++ ['\n'] })
  | Except.error Err.unknownTokenType =>
    (Except.ok [], { s with cout := s.cout ++ what Err.unknownTokenType ++ ['\n'] })
  | Except.error e => (Except.error e, s)

/-- The assignment branch of `exec_stmt` (lines 520-536); `first_v` is the
payload of the first token. -/
def exec_assign (toks : List Token) (first_v : Str) (s : BasicInterpreter) : Outcome :=
  match assign_rpn toks s with
  | (Except.error e, s1) => (some e, s1)
  | (Except.ok rpn, s1) =>
    match eval_rpn rpn s1.vars with
    | (Except.error e, env1) => (some e, { s1 with vars := env1 })
    | (Except.ok _, env1) =>
      let s2 := { s1 with vars := env1 }
      match first_v.getLast? with
      | none => (some Err.undefinedBehaviour, s2)
      | some c =>
        match tok_at toks 2 with
        | Except.error e => (some e, s2)
        | Except.ok t2 =>
          if c = '$' then
            match get_string t2.value with
            | Except.error e => (some e, s2)
            | Except.ok str =>
              (none, { s2 with vars := env_set s2.vars first_v (TokenValue.str str) })
          else
            (none, { s2 with vars := env_set s2.vars first_v (TokenValue.num (as_number t2.value)) })

/-- The items that `std::getline(ss, item, ',')` reads from `rest`: the texts
between the commas, without a last empty one. -/
def split_commas : Str → Str → List Str
  | [], cur => if cur.isEmpty then [] else [cur]
  | c :: rest, cur =>
    if c = ',' then cur :: split_commas rest [] else split_commas rest (cur ++ [c])

/-- The power `10 ^ k` for an integer `k`. -/
def pow10 (k : Int) : ℚ :=
  if 0 ≤ k then ((10 ^ k.toNat : Nat) : ℚ) else 1 / ((10 ^ (-k).toNat : Nat) : ℚ)

/-- The exponent part of a decimal number at the head of a text: the letter
`e` or `E`, an optional sign and at least one digit. -/
def exponent_part (s : Str) : Option Int :=
  match s with
  | c :: r1 =>
    if c = 'e' ∨ c = 'E' then
      let r2 := if r1.head? == some '-' || r1.head? == some '+' then r1.drop 1 else r1
      let ds := r2.takeWhile Char.isDigit
      if ds.isEmpty then none
      else if r1.head? == some '-' then some (-(digits_value 0 ds : Int))
      else some (digits_value 0 ds : Int)
    else none
  | [] => none

/-- Whether the text after the sign opens a number that `std::stod` reads
and that is not modelled: a hexadecimal number, an infinity or a NaN. -/
def special_number (s : Str) : Bool :=
  (s.take 3).map Char.toLower == "inf".toList || (s.take 3).map Char.toLower == "nan".toList
    || (s.take 2).map Char.toLower == "0x".toList

/-- The value `(float)std::stod(v)` of a decimal number with an optional
exponent: `none` when the call throws, because no number can be read or
because the number is too large for a `double`.  The model stops with
`Err.inexact` at a hexadecimal number, an infinity or a NaN, at a number too
large for a `float` (the conversion gives an infinity), at a number below
the least normal `double`, where the error indication of `strtod` decides,
and at a number with a minus sign whose `float` is zero (the negative
zero). -/
def stod (v : Str) : Except Err (Option ℚ) :=
  let s1 := v.dropWhile is_space
  let s2 := if s1.head? == some '-' || s1.head? == some '+' then s1.drop 1 else s1
  if special_number s2 then Except.error Err.inexact
  else
    let ip := s2.takeWhile Char.isDigit
    let fp := match s2.drop ip.length with
      | '.' :: rest => rest.takeWhile Char.isDigit
      | _ => []
    let s4 := match s2.drop ip.length with
      | '.' :: rest => rest.drop fp.length
      | rest => rest
    if ip.isEmpty && fp.isEmpty then Except.ok none
    else
      let m : ℚ := ((digits_value 0 ip : ℚ) + frac_value fp) * pow10 ((exponent_part s4).getD 0)
      let x : ℚ := if s1.head? == some '-' then -m else m
      if pow2 1024 ≤ |to_double x| then Except.ok none
      else if x ≠ 0 ∧ |x| < pow2 (-1022) then Except.error Err.inexact
      else if pow2 128 ≤ |to_float (to_double x)| then Except.error Err.inexact
      else if s1.head? == some '-' ∧ to_float (to_double x) = 0 then Except.error Err.inexact
      else Except.ok (some (to_float (to_double x)))

/-- The loop over the names of the `INPUT` branch. -/
def input_names : List Str → BasicInterpreter → Outcome
  | [], s => (none, s)
  | nm :: rest, s =>
    match nm.getLast? with
    | none => (some Err.undefinedBehaviour, s)
    | some c =>
      let v := s.cin.headD []
      let s1 := { s with cout := s.cout ++ "? ".toList, cin := s.cin.drop 1 }
      if c = '$' then input_names rest { s1 with vars := env_set s1.vars nm (TokenValue.str v) }
      else
        match stod v with
        | Except.error e => (some e, s)
        | Except.ok x =>
          input_names rest { s1 with vars := env_set s1.vars nm (TokenValue.num (x.getD 0)) }

/-- The `INPUT` branch of `exec_stmt` (lines 537-571). -/
def exec_INPUT (stmt : Str) (s : BasicInterpreter) : Outcome :=
  if stmt.length < 5 then (some Err.undefinedBehaviour, s)
  else input_names ((split_commas (strip (stmt.drop 5)) []).map (fun item => to_upper (strip item))) s

/-- The text of the C string `lit + n` for a string literal `lit`, which is
what the expression `"..." + target` of the two "unknown line" `throw`s
denotes: the rest of the literal from offset `n` on.  An offset that leaves
the literal makes the pointer arithmetic undefined (`none`). -/
def literal_plus (lit : Str) (n : Int) : Option Str :=
  if 0 ≤ n ∧ n ≤ lit.length then some (lit.drop n.toNat) else none

/-- The `GOTO` branch of `exec_stmt` (lines 572-579). -/
def exec_GOTO (toks : List Token) (s : BasicInterpreter) : Outcome :=
  match tok_at toks 1 with
  | Except.error e => (some e, s)
  | Except.ok t1 =>
    match float_to_int (as_number t1.value) with
    | Except.error e => (some e, s)
    | Except.ok goto_target =>
      if find_line_index s goto_target = -1 then
        match literal_plus "GOTO TO UNKNOWN line ".toList goto_target with
        | some msg => (some (Err.gotoUnknownLine msg), s)
        | none => (some Err.undefinedBehaviour, s)
      else (none, { s with pc := find_line_index s goto_target })

/-- The `GOSUB` branch of `exec_stmt` (lines 580-588); `pc+1` overflows when
`pc` is the greatest `int`. -/
def exec_GOSUB (toks : List Token) (s : BasicInterpreter) : Outcome :=
  match tok_at toks 1 with
  | Except.error e => (some e, s)
  | Except.ok t1 =>
    match float_to_int (as_number t1.value) with
    | Except.error e => (some e, s)
    | Except.ok goto_target =>
      if find_line_index s goto_target = -1 then
        match literal_plus "GOTO TO UNKNOWN line ".toList goto_target with
        | some msg => (some (Err.gotoUnknownLine msg), s)
        | none => (some Err.undefinedBehaviour, s)
      else if s.pc = 2147483647 then (some Err.undefinedBehaviour, s)
      else
        (none, { s with gosub_stack := (s.pc + 1) :: s.gosub_stack,
                        pc := find_line_index s goto_target })

/-- The `RETURN` branch of `exec_stmt` (lines 589-595). -/
def exec_RETURN (s : BasicInterpreter) : Outcome :=
  match s.gosub_stack with
  | [] => (some Err.returnWithoutGosub, s)
  | top :: rest => (none, { s with pc := top, gosub_stack := rest })

/-- The search loops of the `IF` and `FOR` branches: the index of the first
`KEYWORD` token with the payload `kw`, or the number of tokens when there is
none. -/
def find_keyword (kw : Str) : List Token → Except Err Nat
  | [] => Except.ok 0
  | t :: ts =>
    if t.type = TokenType.KEYWORD then
      match get_string t.value with
      | Except.error e => Except.error e
      | Except.ok v =>
        if v = kw then Except.ok 0
        else
          match find_keyword kw ts with
          | Except.error e => Except.error e
          | Except.ok n => Except.ok (n + 1)
    else
      match find_keyword kw ts with
      | Except.error e => Except.error e
      | Except.ok n => Except.ok (n + 1)

/-- The jump of the `IF` branch (lines 613-619), taken when the test holds. -/
def exec_IF_jump (toks : List Token) (then_idx : Nat) (s : BasicInterpreter) : Outcome :=
  match tok_at toks (then_idx + 1) with
  | Except.error e => (some e, s)
  | Except.ok target_tok =>
    match float_to_int (as_number target_tok.value) with
    | Except.error e => (some e, s)
    | Except.ok target =>
      if find_line_index s target = -1 then
        match literal_plus "IF THEN to unknown line ".toList target with
        | some msg => (some (Err.ifThenUnknownLine msg), s)
        | none => (some Err.undefinedBehaviour, s)
      else (none, { s with pc := find_line_index s target })

/-- The `IF` branch of `exec_stmt` (lines 596-621). -/
def exec_IF (toks : List Token) (s : BasicInterpreter) : Outcome :=
  match find_keyword "THEN".toList toks with
  | Except.error e => (some e, s)
  | Except.ok then_idx =>
    if then_idx = toks.length then (some Err.ifWithoutThen, s)
    else
      match to_rpn ((toks.take then_idx).drop 1) with
      | Except.error e => (some e, s)
      | Except.ok rpn =>
        match eval_rpn rpn s.vars with
        | (Except.error e, env1) => (some e, { s with vars := env1 })
        | (Except.ok cond, env1) =>
          if as_number cond ≠ 0 ∧ as_string cond ≠ [] then
            exec_IF_jump toks then_idx { s with vars := env1 }
          else (none, { s with vars := env1 })

/-- The test of `std::any_of` in the `FOR` branch. -/
def is_step_keyword (t : Token) : Bool :=
  t.type == TokenType.KEYWORD && t.value == TokenValue.str "STEP".toList

/-- The test that opens the `FOR` branch (line 625): whether the statement is
malformed. -/
def for_malformed (toks : List Token) : Except Err Bool :=
  match tok_at toks 1 with
  | Except.error e => Except.error e
  | Except.ok t1 =>
    if t1.type ≠ TokenType.NAME then Except.ok true
    else
      match tok_at toks 2 with
      | Except.error e => Except.error e
      | Except.ok t2 =>
        if t2.type ≠ TokenType.OP then Except.ok true
        else
          match get_string t2.value with
          | Except.error e => Except.error e
          | Except.ok v2 => Except.ok (decide (v2 ≠ "=".toList))

/-- The end of the `FOR` branch (lines 666-668), from the postfix form of the
end expression and the value `step`. -/
def exec_FOR_push (var : Str) (start step : TokenValue) (rpn_end : List Token)
    (s : BasicInterpreter) : Outcome :=
  match eval_rpn rpn_end s.vars with
  | (Except.error e, env1) => (some e, { s with vars := env1 })
  | (Except.ok end_, env1) =>
    if s.pc = 2147483647 then (some Err.undefinedBehaviour, { s with vars := env1 })
    else
      (none, { s with
        vars := env_set env1 var start,
        for_stack := ⟨var, as_number end_, as_number step, s.pc + 1⟩ :: s.for_stack })

/-- The part of the `FOR` branch after the start value (lines 643-668).  With
a `STEP` keyword the second search again looks for `TO`, and the range of the
end expression runs `step_idx` places past `toks.end()`; without one `step`
stays the value-initialised variant, the float `0.0`. -/
def exec_FOR_rest (toks : List Token) (var : Str) (to_idx : Nat) (start : TokenValue)
    (s : BasicInterpreter) : Outcome :=
  if toks.any is_step_keyword then
    match find_keyword "TO".toList toks with
    | Except.error e => (some e, s)
    | Except.ok step_idx =>
      if step_idx ≠ 0 then (some Err.undefinedBehaviour, s)
      else
        match to_rpn (toks.drop (to_idx + 1)) with
        | Except.error e => (some e, s)
        | Except.ok rpn_end =>
          match to_rpn (toks.drop (step_idx + 1)) with
          | Except.error e => (some e, s)
          | Except.ok rpn_step =>
            match eval_rpn rpn_step s.vars with
            | (Except.error e, env1) => (some e, { s with vars := env1 })
            | (Except.ok step, env1) =>
              exec_FOR_push var start step rpn_end { s with vars := env1 }
  else
    match to_rpn (toks.drop (to_idx + 1)) with
    | Except.error e => (some e, s)
    | Except.ok rpn_end => exec_FOR_push var start (TokenValue.num 0) rpn_end s

/-- The `FOR` branch of `exec_stmt` (lines 622-669). -/
def exec_FOR (toks : List Token) (s : BasicInterpreter) : Outcome :=
  match for_malformed toks with
  | Except.error e => (some e, s)
  | Except.ok true => (some Err.malformedFor, s)
  | Except.ok false =>
    match tok_at toks 1 with
    | Except.error e => (some e, s)
    | Except.ok t1 =>
      match get_string t1.value with
      | Except.error e => (some e, s)
      | Except.ok var =>
        match find_keyword "TO".toList toks with
        | Except.error e => (some e, s)
        | Except.ok to_idx =>
          if to_idx = toks.length then (some Err.forWithoutTo, s)
          else if to_idx < 3 then (some Err.undefinedBehaviour, s)
          else
            match to_rpn ((toks.take to_idx).drop 3) with
            | Except.error e => (some e, s)
            | Except.ok rpn_start =>
              match eval_rpn rpn_start s.vars with
              | (Except.error e, env1) => (some e, { s with vars := env1 })
              | (Except.ok start, env1) =>
                exec_FOR_rest toks var to_idx start { s with vars := env1 }

/-- The `NEXT` branch of `exec_stmt` (lines 670-690). -/
def exec_NEXT (toks : List Token) (s : BasicInterpreter) : Outcome :=
  let var : Str :=
    match toks.get? 1 with
    | some t1 => if t1.type = TokenType.NAME then as_string t1.value else []
    | none => []
  match s.for_stack with
  | [] => (some Err.nextWithoutFor, s)
  | f :: rest =>
    if !var.isEmpty ∧ var ≠ f.var then (some Err.nextVariableMismatch, s)
    else
      let r := env_index s.vars f.var
      match float_result (as_number r.1 + f.step) with
      | Except.error e => (some e, s)
      | Except.ok x =>
        let vars1 := env_set r.2 f.var (TokenValue.num x)
        if (f.step > 0 ∧ x ≤ f.end_) ∨ (f.step < 0 ∧ x ≥ f.end_) then
          (none, { s with vars := vars1, pc := f.index })
        else (none, { s with vars := vars1, for_stack := rest })

/-- The test of the assignment branch (line 520). -/
def is_assign (toks : List Token) (first : Token) : Except Err Bool :=
  if toks.length ≥ 3 ∧ first.type = TokenType.NAME then
    match tok_at toks 1 with
    | Except.error e => Except.error e
    | Except.ok t1 =>
      if t1.type = TokenType.OP then
        match get_string t1.value with
        | Except.error e => Except.error e
        | Except.ok v1 => Except.ok (decide (v1 = "=".toList))
      else Except.ok false
  else Except.ok false

/-- The branch of `exec_stmt` for a bare expression (lines 694-698). -/
def exec_expr (toks : List Token) (s : BasicInterpreter) : Outcome :=
  match to_rpn toks with
  | Except.error e => (some e, s)
  | Except.ok rpn =>
    match eval_rpn rpn s.vars with
    | (Except.error e, env1) => (some e, { s with vars := env1 })
    | (Except.ok _, env1) => (none, { s with vars := env1 })

/-- The body of `exec_stmt` after the call of `tokenize` (lines 507-699), on
the tokens `toks` of the statement text `stmt`.  The branch of `LET` only
drops the first token of its local copy and leaves the chain of tests, which
ends in the final `throw`. -/
def exec_toks (toks : List Token) (stmt : Str) (s : BasicInterpreter) : Outcome :=
  match toks with
  | [] => (none, s)
  | first :: rest =>
    match get_string first.value with
    | Except.error e => (some e, s)
    | Except.ok first_v =>
      if first_v = "REM".toList then (none, s)
      else if first_v = "PRINT".toList then do_PRINT rest s
      else if first_v = "LET".toList then (some (Err.unknownStatement stmt), s)
      else
        match is_assign toks first with
        | Except.error e => (some e, s)
        | Except.ok true => exec_assign toks first_v s
        | Except.ok false =>
          if first_v = "INPUT".toList then exec_INPUT stmt s
          else if first_v = "GOTO".toList then exec_GOTO toks s
          else if first_v = "GOSUB".toList then exec_GOSUB toks s
          else if first_v = "RETURN".toList then exec_RETURN s
          else if first_v = "IF".toList then exec_IF toks s
          else if first_v = "FOR".toList then exec_FOR toks s
          else if first_v = "NEXT".toList then exec_NEXT toks s
          else if first_v = "END".toList ∨ first_v = "STOP".toList then
            (none, { s with running := false })
          else if first_v = "NAME".toList ∨ first_v = "NUMBER".toList
              ∨ (first.type = TokenType.BITWISE ∧ first_v = "NOT".toList) then
            exec_expr toks s
          else (some (Err.unknownStatement stmt), s)

/-- The method `exec_stmt`; the source never reads its parameter `lineno`. -/
def exec_stmt (stmt : Str) (_lineno : Int) (s : BasicInterpreter) : Outcome :=
  match tokenize stmt with
  | Except.error e => (some e, s)
  | Except.ok toks => exec_toks toks stmt s

/-- The splitting loop of `exec_stmt_line`: the stripped parts of `line`
between the `:` characters outside quotes; `cur` is the part being read. -/
def split_stmts : Str → Str → Bool → List Str
  | [], cur, _ => if (strip cur).isEmpty then [] else [strip cur]
  | ch :: rest, cur, in_str =>
    if ch = dquote then split_stmts rest (cur ++ [ch]) (!in_str)
    else if ch = ':' ∧ in_str = false then strip cur :: split_stmts rest [] in_str
    else split_stmts rest (cur ++ [ch]) in_str

/-- The execution loop of `exec_stmt_line` over the parts. -/
def exec_parts : List Str → Int → BasicInterpreter → Outcome
  | [], _, s => (none, s)
  | stmt :: rest, lineno, s =>
    match exec_stmt stmt lineno s with
    | (some e, s1) => (some e, s1)
    | (none, s1) => exec_parts rest lineno s1

def exec_stmt_line (lineno : Int) (line : Str) (immediate : Bool) (s : BasicInterpreter) :
    Outcome :=
  exec_parts (split_stmts line [] false) (if immediate then -1 else lineno) s

/-- The decimal text of an `int`, as `operator<<` writes it. -/
def int_to_str (i : Int) : Str :=
  if i < 0 then '-' :: Nat.toDigits 10 i.natAbs else Nat.toDigits 10 i.natAbs

def do_LIST (s : BasicInterpreter) : BasicInterpreter :=
  { s with cout := s.cout ++ (s.program.map fun line =>
      int_to_str line.lineno ++ " ".toList ++ line.line ++ ['\n']).flatten }

/-- The stored line `program[pc]` when `0 <= pc && pc < program.size()`. -/
def line_at (s : BasicInterpreter) : Option ProgramLine :=
  if 0 ≤ s.pc then s.program.get? s.pc.toNat else none

/-- The state in which `do_RUN` enters its loop (lines 443-446). -/
def run_init (s : BasicInterpreter) : BasicInterpreter :=
  { s with vars := [], for_stack := [], pc := 0, running := true }

/-- The end of one turn of the loop of `do_RUN` (lines 456-458), after the
line with the number `lineno` was executed. -/
def advance (lineno : Int) (s : BasicInterpreter) : BasicInterpreter :=
  match line_at s with
  | some cur =>
    if s.running = true ∧ cur.lineno = lineno then { s with pc := s.pc + 1 } else s
  | none => s

/-- One turn of the `while` loop of `do_RUN` (lines 449-458) on the line
`line = program[pc]`. -/
def run_turn (line : ProgramLine) (s : BasicInterpreter) : Outcome :=
  match exec_stmt_line line.lineno line.line false s with
  | (some e, s1) => (some e, s1)
  | (none, s1) => (none, advance line.lineno s1)

/-- The `while` loop of `do_RUN`, for at most `fuel` turns. -/
def run_loop : Nat → BasicInterpreter → Outcome
  | 0, s =>
    if s.running = true ∧ (line_at s).isSome then (some Err.outOfFuel, s) else (none, s)
  | fuel + 1, s =>
    if s.running = true then
      match line_at s with
      | some line =>
        match run_turn line s with
        | (some e, s1) => (some e, s1)
        | (none, s1) => run_loop fuel s1
      | none => (none, s)
    else (none, s)

/-- The method `do_RUN`, its loop bounded by `fuel` turns. -/
def do_RUN (fuel : Nat) (s : BasicInterpreter) : Outcome :=
  if s.program.isEmpty then (none, output_callback "NO PROGRAM.".toList s)
  else run_loop fuel (run_init s)

/-- The pattern `^\s*(\d+)\s*(.*)$` of `input_line` on a stripped line: the
digits of group 1 and the text of group 2, which holds no line terminator. -/
def match_numbered (line : Str) : Option (Str × Str) :=
  let ds := line.takeWhile Char.isDigit
  let rest := (line.drop ds.length).dropWhile is_space
  if ds.isEmpty then none
  else if rest.any (fun c => c == '\n' || c == '\r') then none
  else some (ds, rest)

/-- The erasure of the first stored line with the number `lineno`. -/
def erase_line (lineno : Int) : List ProgramLine → List ProgramLine
  | [] => []
  | line :: rest => if line.lineno = lineno then rest else line :: erase_line lineno rest

/-- The method `input_line`; `fuel` bounds the loop of a `RUN` command. -/
def input_line (fuel : Nat) (line : Str) (s : BasicInterpreter) : Outcome :=
  if line.length = 0 then (none, s)
  else
    match match_numbered (strip line) with
    | some (ds, body) =>
      if digits_value 0 ds > 2147483647 then (some Err.outOfRange, s)
      else if strip body = [] then
        (none, { s with program := erase_line (digits_value 0 ds) s.program })
      else (none, { s with program := s.program ++ [⟨digits_value 0 ds, strip body⟩] })
    | none =>
      if to_upper (strip (strip line)) = "LIST".toList then (none, do_LIST s)
      else if to_upper (strip (strip line)) = "RUN".toList then do_RUN fuel s
      else if to_upper (strip (strip line)) = "NEW".toList then
        (none, output_callback "PROGRAM CLEARED.".toList { s with program := [] })
      else exec_stmt_line 0 (strip line) true s

/-- The lines `lines` entered one after the other, as `main` passes them to
`input_line`; an error ends the session. -/
def input_lines (fuel : Nat) : List Str → BasicInterpreter → Outcome
  | [], s => (none, s)
  | line :: rest, s =>
    match input_line fuel line s with
    | (some e, s1) => (some e, s1)
    | (none, s1) => input_lines fuel rest s1

/-- The interpreter as `main` constructs it, with `cin` holding `input`. -/
def BasicInterpreter.init (input : List Str) : BasicInterpreter :=
  { program := [], vars := [], for_stack := [], gosub_stack := [], pc := 0,
    running := false, cout := [], cin := input }

/-! ## Definitions used to state the properties -/

/-- The pipeline `tokenize`, then `to_rpn`, then `eval_rpn` on an expression
text, as the statements of the interpreter chain the three functions. -/
def eval_text (text : Str) (env : Env) : Except Err TokenValue :=
  match tokenize text with
  | Except.error e => Except.error e
  | Except.ok toks =>
    match to_rpn toks with
    | Except.error e => Except.error e
    | Except.ok rpn => (eval_rpn rpn env).1

/-- The stored program `10 FOR I=1 TO 3`, `20 PRINT I`, `30 NEXT I`, `40 END`. -/
def for_program : List ProgramLine :=
  [ ⟨10, "FOR I=1 TO 3".toList⟩, ⟨20, "PRINT I".toList⟩, ⟨30, "NEXT I".toList⟩,
    ⟨40, "END".toList⟩ ]

/-- A `NUMBER` token. -/
def tNUM (x : ℚ) : Token := ⟨TokenType.NUMBER, TokenValue.num x⟩

/-- An `OP` token with the operator text as payload. -/
def tOP (op : String) : Token := ⟨TokenType.OP, TokenValue.str op.toList⟩

/-- A `NAME` token with the upper-case name as payload. -/
def tNAME (name : String) : Token := ⟨TokenType.NAME, TokenValue.str name.toList⟩

/-- A `KEYWORD` token with the upper-case word as payload. -/
def tKEY (word : String) : Token := ⟨TokenType.KEYWORD, TokenValue.str word.toList⟩

/-- A `STRING` token with the text between the quotes as payload. -/
def tSTR (text : String) : Token := ⟨TokenType.STRING, TokenValue.str text.toList⟩

/-- A state with the stored lines 10 and 20, used to instantiate properties. -/
def two_lines : BasicInterpreter :=
  { BasicInterpreter.init [] with program := [⟨10, "REM".toList⟩, ⟨20, "END".toList⟩] }

/-- A loop frame for the variable `I` with limit 3, step 1 and resume index
1, used to instantiate properties. -/
def loop_frame : ForElement := ⟨"I".toList, 3, 1, 1⟩

/-- A state in the middle of a loop: `I` is 1, the frame `loop_frame` is on
the loop stack and the program counter is 2. -/
def loop_state : BasicInterpreter :=
  { BasicInterpreter.init [] with
    program := for_program, vars := [("I".toList, TokenValue.num 1)],
    for_stack := [loop_frame], pc := 2, running := true }

/-- Whether the end of the text `p` lies inside a quoted literal: `p` holds an
odd number of `"` characters. -/
def in_quotes (p : Str) : Bool := p.count dquote % 2 == 1

/-- The splitting of a line as its description words it, not as the source
computes it: the line is cut at every `:` that lies outside the quoted
literals, that is, at every `:` with an even number of `"` before it in the
line; no piece is trimmed.  `seen` is the text of the line read so far, `cur`
the piece being read. -/
def spec_pieces_from (seen cur : Str) : Str → List Str
  | [] => [cur]
  | ch :: rest =>
    if ch = ':' ∧ in_quotes seen = false then cur :: spec_pieces_from (seen ++ [ch]) [] rest
    else spec_pieces_from (seen ++ [ch]) (cur ++ [ch]) rest

/-- The pieces of a whole line, after its description; `split_stmts` is the
splitting that the source computes. -/
def spec_pieces (line : Str) : List Str := spec_pieces_from [] [] line

/-- Whether `tokenize` can emit the token: a `NUMBER` with a number, a
`STRING` with a text, a `BITWISE` with one of its three words, or a token of
a kind whose pattern has no group, with the empty payload. -/
def lexed (t : Token) : Bool :=
  match t.type, t.value with
  | TokenType.NUMBER, TokenValue.num _ => true
  | TokenType.STRING, TokenValue.str _ => true
  | TokenType.BITWISE, TokenValue.str w =>
    w == "AND".toList || w == "OR".toList || w == "NOT".toList
  | TokenType.NAME, TokenValue.str w => w.isEmpty
  | TokenType.OP, TokenValue.str w => w.isEmpty
  | TokenType.LPAREN, TokenValue.str w => w.isEmpty
  | TokenType.RPAREN, TokenValue.str w => w.isEmpty
  | TokenType.COMMA, TokenValue.str w => w.isEmpty
  | TokenType.UNKNOWN, TokenValue.str w => w.isEmpty
  | _, _ => false

/-- A state with the stored lines `20 "REM"` and `0 "END"`: no line carries
the number 15, the second one carries the number 0. -/
def low_state : BasicInterpreter :=
  { BasicInterpreter.init [] with
    program := [⟨20, "\"REM\"".toList⟩, ⟨0, "\"END\"".toList⟩] }

/-! ## Properties -/

/-- C1 (fails on the code).  The text `2 + 3 * 4` does not evaluate to 14 and
`2 ^ 3 ^ 2` does not evaluate to 512: `tokenize` keeps `m[1]` of each match,
so every number becomes `0` and every operator the empty text, and `eval_rpn`
throws "Unknown operator".  Moreover `to_rpn` never pops an operator from its
stack: on the tokens `2 * 3 + 4` it returns `2 3 4 + *`, which evaluates to
14 instead of 10. -/
theorem c1_pipeline_breaks_precedence :
    tokenize "2 + 3 * 4".toList
        = Except.ok [tNUM 0, ⟨TokenType.OP, TokenValue.str []⟩, tNUM 0,
            ⟨TokenType.OP, TokenValue.str []⟩, tNUM 0]
      ∧ eval_text "2 + 3 * 4".toList [] = Except.error (Err.unknownOperator [])
      ∧ eval_text "2 ^ 3 ^ 2".toList [] = Except.error (Err.unknownOperator [])
      ∧ to_rpn [tNUM 2, tOP "*", tNUM 3, tOP "+", tNUM 4]
          = Except.ok [tNUM 2, tNUM 3, tNUM 4, tOP "+", tOP "*"]
      ∧ (eval_rpn [tNUM 2, tNUM 3, tNUM 4, tOP "+", tOP "*"] []).1
          = Except.ok (TokenValue.num 14) := by
  decide!

/-- C2 (fails on the code).  For all numbers `a`, `b`, `c` the call of
`to_rpn` on the tokens of `(a + b) * c` does not return: at the `+` the top of
the stack is the left parenthesis, the loop of the `OP` branch runs for a top
that is not an operator, and `PREC.at` throws `std::out_of_range` for the
payload of the parenthesis, be it `(` or the empty text that `tokenize`
stores. -/
theorem c2_parenthesized_sum_throws (a b c : ℚ) :
    to_rpn [⟨TokenType.LPAREN, TokenValue.str "(".toList⟩, tNUM a, tOP "+", tNUM b,
        ⟨TokenType.RPAREN, TokenValue.str ")".toList⟩, tOP "*", tNUM c]
      = Except.error Err.outOfRange
    ∧ to_rpn [⟨TokenType.LPAREN, TokenValue.str []⟩, tNUM a, tOP "+", tNUM b,
        ⟨TokenType.RPAREN, TokenValue.str []⟩, tOP "*", tNUM c]
      = Except.error Err.outOfRange := by
  constructor <;> rfl

/-- C3 (fails on the code).  `RUN` on the stored program `10 FOR I=1 TO 3`,
`20 PRINT I`, `30 NEXT I`, `40 END` prints nothing: the first line is thrown
out as "Unknown statement", because `tokenize` gives every word the empty
payload.  On the tokens the lexer was meant to give, `FOR` without `STEP`
records the step `0`, and the `NEXT` that follows leaves `I` at 1 and pops
the frame, so the body would run once, not three times. -/
theorem c3_for_program_does_not_loop (fuel : Nat) :
    do_RUN (fuel + 1) { BasicInterpreter.init [] with program := for_program }
        = (some (Err.unknownStatement "FOR I=1 TO 3".toList),
            { BasicInterpreter.init [] with program := for_program, running := true })
      ∧ exec_toks [tKEY "FOR", tNAME "I", tOP "=", tNUM 1, tKEY "TO", tNUM 3] []
          { BasicInterpreter.init [] with program := for_program, running := true }
        = (none, { BasicInterpreter.init [] with
            program := for_program, running := true,
            vars := [("I".toList, TokenValue.num 1)],
            for_stack := [⟨"I".toList, 3, 0, 1⟩] })
      ∧ exec_toks [tKEY "NEXT", tNAME "I"] []
          { BasicInterpreter.init [] with
            program := for_program, running := true, pc := 2,
            vars := [("I".toList, TokenValue.num 1)],
            for_stack := [⟨"I".toList, 3, 0, 1⟩] }
        = (none, { BasicInterpreter.init [] with
            program := for_program, running := true, pc := 2,
            vars := [("I".toList, TokenValue.num 1)],
            for_stack := [] }) := by
  refine ⟨?_, by decide!, by decide!⟩
  rfl

/-! ### Lemmas on the line search and the evaluator -/

theorem env_index_of_found (env : Env) (name : Str) (h : (env_find env name).isSome = true) :
    (env_index env name).2 = env := by
  unfold env_index
  cases hf : env_find env name with
  | none => simp [hf] at h
  | some v => rfl

theorem eval_rpn_step_env (t : Token) (env : Env) (st : List TokenValue) :
    (eval_rpn_step t env st).2 = env := by
  unfold eval_rpn_step
  split
  · rfl
  · rfl
  · split
    · rfl
    · split
      · rename_i h; exact env_index_of_found env _ h
      · split <;> rfl
  · split
    · rfl
    · split
      · rfl
      · split
        · rfl
        · split <;> rfl
  · split
    · rfl
    · split
      · rfl
      · split <;> rfl
      · split <;> rfl
  · split
    · rfl
    · split
      · split <;> rfl
      · split
        · split
          · rfl
          · split <;> rfl
        · rfl
  · rfl
  · rfl

theorem eval_rpn_loop_env (rpn : List Token) (env : Env) (st : List TokenValue) :
    (eval_rpn_loop rpn env st).2 = env := by
  induction rpn generalizing env st with
  | nil => rfl
  | cons t ts ih =>
    unfold eval_rpn_loop
    have h := eval_rpn_step_env t env st
    split
    · rename_i e env1 heq
      rw [heq] at h; exact h
    · rename_i st1 env1 heq
      rw [heq] at h
      rw [ih]; exact h

theorem eval_rpn_env (rpn : List Token) (env : Env) : (eval_rpn rpn env).2 = env := by
  have h := eval_rpn_loop_env rpn env []
  unfold eval_rpn
  split <;> rename_i heq <;> rw [heq] at h <;> exact h

theorem exec_toks_gosub (g t : Token) (stmt : Str) (s : BasicInterpreter)
    (hg : g.value = TokenValue.str "GOSUB".toList) :
    exec_toks [g, t] stmt s = exec_GOSUB [g, t] s := by
  simp [exec_toks, hg, get_string, is_assign]

theorem rat_floor_intCast (n : Int) : (n : ℚ).floor = n := by
  rw [Rat.floor_def']
  simp

theorem to_string_ne_nil (x : ℚ) : to_string x ≠ [] := by
  simp [to_string]

theorem exec_toks_goto (g t : Token) (stmt : Str) (s : BasicInterpreter)
    (hg : g.value = TokenValue.str "GOTO".toList) :
    exec_toks [g, t] stmt s = exec_GOTO [g, t] s := by
  simp [exec_toks, hg, get_string, is_assign]

theorem is_string_var_iff (x : Str) : is_string_var x = true ↔ x.getLast? = some '$' := by
  unfold is_string_var
  cases x with
  | nil => simp
  | cons c cs => simp

/-- C6.  An identifier that is not bound in the environment never makes
`eval_rpn` fail: the postfix sequence of the single `NAME` token `x` evaluates
to the empty text when `x` ends in `$`, the one of the single `NAME` token `y`
to the number `0` when `y` does not end in `$` and is not `SPC`; the
environment is left as it was. -/
theorem unbound_identifier_defaults (env : Env) (x y : Str)
    (hx : env_find env x = none) (hy : env_find env y = none)
    (hxs : x.getLast? = some '$') (hys : y.getLast? ≠ some '$') (hspc : y ≠ "SPC".toList) :
    eval_rpn [⟨TokenType.NAME, TokenValue.str x⟩] env = (Except.ok (TokenValue.str []), env)
    ∧ eval_rpn [⟨TokenType.NAME, TokenValue.str y⟩] env
        = (Except.ok (TokenValue.num 0), env) := by
  constructor
  · have : is_string_var x = true := (is_string_var_iff x).2 hxs
    simp [eval_rpn, eval_rpn_loop, eval_rpn_step, get_string, hx, this]
  · have : is_string_var y = false := by
      cases hsv : is_string_var y with
      | false => rfl
      | true => exact absurd ((is_string_var_iff y).1 hsv) hys
    have hspc1 : ¬ (y = ['S', 'P', 'C']) := hspc
    simp [eval_rpn, eval_rpn_loop, eval_rpn_step, get_string, hy, this, hspc1]

/-- An instance of `unbound_identifier_defaults`: the names `X$` and `X` in
an environment that binds `A` only. -/
theorem unbound_identifier_defaults_witness :
    eval_rpn [tNAME "X$"] [("A".toList, TokenValue.num 7)]
        = (Except.ok (TokenValue.str []), [("A".toList, TokenValue.num 7)])
    ∧ eval_rpn [tNAME "X"] [("A".toList, TokenValue.num 7)]
        = (Except.ok (TokenValue.num 0), [("A".toList, TokenValue.num 7)]) :=
  unbound_identifier_defaults [("A".toList, TokenValue.num 7)] "X$".toList "X".toList
    (by decide) (by decide) (by decide) (by decide) (by decide)

/-- C7 (fails on the code).  `LEFT$("HELLO",3)` is `HEL` and
`RIGHT$("HELLO",2)` is `LO`, but `MID$("HELLO",2,3)` is `LLO`, not `ELL`:
`eval_func` passes the position to `substr` as it is, and `substr` counts
from 0.  The same value comes out of `eval_rpn` on the postfix sequence of
the call.  The lemmas `left_is_prefix`, `right_is_suffix` and
`mid_is_zero_based` give the three functions for every text. -/
theorem c7_mid_counts_from_zero :
    eval_func "LEFT$".toList [TokenValue.str "HELLO".toList, TokenValue.num 3]
        = Except.ok (TokenValue.str "HEL".toList)
    ∧ eval_func "RIGHT$".toList [TokenValue.str "HELLO".toList, TokenValue.num 2]
        = Except.ok (TokenValue.str "LO".toList)
    ∧ eval_func "MID$".toList
          [TokenValue.str "HELLO".toList, TokenValue.num 2, TokenValue.num 3]
        = Except.ok (TokenValue.str "LLO".toList)
    ∧ (eval_rpn [tSTR "HELLO", tNUM 2, tNUM 3,
          ⟨TokenType.FUNC, TokenValue.str "MID$".toList⟩] []).1
        = Except.ok (TokenValue.str "LLO".toList) := by
  decide!

/-- C8 (fails on the code).  `do_RUN` clears the environment and the loop
stack but not the return stack: the state in which its loop starts has the
return stack of the state before.  The stored program `0 "PRINT" "A"`,
`1 "RETURN"` therefore stops with "RETURN WITHOUT GOSUB" when it is run in a
fresh interpreter, and runs to its end when the immediate statement
`"GOSUB" 0` was entered before `RUN`. -/
theorem c8_run_keeps_return_stack :
    (∀ s : BasicInterpreter, (run_init s).gosub_stack = s.gosub_stack)
    ∧ (input_lines 9 [ "0 \"PRINT\" \"A\"".toList, "1 \"RETURN\"".toList, "RUN".toList ]
          (BasicInterpreter.init [])).1 = some Err.returnWithoutGosub
    ∧ (input_lines 9 [ "0 \"PRINT\" \"A\"".toList, "1 \"RETURN\"".toList,
          "\"GOSUB\" 0".toList ] (BasicInterpreter.init [])).2.gosub_stack = [1]
    ∧ input_lines 9 [ "0 \"PRINT\" \"A\"".toList, "1 \"RETURN\"".toList,
          "\"GOSUB\" 0".toList, "RUN".toList ] (BasicInterpreter.init [])
        = (none, { BasicInterpreter.init [] with
            program := [⟨0, "\"PRINT\" \"A\"".toList⟩, ⟨1, "\"RETURN\"".toList⟩],
            pc := 2, running := true, cout := "A \n".toList }) := by
  refine ⟨fun s => rfl, ?_, ?_, ?_⟩ <;> decide!

/-- C10 (fails on the code).  The assignment branch evaluates the expression
and drops the value: it stores the payload of the first token after `=`.  On
the tokens of `A = 2 + 3` it binds `A` to 2, not 5, and on those of
`A$ = B$` it binds `A$` to the name `B$`, not to the text that `B$` holds.
From the text `A = 2 + 3` the statement is not even reached: `tokenize` gives
the identifier and the operator the empty payload, and `exec_stmt` throws
"Unknown statement". -/
theorem c10_assignment_stores_first_token :
    exec_toks [tNAME "A", tOP "=", tNUM 2, tOP "+", tNUM 3] "A = 2 + 3".toList
        (BasicInterpreter.init [])
      = (none, { BasicInterpreter.init [] with vars := [("A".toList, TokenValue.num 2)] })
    ∧ exec_toks [tNAME "A$", tOP "=", tNAME "B$"] "A$ = B$".toList
        { BasicInterpreter.init [] with vars := [("B$".toList, TokenValue.str "HI".toList)] }
      = (none, { BasicInterpreter.init [] with
          vars := [("B$".toList, TokenValue.str "HI".toList),
                   ("A$".toList, TokenValue.str "B$".toList)] })
    ∧ exec_stmt "A = 2 + 3".toList 0 (BasicInterpreter.init [])
      = (some (Err.unknownStatement "A = 2 + 3".toList), BasicInterpreter.init []) := by
  decide!

theorem float_to_size_natCast (n : Nat) (h : n < 18446744073709551616) :
    float_to_size (n : ℚ) = Except.ok n := by
  unfold float_to_size
  have h1 : ¬ ((n : ℚ) ≤ -1) := by
    have : (0 : ℚ) ≤ (n : ℚ) := Nat.cast_nonneg n
    linarith
  have h2 : ¬ ((18446744073709551616 : ℚ) ≤ (n : ℚ)) := by
    have : (n : ℚ) < 18446744073709551616 := by exact_mod_cast h
    linarith
  have h3 : (n : ℚ).floor = (n : Int) := by
    have := rat_floor_intCast (n : Int)
    simpa using this
  simp only [h1, h2, if_false, h3, Int.toNat_natCast]

/-- `LEFT$(s, n)` is the first `n` characters of `s`. -/
theorem left_is_prefix (s : Str) (n : Nat) (h : n < 18446744073709551616) :
    eval_func "LEFT$".toList [TokenValue.str s, TokenValue.num n]
      = Except.ok (TokenValue.str (s.take n)) := by
  have hn := float_to_size_natCast n h
  simp [eval_func, eval_func_body, arg, as_number, as_string, hn, substr, bind, Except.bind,
    pure, Except.pure]

/-- The halvings of a number below `2 ^ (m + 1)` are at most `m`. -/
theorem log2_floor_le (fuel : Nat) : ∀ n m : Nat, n < 2 ^ (m + 1) → log2_floor fuel n ≤ m := by
  induction fuel with
  | zero => intro n m _; simp [log2_floor]
  | succ fuel ih =>
    intro n m h
    unfold log2_floor
    split
    · exact Nat.zero_le _
    · rename_i h2
      cases m with
      | zero => simp at h; omega
      | succ m =>
        have : n / 2 < 2 ^ (m + 1) := by
          rw [Nat.div_lt_iff_lt_mul (by decide)]
          rw [pow_succ] at h; exact h
        have := ih (n / 2) m this
        omega

theorem round_half_even_natCast (n : Nat) : round_half_even (n : ℚ) = n := by
  unfold round_half_even
  have hf : (n : ℚ).floor = (n : Int) := by
    have := rat_floor_intCast (n : Int)
    simpa using this
  simp [hf]

theorem pow2_nonpos (j : Nat) : pow2 (-(j : Int)) = 1 / ((2 ^ j : Nat) : ℚ) := by
  unfold pow2
  cases j with
  | zero => simp
  | succ j =>
    have : ¬ (0 ≤ -((j + 1 : Nat) : Int)) := by omega
    rw [if_neg this]
    simp

/-- A natural number below `2 ^ 24` is a `float`. -/
theorem to_float_natCast (k : Nat) (h : k < 16777216) : to_float (k : ℚ) = k := by
  unfold to_float round_binary
  by_cases hk : (k : ℚ) = 0
  · simp [hk]
  · rw [if_neg hk]
    have hpos : (0 : ℚ) ≤ (k : ℚ) := Nat.cast_nonneg k
    have habs : |(k : ℚ)| = (k : ℚ) := abs_of_nonneg hpos
    have hlt : ¬ ((k : ℚ) < 0) := not_lt.mpr hpos
    simp only [habs, hlt, if_false]
    have hlog : log2_floor k k ≤ 23 := log2_floor_le k k 23 (by simpa using h)
    have hil : ilog2 (k : ℚ) ≤ 23 := by
      unfold ilog2
      have hden : log2_floor 1 1 = 0 := by decide
      simp only [Rat.num_natCast, Rat.den_natCast, Int.natAbs_ofNat, hden]
      split <;> omega
    have he : max (ilog2 (k : ℚ)) (-126) ≤ 23 := max_le hil (by decide)
    obtain ⟨j, hj⟩ : ∃ j : Nat, max (ilog2 (k : ℚ)) (-126) - ((24 - 1 : Nat) : Int) = -(j : Int) :=
      ⟨(23 - max (ilog2 (k : ℚ)) (-126)).toNat, by
        have : (0 : Int) ≤ 23 - max (ilog2 (k : ℚ)) (-126) := by omega
        rw [Int.toNat_of_nonneg this]; norm_num⟩
    rw [hj, pow2_nonpos]
    have hne : ((2 ^ j : Nat) : ℚ) ≠ 0 := by positivity
    have hdiv : (k : ℚ) / (1 / ((2 ^ j : Nat) : ℚ)) = ((k * 2 ^ j : Nat) : ℚ) := by
      push_cast; field_simp
    rw [hdiv, round_half_even_natCast]
    push_cast; field_simp
/-- `RIGHT$(s, n)` is the last `n` characters of `s`, for `n` up to the
length of `s`, when the length is a `float`. -/
theorem right_is_suffix (s : Str) (n : Nat) (hn : n ≤ s.length)
    (h : s.length < 16777216) :
    eval_func "RIGHT$".toList [TokenValue.str s, TokenValue.num n]
      = Except.ok (TokenValue.str (s.drop (s.length - n))) := by
  have h1 := float_to_size_natCast n (by omega)
  have h4 : ¬ (s.length < s.length - n) := by omega
  have h5 : size_to_int s.length = Except.ok (s.length : Int) := by
    unfold size_to_int
    rw [if_pos (by omega)]
  have h6 : to_float (s.length : ℚ) = (s.length : ℚ) := to_float_natCast s.length h
  have h7 : to_float ((s.length : ℚ) - (n : ℚ)) = (s.length : ℚ) - (n : ℚ) := by
    have := to_float_natCast (s.length - n) (by omega)
    rw [Nat.cast_sub hn] at this
    exact this
  have h2 : float_to_size ((s.length : ℚ) - (n : ℚ)) = Except.ok (s.length - n) := by
    have := float_to_size_natCast (s.length - n) (by omega)
    rw [Nat.cast_sub hn] at this
    exact this
  have h3 : List.take n (List.drop (s.length - n) s) = List.drop (s.length - n) s := by
    apply List.take_of_length_le
    simp; omega
  simp [eval_func, eval_func_body, arg, as_number, as_string, h1, h2, h3, h4, h5, h6, h7,
    substr, bind, Except.bind, pure, Except.pure]

theorem eval_func_body_mid (args : List TokenValue) :
    eval_func_body "MID$".toList args = (do
      let a ← arg args 0
      let b ← arg args 1
      let c ← arg args 2
      let pos ← float_to_size (as_number b)
      let n ← float_to_size (as_number c)
      let r ← substr (as_string a) pos n
      pure (TokenValue.str r)) := by
  rfl

/-- `MID$(s, p, n)` is the `n` characters of `s` after the first `p` ones:
the position counts from 0. -/
theorem mid_is_zero_based (s : Str) (p n : Nat) (hp : p ≤ s.length)
    (h : s.length < 18446744073709551616) (hn : n < 18446744073709551616) :
    eval_func "MID$".toList [TokenValue.str s, TokenValue.num p, TokenValue.num n]
      = Except.ok (TokenValue.str ((s.drop p).take n)) := by
  have h1 := float_to_size_natCast p (lt_of_le_of_lt hp h)
  have h2 := float_to_size_natCast n hn
  have h3 : ¬ (s.length < p) := Nat.not_lt.mpr hp
  have a0 : arg [TokenValue.str s, TokenValue.num p, TokenValue.num n] 0
      = Except.ok (TokenValue.str s) := rfl
  have a1 : arg [TokenValue.str s, TokenValue.num p, TokenValue.num n] 1
      = Except.ok (TokenValue.num p) := rfl
  have a2 : arg [TokenValue.str s, TokenValue.num p, TokenValue.num n] 2
      = Except.ok (TokenValue.num n) := rfl
  have hb : eval_func_body "MID$".toList
      [TokenValue.str s, TokenValue.num p, TokenValue.num n]
      = Except.ok (TokenValue.str ((s.drop p).take n)) := by
    rw [eval_func_body_mid, a0, a1, a2]
    show (do
        let pos ← float_to_size (as_number (TokenValue.num p))
        let n ← float_to_size (as_number (TokenValue.num n))
        let r ← substr (as_string (TokenValue.str s)) pos n
        pure (TokenValue.str r)) = _
    simp only [as_number, as_string, h1, h2]
    show (do
        let r ← substr s p n
        pure (TokenValue.str r)) = _
    simp only [substr, h3, gt_iff_lt, if_false]
    rfl
  unfold eval_func
  rw [hb]

/-- C12 (fails on the code).  The pattern of `NAME` has no capture group, so
`txt = m[1]` is empty for every word: `tokenize` returns one `NAME` token with
the empty payload for `PRINT`, for `abc`, for `LEFT$` and for `X1`, not a
`KEYWORD`, `FUNC` or `NAME` token that carries the upper-case word.  The
lemma `word_token_has_no_payload` shows it for every word of the claim. -/
theorem c12_words_lose_their_payload :
    tokenize "PRINT".toList = Except.ok [⟨TokenType.NAME, TokenValue.str []⟩]
    ∧ tokenize "abc".toList = Except.ok [⟨TokenType.NAME, TokenValue.str []⟩]
    ∧ tokenize "LEFT$".toList = Except.ok [⟨TokenType.NAME, TokenValue.str []⟩]
    ∧ tokenize "X1".toList = Except.ok [⟨TokenType.NAME, TokenValue.str []⟩] := by
  decide!

/-- C13 (fails on the code).  The capture group of the `NUMBER` pattern is the
fraction only, so `atof(m[1])` drops the whole part: `tokenize` reads `14` as
the number 0 and `3.5` as the number 0.5.  The lemma
`whole_number_token_is_zero` shows the first for every whole numeral. -/
theorem c13_numbers_lose_their_whole_part :
    tokenize "14".toList = Except.ok [tNUM 0]
    ∧ tokenize "3.5".toList = Except.ok [tNUM (1 / 2)]
    ∧ (eval_rpn [tNUM 0] []).1 = Except.ok (TokenValue.num 0) := by
  decide!

/-- C14 (fails on the code).  `to_rpn` does not answer every unbalanced
sequence with "Mismatched parentheses".  On `( ( 1 )` it returns the postfix
sequence `1 (`: after the matching parenthesis is dropped, the branch of
`RPAREN` moves the next stack entry to the output when it is not a function,
here the other left parenthesis.  On `( 1 + 2` it throws `std::out_of_range`
from `PREC.at`.  The text `((1)` gives the first sequence through `tokenize`.
A lone `)` and a lone `(` do get the parse error. -/
theorem c14_unbalanced_is_not_always_reported :
    to_rpn [⟨TokenType.LPAREN, TokenValue.str "(".toList⟩,
        ⟨TokenType.LPAREN, TokenValue.str "(".toList⟩, tNUM 1,
        ⟨TokenType.RPAREN, TokenValue.str ")".toList⟩]
      = Except.ok [tNUM 1, ⟨TokenType.LPAREN, TokenValue.str "(".toList⟩]
    ∧ to_rpn [⟨TokenType.LPAREN, TokenValue.str "(".toList⟩, tNUM 1, tOP "+", tNUM 2]
      = Except.error Err.outOfRange
    ∧ (match tokenize "((1)".toList with
        | Except.ok toks => to_rpn toks
        | Except.error e => Except.error e)
      = Except.ok [tNUM 0, ⟨TokenType.LPAREN, TokenValue.str []⟩]
    ∧ to_rpn [⟨TokenType.RPAREN, TokenValue.str ")".toList⟩]
      = Except.error Err.mismatchedParentheses
    ∧ to_rpn [⟨TokenType.LPAREN, TokenValue.str "(".toList⟩]
      = Except.error Err.mismatchedParentheses := by
  decide!

/-- C15 (fails on the code).  `FOR I = 1 TO 10 STEP 2` does not succeed: with
a `STEP` keyword the branch searches for `TO` a second time and builds the end
expression from the range `toks.begin()+to_idx+1 .. toks.end()+step_idx`,
which runs past the end of the tokens; nothing is bound and no frame is
pushed.  The lemma `for_with_step_never_returns` shows that no `FOR` with a
`STEP` returns normally. -/
theorem c15_for_with_step_leaves_the_tokens :
    exec_toks [tKEY "FOR", tNAME "I", tOP "=", tNUM 1, tKEY "TO", tNUM 10, tKEY "STEP", tNUM 2]
        "FOR I = 1 TO 10 STEP 2".toList (BasicInterpreter.init [])
      = (some Err.undefinedBehaviour, BasicInterpreter.init []) := by
  decide!

/-- C20 (fails on the code).  `VAL` is `as_number` of its argument, and
`as_number` of a text is `0.0`: for every text `s`, `VAL(s)` is the number 0,
also for the numeral `12`. -/
theorem c20_val_of_text_is_zero (s : Str) :
    eval_func "VAL".toList [TokenValue.str s] = Except.ok (TokenValue.num 0)
    ∧ eval_func "VAL".toList [TokenValue.str "12".toList] = Except.ok (TokenValue.num 0)
    ∧ (eval_rpn [tSTR "12", ⟨TokenType.FUNC, TokenValue.str "VAL".toList⟩] []).1
        = Except.ok (TokenValue.num 0) := by
  refine ⟨rfl, by decide!, by decide!⟩

/-- With a `STEP` keyword among the tokens the `FOR` branch never returns
normally: it throws, or it reads past the end of the tokens. -/
theorem for_with_step_never_returns (toks : List Token) (s : BasicInterpreter)
    (h : toks.any is_step_keyword = true) : (exec_FOR toks s).1 ≠ none := by
  unfold exec_FOR exec_FOR_rest
  simp only [h, if_true]
  repeat' split
  all_goals first
    | (simp; done)
    | (exfalso; injections; subst_vars; omega)

theorem eval_rpn_eq (rpn : List Token) (env : Env) :
    eval_rpn rpn env = ((eval_rpn rpn env).1, env) :=
  Prod.ext rfl (eval_rpn_env rpn env)

theorem print_part_env (toks : List Token) (parts : List Str) (env : Env) :
    (print_part toks parts env).2 = env := by
  unfold print_part
  split
  · rfl
  · split
    · rfl
    · simp only []
      split
      · rfl
      · split
        · rfl
        · rename_i rpn _
          rw [eval_rpn_eq rpn env]
          cases (eval_rpn rpn env).1 <;> rfl

theorem do_PRINT_loop_env (fuel : Nat) :
    ∀ (toks : List Token) (parts : List Str) (sep : Str) (env : Env),
      (do_PRINT_loop fuel toks parts sep env).2 = env := by
  induction fuel with
  | zero =>
    intro toks parts sep env
    cases toks <;> rfl
  | succ n ih =>
    intro toks parts sep env
    cases toks with
    | nil => rfl
    | cons t ts =>
      unfold do_PRINT_loop
      have hp := print_part_env (t :: ts) parts env
      split
      · rename_i heq; rw [heq] at hp; exact hp
      · rename_i parts1 rest env1 heq
        rw [heq] at hp
        simp only at hp
        subst hp
        split
        · rfl
        · split
          · exact ih _ _ _ _
          · exact ih _ _ _ _

theorem do_PRINT_vars (toks : List Token) (s : BasicInterpreter) :
    (do_PRINT toks s).2.vars = s.vars := by
  unfold do_PRINT
  have h := do_PRINT_loop_env toks.length toks [] " ".toList s.vars
  split
  · rename_i heq; rw [heq] at h; exact h
  · rename_i heq; rw [heq] at h; exact h

theorem assign_rpn_vars (toks : List Token) (s : BasicInterpreter) :
    (assign_rpn toks s).2.vars = s.vars := by
  unfold assign_rpn
  split <;> rfl

theorem exec_assign_error_vars (toks : List Token) (first_v : Str) (s : BasicInterpreter)
    (e : Err) (h : (exec_assign toks first_v s).1 = some e) :
    (exec_assign toks first_v s).2.vars = s.vars := by
  unfold exec_assign at h ⊢
  have ha := assign_rpn_vars toks s
  split
  · rename_i heq; rw [heq] at ha; exact ha
  · rename_i rpn s1 heq
    rw [heq] at ha
    simp only at ha
    rw [heq] at h
    simp only at h
    rw [eval_rpn_eq rpn s1.vars] at h ⊢
    cases hv : (eval_rpn rpn s1.vars).1 with
    | error e1 => simpa using ha
    | ok v =>
      rw [hv] at h
      simp only at h ⊢
      split
      · simpa using ha
      · split
        · simpa using ha
        · split
          · split
            · simpa using ha
            · rename_i hh _ _ _ _ _ _
              simp_all
          · simp_all

theorem stod_error (v : Str) (e : Err) (h : stod v = Except.error e) : e = Err.inexact := by
  unfold stod at h
  simp only at h
  repeat' split at h
  all_goals first
    | (simp only [Except.error.injEq] at h; exact h.symm)
    | simp at h

theorem input_names_error (names : List Str) :
    ∀ (s : BasicInterpreter) (e : Err), (input_names names s).1 = some e →
      e = Err.undefinedBehaviour ∨ e = Err.inexact := by
  induction names with
  | nil => intro s e h; simp [input_names] at h
  | cons nm rest ih =>
    intro s e h
    unfold input_names at h
    split at h
    · left; simpa using h.symm
    · simp only at h
      split at h
      · exact ih _ e h
      · split at h
        · rename_i e1 he1
          simp only [Option.some.injEq] at h
          subst h
          right
          exact stod_error _ _ he1
        · exact ih _ e h

theorem exec_INPUT_error (stmt : Str) (s : BasicInterpreter) (e : Err)
    (h : (exec_INPUT stmt s).1 = some e) :
    e = Err.undefinedBehaviour ∨ e = Err.inexact := by
  unfold exec_INPUT at h
  split at h
  · left; simpa using h.symm
  · exact input_names_error _ s e h

theorem exec_GOTO_vars (toks : List Token) (s : BasicInterpreter) :
    (exec_GOTO toks s).2.vars = s.vars := by
  unfold exec_GOTO
  repeat' split
  all_goals rfl

theorem exec_GOSUB_vars (toks : List Token) (s : BasicInterpreter) :
    (exec_GOSUB toks s).2.vars = s.vars := by
  unfold exec_GOSUB
  repeat' split
  all_goals rfl

theorem exec_RETURN_vars (s : BasicInterpreter) : (exec_RETURN s).2.vars = s.vars := by
  unfold exec_RETURN
  split <;> rfl

theorem exec_IF_jump_vars (toks : List Token) (i : Nat) (s : BasicInterpreter) :
    (exec_IF_jump toks i s).2.vars = s.vars := by
  unfold exec_IF_jump
  repeat' split
  all_goals rfl

theorem exec_IF_vars (toks : List Token) (s : BasicInterpreter) :
    (exec_IF toks s).2.vars = s.vars := by
  unfold exec_IF
  split
  · rfl
  · split
    · rfl
    · split
      · rfl
      · rename_i rpn _
        rw [eval_rpn_eq rpn s.vars]
        cases (eval_rpn rpn s.vars).1 with
        | error e => rfl
        | ok cond =>
          simp only
          split
          · rw [exec_IF_jump_vars]
          · rfl

theorem exec_expr_vars (toks : List Token) (s : BasicInterpreter) :
    (exec_expr toks s).2.vars = s.vars := by
  unfold exec_expr
  split
  · rfl
  · rename_i rpn _
    rw [eval_rpn_eq rpn s.vars]
    cases (eval_rpn rpn s.vars).1 <;> rfl

theorem exec_NEXT_error_state (toks : List Token) (s : BasicInterpreter) (e : Err)
    (h : (exec_NEXT toks s).1 = some e) : (exec_NEXT toks s).2 = s := by
  unfold exec_NEXT at h ⊢
  simp only at h ⊢
  split
  · rfl
  · rename_i f rest heq
    rw [heq] at h
    simp only at h
    split
    · rfl
    · rename_i hc
      simp only [hc, if_false] at h
      split
      · rfl
      · rename_i x hx
        rw [hx] at h
        simp only at h
        split at h <;> simp at h

theorem exec_FOR_push_error_vars (var : Str) (start step : TokenValue) (rpn_end : List Token)
    (s : BasicInterpreter) (e : Err) (h : (exec_FOR_push var start step rpn_end s).1 = some e) :
    (exec_FOR_push var start step rpn_end s).2.vars = s.vars := by
  unfold exec_FOR_push at h ⊢
  rw [eval_rpn_eq rpn_end s.vars] at h ⊢
  cases hv : (eval_rpn rpn_end s.vars).1 with
  | error e1 => rfl
  | ok v =>
    rw [hv] at h
    simp only at h ⊢
    split
    · rfl
    · rename_i hpc
      simp [hpc] at h

theorem exec_FOR_rest_error_vars (toks : List Token) (var : Str) (to_idx : Nat)
    (start : TokenValue) (s : BasicInterpreter) (e : Err)
    (h : (exec_FOR_rest toks var to_idx start s).1 = some e) :
    (exec_FOR_rest toks var to_idx start s).2.vars = s.vars := by
  unfold exec_FOR_rest at h ⊢
  split
  · rename_i hstep
    simp only [hstep, if_true] at h
    split
    · rfl
    · rename_i step_idx heq
      rw [heq] at h
      simp only at h
      split
      · rfl
      · rename_i h0
        simp only [h0, if_false] at h
        split
        · rfl
        · rename_i rpn_end heq1
          rw [heq1] at h
          simp only at h
          split
          · rfl
          · rename_i rpn_step heq2
            rw [heq2] at h
            simp only at h
            rw [eval_rpn_eq rpn_step s.vars] at h ⊢
            cases hv : (eval_rpn rpn_step s.vars).1 with
            | error e1 => rfl
            | ok step =>
              rw [hv] at h
              simp only at h ⊢
              exact exec_FOR_push_error_vars _ _ _ _ _ e h
  · rename_i hstep
    simp only [hstep] at h
    split
    · rfl
    · rename_i rpn_end heq1
      rw [heq1] at h
      simp only at h
      exact exec_FOR_push_error_vars _ _ _ _ _ e h

theorem exec_FOR_error_vars (toks : List Token) (s : BasicInterpreter) (e : Err)
    (h : (exec_FOR toks s).1 = some e) : (exec_FOR toks s).2.vars = s.vars := by
  unfold exec_FOR at h ⊢
  split
  · rfl
  · rfl
  · rename_i heq0
    rw [heq0] at h
    simp only at h
    split
    · rfl
    · rename_i t1 heq1
      rw [heq1] at h
      simp only at h
      split
      · rfl
      · rename_i var heq2
        rw [heq2] at h
        simp only at h
        split
        · rfl
        · rename_i to_idx heq3
          rw [heq3] at h
          simp only at h
          split
          · rfl
          · rename_i h4
            simp only [h4, if_false] at h
            split
            · rfl
            · rename_i h5
              simp only [h5, if_false] at h
              split
              · rfl
              · rename_i rpn_start heq6
                rw [heq6] at h
                simp only at h
                rw [eval_rpn_eq rpn_start s.vars] at h ⊢
                cases hv : (eval_rpn rpn_start s.vars).1 with
                | error e1 => rfl
                | ok start =>
                  rw [hv] at h
                  simp only at h ⊢
                  exact exec_FOR_rest_error_vars _ _ _ _ _ e h

/-- A statement that throws anything but a violated library precondition
leaves the environment as it was. -/
theorem exec_toks_error_vars (toks : List Token) (stmt : Str) (s : BasicInterpreter) (e : Err)
    (h : (exec_toks toks stmt s).1 = some e) (hub : e ≠ Err.undefinedBehaviour)
    (hin : e ≠ Err.inexact) :
    (exec_toks toks stmt s).2.vars = s.vars := by
  cases toks with
  | nil => rfl
  | cons first rest =>
    cases hg : get_string first.value with
    | error e1 => simp [exec_toks, hg]
    | ok fv =>
      by_cases h1 : fv = ['R', 'E', 'M']
      · simp [exec_toks, hg, h1]
      by_cases h2 : fv = ['P', 'R', 'I', 'N', 'T']
      · have hx : exec_toks (first :: rest) stmt s = do_PRINT rest s := by
          subst h2; simp [exec_toks, hg]
        rw [hx]; exact do_PRINT_vars _ _
      by_cases h3 : fv = ['L', 'E', 'T']
      · subst h3; simp [exec_toks, hg]
      cases ha : is_assign (first :: rest) first with
      | error e1 => simp [exec_toks, hg, h1, h2, h3, ha]
      | ok b =>
        cases b with
        | true =>
          have hx : exec_toks (first :: rest) stmt s = exec_assign (first :: rest) fv s := by
            simp [exec_toks, hg, h1, h2, h3, ha]
          rw [hx] at h ⊢
          exact exec_assign_error_vars _ _ _ e h
        | false =>
          by_cases h4 : fv = ['I', 'N', 'P', 'U', 'T']
          · have hx : exec_toks (first :: rest) stmt s = exec_INPUT stmt s := by
              simp [exec_toks, hg, h1, h2, h3, ha, h4]
            rw [hx] at h
            rcases exec_INPUT_error _ _ e h with he | he
            · exact absurd he hub
            · exact absurd he hin
          by_cases h5 : fv = ['G', 'O', 'T', 'O']
          · have hx : exec_toks (first :: rest) stmt s = exec_GOTO (first :: rest) s := by
              simp [exec_toks, hg, h1, h2, h3, ha, h4, h5]
            rw [hx]; exact exec_GOTO_vars _ _
          by_cases h6 : fv = ['G', 'O', 'S', 'U', 'B']
          · have hx : exec_toks (first :: rest) stmt s = exec_GOSUB (first :: rest) s := by
              simp [exec_toks, hg, h1, h2, h3, ha, h4, h5, h6]
            rw [hx]; exact exec_GOSUB_vars _ _
          by_cases h7 : fv = ['R', 'E', 'T', 'U', 'R', 'N']
          · have hx : exec_toks (first :: rest) stmt s = exec_RETURN s := by
              simp [exec_toks, hg, h1, h2, h3, ha, h4, h5, h6, h7]
            rw [hx]; exact exec_RETURN_vars _
          by_cases h8 : fv = ['I', 'F']
          · have hx : exec_toks (first :: rest) stmt s = exec_IF (first :: rest) s := by
              simp [exec_toks, hg, h1, h2, h3, ha, h4, h5, h6, h7, h8]
            rw [hx]; exact exec_IF_vars _ _
          by_cases h9 : fv = ['F', 'O', 'R']
          · have hx : exec_toks (first :: rest) stmt s = exec_FOR (first :: rest) s := by
              simp [exec_toks, hg, h1, h2, h3, ha, h4, h5, h6, h7, h8, h9]
            rw [hx] at h ⊢
            exact exec_FOR_error_vars _ _ e h
          by_cases h10 : fv = ['N', 'E', 'X', 'T']
          · have hx : exec_toks (first :: rest) stmt s = exec_NEXT (first :: rest) s := by
              simp [exec_toks, hg, h1, h2, h3, ha, h4, h5, h6, h7, h8, h9, h10]
            rw [hx] at h ⊢
            rw [exec_NEXT_error_state _ _ e h]
          by_cases h11 : fv = ['E', 'N', 'D'] ∨ fv = ['S', 'T', 'O', 'P']
          · simp [exec_toks, hg, h1, h2, h3, ha, h4, h5, h6, h7, h8, h9, h10, h11]
          by_cases h12 : fv = ['N', 'A', 'M', 'E'] ∨ fv = ['N', 'U', 'M', 'B', 'E', 'R']
              ∨ (first.type = TokenType.BITWISE ∧ fv = ['N', 'O', 'T'])
          · have hx : exec_toks (first :: rest) stmt s = exec_expr (first :: rest) s := by
              simp [exec_toks, hg, h1, h2, h3, ha, h4, h5, h6, h7, h8, h9, h10, h11, h12]
            rw [hx]; exact exec_expr_vars _ _
          · simp [exec_toks, hg, h1, h2, h3, ha, h4, h5, h6, h7, h8, h9, h10, h11, h12]

theorem exec_stmt_error_vars (stmt : Str) (lineno : Int) (s : BasicInterpreter) (e : Err)
    (h : (exec_stmt stmt lineno s).1 = some e) (hub : e ≠ Err.undefinedBehaviour)
    (hin : e ≠ Err.inexact) :
    (exec_stmt stmt lineno s).2.vars = s.vars := by
  unfold exec_stmt at h ⊢
  cases ht : tokenize stmt with
  | error e1 => rfl
  | ok toks =>
    rw [ht] at h
    exact exec_toks_error_vars toks stmt s e h hub hin

theorem exec_parts_append_error (pre post : List Str) (stmt : Str) (lineno : Int) :
    ∀ (s s1 s2 : BasicInterpreter) (e : Err), exec_parts pre lineno s = (none, s1) →
      exec_stmt stmt lineno s1 = (some e, s2) →
      exec_parts (pre ++ stmt :: post) lineno s = (some e, s2) := by
  induction pre with
  | nil =>
    intro s s1 s2 e hpre hfail
    simp only [exec_parts, Prod.mk.injEq, true_and] at hpre
    subst hpre
    simp only [List.nil_append, exec_parts, hfail]
  | cons p ps ih =>
    intro s s1 s2 e hpre hfail
    simp only [List.cons_append, exec_parts] at hpre ⊢
    cases hp : exec_stmt p lineno s with
    | mk r s3 =>
      rw [hp] at hpre
      cases r with
      | some e1 => simp at hpre
      | none =>
        simp only at hpre ⊢
        exact ih s3 s1 s2 e hpre hfail

/-! ### Lemmas on `strip`, the line pattern and the store -/

theorem digit_not_space (c : Char) (h : c.isDigit = true) : is_space c = false := by
  cases hs : is_space c with
  | false => rfl
  | true =>
    exfalso
    simp only [is_space, Bool.or_eq_true, beq_iff_eq] at hs
    rcases hs with ((((rfl | rfl) | rfl) | rfl) | rfl) | rfl <;> revert h <;> decide

theorem dropWhile_head_neg (p : Char → Bool) (t : Str) (a : Char) (h0 : t.head? = some a)
    (ha : p a = false) : t.dropWhile p = t := by
  cases t with
  | nil => simp at h0
  | cons x l =>
    simp only [List.head?_cons, Option.some.injEq] at h0
    subst h0
    simp [List.dropWhile, ha]

theorem strip_id (t : Str) (a b : Char) (h0 : t.head? = some a) (ha : is_space a = false)
    (h1 : t.getLast? = some b) (hb : is_space b = false) : strip t = t := by
  unfold strip
  rw [dropWhile_head_neg is_space t a h0 ha,
    dropWhile_head_neg is_space t.reverse b (by rw [List.head?_reverse]; exact h1) hb,
    List.reverse_reverse]

theorem strip_digits (ds : Str) (hd : ds ≠ []) (hdig : ∀ c ∈ ds, c.isDigit = true) :
    strip ds = ds := by
  cases h0 : ds.head? with
  | none => simp at h0; exact absurd h0 hd
  | some a =>
    cases h1 : ds.getLast? with
    | none => simp at h1; exact absurd h1 hd
    | some b =>
      exact strip_id ds a b h0 (digit_not_space a (hdig a (List.mem_of_mem_head? h0))) h1
        (digit_not_space b (hdig b (List.mem_of_mem_getLast? h1)))

theorem match_numbered_digits (ds : Str) (hd : ds ≠ []) (hdig : ∀ c ∈ ds, c.isDigit = true) :
    match_numbered ds = some (ds, []) := by
  have ht : ds.takeWhile Char.isDigit = ds := List.takeWhile_eq_self_iff.mpr hdig
  have hd2 : ds.isEmpty = false := by cases ds <;> simp at hd ⊢
  simp [match_numbered, ht, hd2]

theorem match_numbered_body (ds body : Str) (a : Char) (hd : ds ≠ [])
    (hdig : ∀ c ∈ ds, c.isDigit = true) (h0 : body.head? = some a) (ha : is_space a = false)
    (hterm : ∀ c ∈ body, c ≠ '\n' ∧ c ≠ '\r') :
    match_numbered (ds ++ ' ' :: body) = some (ds, body) := by
  have ht : (ds ++ ' ' :: body).takeWhile Char.isDigit = ds := by
    rw [List.takeWhile_append_of_pos hdig]
    simp [List.takeWhile]
  have hd2 : ds.isEmpty = false := by cases ds <;> simp at hd ⊢
  have hdrop : ((ds ++ ' ' :: body).drop ds.length).dropWhile is_space = body := by
    rw [List.drop_left]
    have hsp : is_space ' ' = true := by decide
    have : List.dropWhile is_space (' ' :: body) = List.dropWhile is_space body := by
      simp [List.dropWhile, hsp]
    rw [this, dropWhile_head_neg is_space body a h0 ha]
  have hany : body.any (fun c => c == '\n' || c == '\r') = false := by
    rw [List.any_eq_false]
    intro c hc
    have := hterm c hc
    simp [this.1, this.2]
  unfold match_numbered
  simp only [ht, hdrop, hd2, hany]
  simp

theorem erase_line_spec (n : Int) (prog : List ProgramLine) :
    (erase_line n prog = prog ∧ ∀ l ∈ prog, l.lineno ≠ n)
    ∨ ∃ l1 x l2, prog = l1 ++ x :: l2 ∧ x.lineno = n ∧ (∀ l ∈ l1, l.lineno ≠ n)
        ∧ erase_line n prog = l1 ++ l2 := by
  induction prog with
  | nil => left; simp [erase_line]
  | cons p rest ih =>
    by_cases hp : p.lineno = n
    · right
      exact ⟨[], p, rest, rfl, hp, by simp, by simp [erase_line, hp]⟩
    · rcases ih with ⟨h1, h2⟩ | ⟨l1, x, l2, h1, h2, h3, h4⟩
      · left
        refine ⟨by simp [erase_line, hp, h1], ?_⟩
        intro l hl
        rcases List.mem_cons.mp hl with rfl | hl
        · exact hp
        · exact h2 l hl
      · right
        refine ⟨p :: l1, x, l2, by simp [h1], h2, ?_, by simp [erase_line, hp, h4]⟩
        intro l hl
        rcases List.mem_cons.mp hl with rfl | hl
        · exact hp
        · exact h3 l hl

/-- C18 (as amended).  Let `ds` be a numeral within the range of `int` and
`body` a text without line terminators that neither starts nor ends with
white space.  Entering the line `ds body` appends the line with that number
and body at the end of the program store and keeps every stored line, also
one with the same number; entering `ds` alone removes the first stored line
with that number, if there is one, and keeps the others.  Nothing else in the
state changes. -/
theorem numbered_entry_appends_or_erases (s : BasicInterpreter) (fuel : Nat) (ds body : Str)
    (a b : Char)
    (hd : ds ≠ []) (hdig : ∀ c ∈ ds, c.isDigit = true)
    (hn : digits_value 0 ds ≤ 2147483647)
    (h0 : body.head? = some a) (ha : is_space a = false)
    (h1 : body.getLast? = some b) (hb : is_space b = false)
    (hterm : ∀ c ∈ body, c ≠ '\n' ∧ c ≠ '\r') :
    input_line fuel (ds ++ ' ' :: body) s
      = (none, { s with program := s.program ++ [⟨digits_value 0 ds, body⟩] })
    ∧ input_line fuel ds s
      = (none, { s with program := erase_line (digits_value 0 ds) s.program })
    ∧ ((erase_line (digits_value 0 ds) s.program = s.program
          ∧ ∀ l ∈ s.program, l.lineno ≠ (digits_value 0 ds : Int))
      ∨ ∃ l1 x l2, s.program = l1 ++ x :: l2 ∧ x.lineno = (digits_value 0 ds : Int)
          ∧ (∀ l ∈ l1, l.lineno ≠ (digits_value 0 ds : Int))
          ∧ erase_line (digits_value 0 ds) s.program = l1 ++ l2) := by
  have hbody : body ≠ [] := by
    intro h; rw [h] at h0; simp at h0
  have hsb : strip body = body := strip_id body a b h0 ha h1 hb
  have hng : ¬ (digits_value 0 ds > 2147483647) := by omega
  refine ⟨?_, ?_, erase_line_spec _ _⟩
  · obtain ⟨c, hc⟩ : ∃ c, ds.head? = some c := by
      cases ds with
      | nil => exact absurd rfl hd
      | cons c _ => exact ⟨c, rfl⟩
    have hhead : (ds ++ ' ' :: body).head? = some c := by
      cases ds with
      | nil => exact absurd rfl hd
      | cons x l => simpa using hc
    have hlast : (ds ++ ' ' :: body).getLast? = some b := by
      rw [List.getLast?_append]
      have : (' ' :: body).getLast? = some b := by
        cases body with
        | nil => exact absurd rfl hbody
        | cons x l => rw [List.getLast?_cons_cons]; exact h1
      simp [this]
    have hsl : strip (ds ++ ' ' :: body) = ds ++ ' ' :: body :=
      strip_id _ c b hhead (digit_not_space c (hdig c (List.mem_of_mem_head? hc))) hlast hb
    have hm := match_numbered_body ds body a hd hdig h0 ha hterm
    have hlen : ¬ ((ds ++ ' ' :: body).length = 0) := by simp
    unfold input_line
    simp only [hlen, if_false, hsl, hm, hng, hsb, hbody]
  · have hsl : strip ds = ds := strip_digits ds hd hdig
    have hm := match_numbered_digits ds hd hdig
    have hlen : ¬ (ds.length = 0) := by
      intro h; exact hd (List.length_eq_zero.mp h)
    have hse : strip ([] : Str) = [] := rfl
    unfold input_line
    simp only [hlen, if_false, hsl, hm, hng, hse, if_true]

/-- An instance of `numbered_entry_appends_or_erases`: the entries
`10 PRINT 1` and `10` in a store that holds the lines 10 and 20. -/
theorem numbered_entry_appends_or_erases_witness :
    input_line 0 ("10".toList ++ ' ' :: "PRINT 1".toList) two_lines
      = (none, { two_lines with
          program := two_lines.program ++ [⟨digits_value 0 "10".toList, "PRINT 1".toList⟩] })
    ∧ input_line 0 "10".toList two_lines
      = (none, { two_lines with
          program := erase_line (digits_value 0 "10".toList) two_lines.program })
    ∧ ((erase_line (digits_value 0 "10".toList) two_lines.program = two_lines.program
          ∧ ∀ l ∈ two_lines.program, l.lineno ≠ (digits_value 0 "10".toList : Int))
      ∨ ∃ l1 x l2, two_lines.program = l1 ++ x :: l2
          ∧ x.lineno = (digits_value 0 "10".toList : Int)
          ∧ (∀ l ∈ l1, l.lineno ≠ (digits_value 0 "10".toList : Int))
          ∧ erase_line (digits_value 0 "10".toList) two_lines.program = l1 ++ l2) :=
  numbered_entry_appends_or_erases two_lines 0 "10".toList "PRINT 1".toList 'P' '1'
    (by decide) (by decide) (by decide) rfl (by decide) (by decide) (by decide) (by decide)

/-- C18 (counterexample).  Entered in a fresh interpreter, the lines `20 A`
and `10 B` are stored in that order, not by ascending number, and the lines
`10 A` and `10 B` are both stored: the second does not replace the first.
With both in the store the entry `10` removes the first of them only. -/
theorem store_is_in_entry_order :
    (input_lines 0 ["20 A".toList, "10 B".toList] (BasicInterpreter.init [])).2.program
      = [⟨20, "A".toList⟩, ⟨10, "B".toList⟩]
    ∧ (input_lines 0 ["10 A".toList, "10 B".toList] (BasicInterpreter.init [])).2.program
      = [⟨10, "A".toList⟩, ⟨10, "B".toList⟩]
    ∧ (input_lines 0 ["10 A".toList, "10 B".toList, "10".toList]
        (BasicInterpreter.init [])).2.program
      = [⟨10, "B".toList⟩] := by
  decide!

theorem alpha_not_digit (c : Char) (h : c.isAlpha = true) : c.isDigit = false := by
  simp only [Char.isAlpha, Char.isUpper, Char.isLower, Char.isDigit, Bool.or_eq_true,
    Bool.and_eq_true, decide_eq_true_eq, ge_iff_le] at h ⊢
  have : ¬ (c.val ≤ 57 ∧ 48 ≤ c.val) := by
    rintro ⟨h1, h2⟩
    rcases h with ⟨h3, h4⟩ | ⟨h3, h4⟩
    · have := UInt32.le_trans h3 h1
      revert this; decide
    · have := UInt32.le_trans h3 h1
      revert this; decide
  cases hd : (decide (48 ≤ c.val) && decide (c.val ≤ 57)) with
  | false => rfl
  | true =>
    simp only [Bool.and_eq_true, decide_eq_true_eq] at hd
    exact absurd ⟨hd.2, hd.1⟩ this

theorem match_word_none (w s : Str) (h : w.isPrefixOf s = false) : match_word w s = none := by
  simp [match_word, h]

/-- Every word, a letter followed by letters, digits or `$`, that does not
begin with `AND`, `OR` or `NOT` is lexed as one `NAME` token with the empty
payload. -/
theorem word_token_has_no_payload (c : Char) (cs : Str) (hc : c.isAlpha = true)
    (hcs : ∀ d ∈ cs, (d.isAlphanum || d == '$') = true)
    (hand : "AND".toList.isPrefixOf (c :: cs) = false)
    (hor : "OR".toList.isPrefixOf (c :: cs) = false)
    (hnot : "NOT".toList.isPrefixOf (c :: cs) = false) :
    tokenize (c :: cs) = Except.ok [⟨TokenType.NAME, TokenValue.str []⟩] := by
  have hnum : match_NUMBER (c :: cs) = none := by
    simp [match_NUMBER, List.takeWhile, alpha_not_digit c hc]
  have hq : c ≠ dquote := by
    rintro rfl
    revert hc; decide
  have hstr : match_STRING (c :: cs) = none := by
    simp [match_STRING, hq]
  have hbit : match_BITWISE (c :: cs) = none := by
    simp only [match_BITWISE, match_word_none _ _ hand, match_word_none _ _ hor,
      match_word_none _ _ hnot]
    rfl
  have htw : cs.takeWhile (fun d => d.isAlphanum || d == '$') = cs :=
    List.takeWhile_eq_self_iff.mpr hcs
  have hname : match_NAME (c :: cs) = some (1 + cs.length, []) := by
    simp only [match_NAME, hc, if_true, htw]
  have hfirst : first_match rules (c :: cs) = some (TokenType.NAME, 1 + cs.length, []) := by
    simp only [rules, first_match, hnum, hstr, hbit, hname]
  have hdrop : (c :: cs).drop (1 + cs.length) = [] := by
    apply List.drop_eq_nil_of_le
    simp; omega
  have hloop : ∀ n, tokenize_loop n ([] : Str) = Except.ok [] := by
    intro n; cases n <;> rfl
  have hmk : make_token TokenType.NAME [] = some ⟨TokenType.NAME, TokenValue.str []⟩ := by
    decide
  simp only [tokenize, List.length_cons, tokenize_loop, hfirst, hdrop, hloop, hmk]

/-- Every whole numeral is lexed as the number 0. -/
theorem whole_number_token_is_zero (ds : Str) (hd : ds ≠ [])
    (hdig : ∀ c ∈ ds, c.isDigit = true) : tokenize ds = Except.ok [tNUM 0] := by
  have ht : ds.takeWhile Char.isDigit = ds := List.takeWhile_eq_self_iff.mpr hdig
  have hd2 : ds.isEmpty = false := by cases ds <;> simp at hd ⊢
  have hnum : match_NUMBER ds = some (ds.length, []) := by
    simp [match_NUMBER, ht, hd2]
  have hloop : ∀ n, tokenize_loop n ([] : Str) = Except.ok [] := by
    intro n; cases n <;> rfl
  have hmk : make_token TokenType.NUMBER [] = some (tNUM 0) := by
    decide!
  cases ds with
  | nil => exact absurd rfl hd
  | cons c cs =>
    have hfirst : first_match rules (c :: cs) = some (TokenType.NUMBER, (c :: cs).length, []) := by
      simp only [rules, first_match, hnum]
    simp only [tokenize, List.length_cons, tokenize_loop, hfirst, hloop, hmk]
    simp [hloop, hmk]

/-! ### The length of a match and the termination of `tokenize` -/

theorem takeWhile_length_le (p : Char → Bool) (l : Str) :
    (l.takeWhile p).length ≤ l.length := by
  have h := congrArg List.length (List.takeWhile_append_dropWhile p l)
  rw [List.length_append] at h
  omega

theorem match_NUMBER_len (s : Str) (len : Nat) (txt : Str)
    (h : match_NUMBER s = some (len, txt)) : 1 ≤ len ∧ len ≤ s.length := by
  unfold match_NUMBER at h
  have hle : (s.takeWhile Char.isDigit).length ≤ s.length := takeWhile_length_le _ _
  have hlen : s.length = (s.takeWhile Char.isDigit).length
      + (s.drop (s.takeWhile Char.isDigit).length).length := by
    rw [List.length_drop]; omega
  cases hd : s.takeWhile Char.isDigit with
  | nil => simp [hd] at h
  | cons d ds =>
    rw [hd] at h hlen
    simp only [List.isEmpty_cons, Bool.false_eq_true, if_false] at h
    split at h
    · rename_i rest heq
      rw [heq] at hlen
      have hfs : (rest.takeWhile Char.isDigit).length ≤ rest.length :=
        takeWhile_length_le _ _
      simp only [Option.some.injEq, Prod.mk.injEq] at h
      simp only [List.length_cons] at hlen h ⊢
      omega
    · simp only [Option.some.injEq, Prod.mk.injEq] at h
      simp only [List.length_cons] at hlen h ⊢
      omega

theorem match_STRING_len (s : Str) (len : Nat) (txt : Str)
    (h : match_STRING s = some (len, txt)) : 1 ≤ len ∧ len ≤ s.length := by
  unfold match_STRING at h
  cases s with
  | nil => simp at h
  | cons q rest =>
    simp only at h
    split at h
    · have hlen : rest.length = min (rest.takeWhile (fun c => c != dquote)).length rest.length
          + (rest.drop (rest.takeWhile (fun c => c != dquote)).length).length := by
        rw [List.length_drop]; omega
      have hle : (rest.takeWhile (fun c => c != dquote)).length ≤ rest.length :=
        takeWhile_length_le _ _
      split at h
      · rename_i a b heq
        rw [heq] at hlen
        simp only [Option.some.injEq, Prod.mk.injEq] at h
        simp only [List.length_cons] at hlen ⊢
        omega
      · simp at h
    · simp at h

theorem match_word_len (w s : Str) (len : Nat) (txt : Str) (hw : 1 ≤ w.length)
    (h : match_word w s = some (len, txt)) : 1 ≤ len ∧ len ≤ s.length := by
  unfold match_word at h
  split at h
  · rename_i hp
    have hpre : w <+: s := List.isPrefixOf_iff_prefix.mp hp
    have hle : w.length ≤ s.length := hpre.length_le
    split at h
    · simp only [Option.some.injEq, Prod.mk.injEq] at h
      omega
    · split at h
      · simp at h
      · simp only [Option.some.injEq, Prod.mk.injEq] at h
        omega
  · simp at h

theorem match_BITWISE_len (s : Str) (len : Nat) (txt : Str)
    (h : match_BITWISE s = some (len, txt)) : 1 ≤ len ∧ len ≤ s.length := by
  unfold match_BITWISE at h
  cases h1 : match_word "AND".toList s with
  | some r =>
    rw [h1] at h
    simp only [Option.orElse] at h
    rw [h] at h1
    exact match_word_len _ s len txt (by decide) h1
  | none =>
    rw [h1] at h
    simp only [Option.orElse] at h
    cases h2 : match_word "OR".toList s with
    | some r =>
      rw [h2] at h
      simp only at h
      rw [h] at h2
      exact match_word_len _ s len txt (by decide) h2
    | none =>
      rw [h2] at h
      simp only at h
      exact match_word_len _ s len txt (by decide) h

theorem match_NAME_len (s : Str) (len : Nat) (txt : Str)
    (h : match_NAME s = some (len, txt)) : 1 ≤ len ∧ len ≤ s.length := by
  unfold match_NAME at h
  cases s with
  | nil => simp at h
  | cons c rest =>
    simp only at h
    split at h
    · have hle : (rest.takeWhile (fun d => d.isAlphanum || d == '$')).length ≤ rest.length :=
        takeWhile_length_le _ _
      simp only [Option.some.injEq, Prod.mk.injEq] at h
      simp only [List.length_cons]
      omega
    · simp at h

theorem match_OP_len (s : Str) (len : Nat) (txt : Str)
    (h : match_OP s = some (len, txt)) : 1 ≤ len ∧ len ≤ s.length := by
  unfold match_OP at h
  split at h
  all_goals first
    | (simp only [Option.some.injEq, Prod.mk.injEq] at h
       simp only [List.length_cons]
       omega)
    | (split at h
       · simp only [Option.some.injEq, Prod.mk.injEq] at h
         simp only [List.length_cons]
         omega
       · simp at h)
    | simp at h

theorem match_char_len (x : Char) (s : Str) (len : Nat) (txt : Str)
    (h : match_char x s = some (len, txt)) : 1 ≤ len ∧ len ≤ s.length := by
  unfold match_char at h
  cases s with
  | nil => simp at h
  | cons c rest =>
    simp only at h
    split at h
    · simp only [Option.some.injEq, Prod.mk.injEq] at h
      simp only [List.length_cons]
      omega
    · simp at h

theorem match_SKIP_len (s : Str) (len : Nat) (txt : Str)
    (h : match_SKIP s = some (len, txt)) : 1 ≤ len ∧ len ≤ s.length := by
  unfold match_SKIP at h
  have hle : (s.takeWhile (fun c => c == ' ' || c == '\t')).length ≤ s.length :=
    takeWhile_length_le _ _
  cases hd : s.takeWhile (fun c => c == ' ' || c == '\t') with
  | nil => simp [hd] at h
  | cons d ds =>
    rw [hd] at h hle
    simp only [List.isEmpty_cons, Bool.false_eq_true, if_false, Option.some.injEq,
      Prod.mk.injEq] at h
    simp only [List.length_cons] at h hle ⊢
    omega

theorem match_UNKNOWN_len (s : Str) (len : Nat) (txt : Str)
    (h : match_UNKNOWN s = some (len, txt)) : 1 ≤ len ∧ len ≤ s.length := by
  unfold match_UNKNOWN at h
  cases s with
  | nil => simp at h
  | cons c rest =>
    simp only at h
    split at h
    · simp at h
    · simp only [Option.some.injEq, Prod.mk.injEq] at h
      simp only [List.length_cons]
      omega

theorem first_match_len (rs : List (TokenType × (Str → Option (Nat × Str))))
    (hall : ∀ r ∈ rs, ∀ s len txt, r.2 s = some (len, txt) → 1 ≤ len ∧ len ≤ s.length)
    (s : Str) (kind : TokenType) (len : Nat) (txt : Str)
    (h : first_match rs s = some (kind, len, txt)) : 1 ≤ len ∧ len ≤ s.length := by
  induction rs with
  | nil => simp [first_match] at h
  | cons r rest ih =>
    obtain ⟨k, pat⟩ := r
    unfold first_match at h
    cases hp : pat s with
    | none =>
      rw [hp] at h
      exact ih (fun r hr => hall r (List.mem_cons_of_mem _ hr)) h
    | some v =>
      obtain ⟨l1, t1⟩ := v
      rw [hp] at h
      simp only [Option.some.injEq, Prod.mk.injEq] at h
      obtain ⟨_, h2, _⟩ := h
      subst h2
      exact hall (k, pat) (List.mem_cons_self _ _) s l1 t1 hp

theorem rules_len (s : Str) (kind : TokenType) (len : Nat) (txt : Str)
    (h : first_match rules s = some (kind, len, txt)) : 1 ≤ len ∧ len ≤ s.length := by
  refine first_match_len rules ?_ s kind len txt h
  intro r hr
  simp only [rules, List.mem_cons, List.mem_singleton, List.not_mem_nil, or_false] at hr
  rcases hr with rfl | rfl | rfl | rfl | rfl | rfl | rfl | rfl | rfl | rfl
  · exact match_NUMBER_len
  · exact match_STRING_len
  · exact match_BITWISE_len
  · exact match_NAME_len
  · exact match_OP_len
  · exact match_char_len '('
  · exact match_char_len ')'
  · exact match_char_len ','
  · exact match_SKIP_len
  · exact match_UNKNOWN_len

theorem make_token_not_skip (kind : TokenType) (txt : Str) (t : Token)
    (h : make_token kind txt = some t) : t.type ≠ TokenType.SKIP := by
  unfold make_token at h
  cases kind <;> simp only [Option.some.injEq] at h <;> try (subst h; simp)
  · split at h
    · simp only [Option.some.injEq] at h; subst h; simp
    · split at h <;> (simp only [Option.some.injEq] at h; subst h; simp)
  · simp at h

theorem tokenize_loop_fuel (fuel1 : Nat) : ∀ (fuel2 : Nat) (s : Str),
    s.length ≤ fuel1 → s.length ≤ fuel2 → tokenize_loop fuel1 s = tokenize_loop fuel2 s := by
  induction fuel1 with
  | zero =>
    intro fuel2 s h1 _
    have : s = [] := List.length_eq_zero.mp (Nat.le_zero.mp h1)
    subst this
    cases fuel2 <;> rfl
  | succ f1 ih =>
    intro fuel2 s h1 h2
    cases s with
    | nil => cases fuel2 <;> rfl
    | cons c cs =>
      cases fuel2 with
      | zero => simp at h2
      | succ f2 =>
        unfold tokenize_loop
        cases hm : first_match rules (c :: cs) with
        | none => rfl
        | some r =>
          obtain ⟨kind, len, txt⟩ := r
          have hb := rules_len (c :: cs) kind len txt hm
          have hd : ((c :: cs).drop len).length ≤ cs.length := by
            rw [List.length_drop]; simp only [List.length_cons]; omega
          simp only [List.length_cons] at h1 h2
          simp only
          rw [ih f2 ((c :: cs).drop len) (by omega) (by omega)]

theorem tokenize_loop_result (fuel : Nat) : ∀ s : Str, s.length ≤ fuel →
    tokenize_loop fuel s = Except.error Err.tokenizerStuck
      ∨ ∃ toks, tokenize_loop fuel s = Except.ok toks ∧ toks.length ≤ s.length
          ∧ ∀ t ∈ toks, t.type ≠ TokenType.SKIP := by
  induction fuel with
  | zero =>
    intro s h
    have : s = [] := List.length_eq_zero.mp (Nat.le_zero.mp h)
    subst this
    exact Or.inr ⟨[], rfl, by simp, by simp⟩
  | succ f ih =>
    intro s h
    cases s with
    | nil => exact Or.inr ⟨[], rfl, by simp, by simp⟩
    | cons c cs =>
      unfold tokenize_loop
      cases hm : first_match rules (c :: cs) with
      | none => exact Or.inl rfl
      | some r =>
        obtain ⟨kind, len, txt⟩ := r
        have hb := rules_len (c :: cs) kind len txt hm
        have hd : ((c :: cs).drop len).length ≤ cs.length := by
          rw [List.length_drop]; simp only [List.length_cons]; omega
        simp only [List.length_cons] at h
        simp only
        rcases ih ((c :: cs).drop len) (by omega) with he | ⟨toks, hok, hlen, hskip⟩
        · rw [he]; exact Or.inl rfl
        · rw [hok]
          simp only
          cases hk : make_token kind txt with
          | none =>
            refine Or.inr ⟨toks, rfl, ?_, hskip⟩
            simp only [List.length_cons]; omega
          | some t =>
            refine Or.inr ⟨t :: toks, rfl, ?_, ?_⟩
            · simp only [List.length_cons]; omega
            · intro u hu
              rcases List.mem_cons.mp hu with rfl | hu
              · exact make_token_not_skip kind txt _ hk
              · exact hskip u hu

/-- C21.  On every text `s` the call `tokenize s` terminates.  At every
position `pos` inside `s` the rules either all fail, and "Tokenizer stuck" is
thrown, or the first one that matches consumes at least one character and at
most the characters that remain.  Hence the fuel `s.length` is never used up
and more fuel gives the same result: that result is either the "stuck" error
or a list of tokens which is no longer than `s` and holds no token of the
kind `SKIP`. -/
theorem tokenize_terminates (s : Str) :
    (∀ pos : Nat, pos < s.length →
        first_match rules (s.drop pos) = none
        ∨ ∃ kind len txt, first_match rules (s.drop pos) = some (kind, len, txt)
            ∧ 1 ≤ len ∧ pos + len ≤ s.length)
    ∧ (∀ fuel : Nat, s.length ≤ fuel → tokenize_loop fuel s = tokenize s)
    ∧ (tokenize s = Except.error Err.tokenizerStuck
        ∨ ∃ toks, tokenize s = Except.ok toks ∧ toks.length ≤ s.length
            ∧ ∀ t ∈ toks, t.type ≠ TokenType.SKIP) := by
  refine ⟨?_, ?_, ?_⟩
  · intro pos hpos
    cases hm : first_match rules (s.drop pos) with
    | none => exact Or.inl rfl
    | some r =>
      obtain ⟨kind, len, txt⟩ := r
      have hb := rules_len (s.drop pos) kind len txt hm
      rw [List.length_drop] at hb
      exact Or.inr ⟨kind, len, txt, rfl, hb.1, by omega⟩
  · intro fuel hf
    exact tokenize_loop_fuel fuel s.length s hf (le_refl _)
  · exact tokenize_loop_result s.length s (le_refl _)

/-- C22 (fails on the code).  For all payloads, `to_rpn` on the tokens
`a op1 b op2 c` with two `OP` tokens returns `a b c op2 op1` and never
`a b op1 c op2`: at `op2` the top of the stack is an `OP` token, so the loop
of the `OP` branch, which runs while the top is not one, is not entered, and
`op1` stays below `op2`.  Every pair of operators therefore groups to the
right: the tokens of `10 - 2 - 3` give `10 2 3 - -`, which evaluates to 11,
whereas the left-associative form `10 2 - 3 -` evaluates to 5; the tokens of
`8 / 4 * 2` give `8 4 2 * /`, which evaluates to 1. -/
theorem c22_equal_precedence_groups_right (ta tb tc : TokenValue) (op1 op2 : TokenValue) :
    to_rpn [⟨TokenType.NUMBER, ta⟩, ⟨TokenType.OP, op1⟩, ⟨TokenType.NUMBER, tb⟩,
        ⟨TokenType.OP, op2⟩, ⟨TokenType.NUMBER, tc⟩]
      = Except.ok [⟨TokenType.NUMBER, ta⟩, ⟨TokenType.NUMBER, tb⟩, ⟨TokenType.NUMBER, tc⟩,
          ⟨TokenType.OP, op2⟩, ⟨TokenType.OP, op1⟩]
    ∧ to_rpn [⟨TokenType.NUMBER, ta⟩, ⟨TokenType.OP, op1⟩, ⟨TokenType.NUMBER, tb⟩,
        ⟨TokenType.OP, op2⟩, ⟨TokenType.NUMBER, tc⟩]
      ≠ Except.ok [⟨TokenType.NUMBER, ta⟩, ⟨TokenType.NUMBER, tb⟩, ⟨TokenType.OP, op1⟩,
          ⟨TokenType.NUMBER, tc⟩, ⟨TokenType.OP, op2⟩]
    ∧ to_rpn [tNUM 10, tOP "-", tNUM 2, tOP "-", tNUM 3]
      = Except.ok [tNUM 10, tNUM 2, tNUM 3, tOP "-", tOP "-"]
    ∧ (eval_rpn [tNUM 10, tNUM 2, tNUM 3, tOP "-", tOP "-"] []).1
      = Except.ok (TokenValue.num 11)
    ∧ (eval_rpn [tNUM 10, tNUM 2, tOP "-", tNUM 3, tOP "-"] []).1
      = Except.ok (TokenValue.num 5)
    ∧ to_rpn [tNUM 8, tOP "/", tNUM 4, tOP "*", tNUM 2]
      = Except.ok [tNUM 8, tNUM 4, tNUM 2, tOP "*", tOP "/"]
    ∧ (eval_rpn [tNUM 8, tNUM 4, tNUM 2, tOP "*", tOP "/"] []).1
      = Except.ok (TokenValue.num 1) := by
  refine ⟨rfl, ?_, by decide!, by decide!, by decide!, by decide!, by decide!⟩
  have h : to_rpn [⟨TokenType.NUMBER, ta⟩, ⟨TokenType.OP, op1⟩, ⟨TokenType.NUMBER, tb⟩,
        ⟨TokenType.OP, op2⟩, ⟨TokenType.NUMBER, tc⟩]
      = Except.ok [⟨TokenType.NUMBER, ta⟩, ⟨TokenType.NUMBER, tb⟩, ⟨TokenType.NUMBER, tc⟩,
          ⟨TokenType.OP, op2⟩, ⟨TokenType.OP, op1⟩] := rfl
  rw [h]
  simp

/-! ### The test of the `IF` branch -/

theorem if_test_iff (c : TokenValue) :
    (as_number c ≠ 0 ∧ as_string c ≠ []) ↔ ∃ x : ℚ, c = TokenValue.num x ∧ x ≠ 0 := by
  cases c with
  | num x =>
    constructor
    · intro h; exact ⟨x, rfl, h.1⟩
    · rintro ⟨y, hy, hy0⟩
      cases hy
      exact ⟨hy0, to_string_ne_nil x⟩
  | str txt =>
    constructor
    · intro h; exact absurd rfl h.1
    · rintro ⟨y, hy, _⟩; cases hy

/-! ### The statement splitter of `exec_stmt_line` -/

theorem in_quotes_snoc_dquote (p : Str) : in_quotes (p ++ [dquote]) = !in_quotes p := by
  unfold in_quotes
  rw [List.count_append]
  have h1 : List.count dquote [dquote] = 1 := by decide
  rw [h1]
  rcases Nat.mod_two_eq_zero_or_one (List.count dquote p) with h | h
  · have : (List.count dquote p + 1) % 2 = 1 := by omega
    simp [h, this]
  · have : (List.count dquote p + 1) % 2 = 0 := by omega
    simp [h, this]

theorem in_quotes_snoc_other (p : Str) (ch : Char) (h : ch ≠ dquote) :
    in_quotes (p ++ [ch]) = in_quotes p := by
  unfold in_quotes
  rw [List.count_append]
  have h1 : List.count dquote [ch] = 0 := by
    simp [List.count_cons, h]
  rw [h1, Nat.add_zero]

theorem spec_pieces_from_ne_nil (rest : Str) : ∀ seen cur : Str,
    spec_pieces_from seen cur rest ≠ [] := by
  induction rest with
  | nil => intro seen cur; simp [spec_pieces_from]
  | cons ch rest ih =>
    intro seen cur
    unfold spec_pieces_from
    split
    · simp
    · exact ih _ _

theorem split_stmts_pieces (rest : Str) : ∀ seen cur : Str,
    split_stmts rest cur (in_quotes seen)
      = ((spec_pieces_from seen cur rest).dropLast.map strip)
        ++ (((spec_pieces_from seen cur rest).getLast?.toList.map strip).filter
            (fun p => !p.isEmpty)) := by
  induction rest with
  | nil =>
    intro seen cur
    simp only [split_stmts, spec_pieces_from]
    by_cases h : (strip cur).isEmpty = true
    · simp [h]
    · simp [h]
  | cons ch rest ih =>
    intro seen cur
    unfold split_stmts spec_pieces_from
    by_cases hq : ch = dquote
    · have hc : ¬ (ch = ':' ∧ in_quotes seen = false) := by
        rintro ⟨h1, _⟩
        rw [h1] at hq
        exact absurd hq (by decide)
      simp only [hq, if_true]
      have hc2 : ¬ (dquote = ':' ∧ in_quotes seen = false) := by
        rintro ⟨h1, _⟩
        exact absurd h1 (by decide)
      simp only [hc2, if_false]
      rw [← in_quotes_snoc_dquote seen]
      exact ih _ _
    · simp only [hq, if_false]
      by_cases hc : ch = ':' ∧ in_quotes seen = false
      · simp only [hc, and_self, if_true]
        have hpar : in_quotes (seen ++ [':']) = false := by
          rw [in_quotes_snoc_other seen ':' (by decide)]; exact hc.2
        have hih := ih (seen ++ [':']) []
        rw [hpar] at hih
        have hne := spec_pieces_from_ne_nil rest (seen ++ [':']) []
        cases hQ : spec_pieces_from (seen ++ [':']) [] rest with
        | nil => exact absurd hQ hne
        | cons q qs =>
          rw [hQ] at hih
          rw [hih]
          simp [List.dropLast, List.getLast?_cons_cons]
      · simp only [hc, if_false]
        rw [← in_quotes_snoc_other seen ch hq]
        exact ih _ _

theorem spec_pieces_from_join (rest : Str) : ∀ seen cur : Str,
    List.intercalate [':'] (spec_pieces_from seen cur rest) = cur ++ rest := by
  induction rest with
  | nil => intro seen cur; simp [spec_pieces_from, List.intercalate]
  | cons ch rest ih =>
    intro seen cur
    unfold spec_pieces_from
    by_cases hc : ch = ':' ∧ in_quotes seen = false
    · simp only [hc, and_self, if_true]
      have hih := ih (seen ++ [':']) []
      have hne := spec_pieces_from_ne_nil rest (seen ++ [':']) []
      cases hQ : spec_pieces_from (seen ++ [':']) [] rest with
      | nil => exact absurd hQ hne
      | cons q qs =>
        rw [hQ] at hih
        simp only [List.intercalate, List.intersperse_cons₂, List.flatten_cons,
          List.nil_append] at hih ⊢
        rw [hih]
        simp
    · simp only [hc, if_false]
      rw [ih]
      simp

theorem spec_pieces_from_inside (rest : Str) : ∀ seen cur : Str,
    in_quotes seen = in_quotes cur →
    (∀ a b, cur = a ++ ':' :: b → in_quotes a = true) →
    ∀ p ∈ spec_pieces_from seen cur rest, ∀ a b, p = a ++ ':' :: b → in_quotes a = true := by
  induction rest with
  | nil =>
    intro seen cur _ hcur p hp
    simp only [spec_pieces_from, List.mem_singleton] at hp
    subst hp
    exact hcur
  | cons ch rest ih =>
    intro seen cur hpar hcur p hp
    unfold spec_pieces_from at hp
    by_cases hc : ch = ':' ∧ in_quotes seen = false
    · simp only [hc, and_self, if_true] at hp
      rcases List.mem_cons.mp hp with rfl | hp
      · exact hcur
      · refine ih (seen ++ [':']) [] ?_ ?_ p hp
        · rw [in_quotes_snoc_other seen ':' (by decide), hc.2]; rfl
        · intro a b hab
          exact absurd (congrArg List.length hab) (by simp; omega)
    · simp only [hc, if_false] at hp
      refine ih (seen ++ [ch]) (cur ++ [ch]) ?_ ?_ p hp
      · by_cases hq : ch = dquote
        · subst hq
          rw [in_quotes_snoc_dquote, in_quotes_snoc_dquote, hpar]
        · rw [in_quotes_snoc_other _ _ hq, in_quotes_snoc_other _ _ hq, hpar]
      · intro a b hab
        rcases List.eq_nil_or_concat b with hb | ⟨b1, x, hb⟩
        · subst hb
          have h2 : cur ++ [ch] = a ++ [':'] := hab
          have h3 := List.append_inj' h2 rfl
          obtain ⟨h4, h5⟩ := h3
          have h6 : ch = ':' := by simpa using h5
          subst h4
          cases hs : in_quotes cur with
          | true => rfl
          | false => exact absurd ⟨h6, hpar.trans hs⟩ hc
        · subst hb
          have h2 : cur ++ [ch] = (a ++ ':' :: b1) ++ [x] := by
            rw [hab]; simp
          have h3 := List.append_inj' h2 rfl
          exact hcur a b1 h3.1

theorem spec_pieces_from_closed (rest : Str) : ∀ seen cur : Str,
    in_quotes seen = in_quotes cur →
    ∀ p ∈ (spec_pieces_from seen cur rest).dropLast, in_quotes p = false := by
  induction rest with
  | nil =>
    intro seen cur _ p hp
    simp [spec_pieces_from] at hp
  | cons ch rest ih =>
    intro seen cur hpar p hp
    unfold spec_pieces_from at hp
    by_cases hc : ch = ':' ∧ in_quotes seen = false
    · simp only [hc, and_self, if_true] at hp
      have hne := spec_pieces_from_ne_nil rest (seen ++ [':']) []
      cases hQ : spec_pieces_from (seen ++ [':']) [] rest with
      | nil => exact absurd hQ hne
      | cons q qs =>
        rw [hQ] at hp
        simp only [List.dropLast] at hp
        rcases List.mem_cons.mp hp with rfl | hp
        · rw [← hpar]; exact hc.2
        · refine ih (seen ++ [':']) [] ?_ p ?_
          · rw [in_quotes_snoc_other seen ':' (by decide), hc.2]; rfl
          · rw [hQ]; exact hp
    · simp only [hc, if_false] at hp
      refine ih (seen ++ [ch]) (cur ++ [ch]) ?_ p hp
      by_cases hq : ch = dquote
      · subst hq
        rw [in_quotes_snoc_dquote, in_quotes_snoc_dquote, hpar]
      · rw [in_quotes_snoc_other _ _ hq, in_quotes_snoc_other _ _ hq, hpar]


theorem strip_decomp (p : Str) :
    ∃ ws1 ws2 : Str, p = ws1 ++ strip p ++ ws2 ∧ ∀ c ∈ ws1, is_space c = true := by
  refine ⟨p.takeWhile is_space,
    ((p.dropWhile is_space).reverse.takeWhile is_space).reverse, ?_, ?_⟩
  · have h1 := List.takeWhile_append_dropWhile is_space p
    have h2 := List.takeWhile_append_dropWhile is_space (p.dropWhile is_space).reverse
    have h3 : p.dropWhile is_space
        = ((p.dropWhile is_space).reverse.dropWhile is_space).reverse
          ++ ((p.dropWhile is_space).reverse.takeWhile is_space).reverse := by
      rw [← List.reverse_append, h2, List.reverse_reverse]
    unfold strip
    rw [List.append_assoc, ← h3, h1]
  · intro c hc
    exact List.mem_takeWhile_imp hc

theorem in_quotes_after_spaces (ws a : Str) (h : ∀ c ∈ ws, is_space c = true) :
    in_quotes (ws ++ a) = in_quotes a := by
  unfold in_quotes
  have h0 : List.count dquote ws = 0 := by
    rw [List.count_eq_zero]
    intro hm
    have := h dquote hm
    exact absurd this (by decide)
  rw [List.count_append, h0, Nat.zero_add]

theorem strip_inside (p : Str)
    (h : ∀ a b, p = a ++ ':' :: b → in_quotes a = true) :
    ∀ a b, strip p = a ++ ':' :: b → in_quotes a = true := by
  intro a b hab
  obtain ⟨ws1, ws2, hp, hws⟩ := strip_decomp p
  rw [hab] at hp
  have h1 : p = (ws1 ++ a) ++ ':' :: (b ++ ws2) := by
    rw [hp]; simp
  have h2 := h _ _ h1
  rw [in_quotes_after_spaces ws1 a hws] at h2
  exact h2

theorem exec_parts_append_empty (parts : List Str) (lineno : Int) :
    ∀ s : BasicInterpreter, exec_parts (parts ++ [[]]) lineno s = exec_parts parts lineno s := by
  induction parts with
  | nil =>
    intro s
    rfl
  | cons p rest ih =>
    intro s
    simp only [List.cons_append, exec_parts]
    cases h : exec_stmt p lineno s with
    | mk e s1 =>
      cases e with
      | none => exact ih s1
      | some e => rfl

/-- The function `strip` removes white space from the two ends of a text and
nothing else: the text is the stripped one between two runs of white space,
and the stripped text neither begins nor ends with white space. -/
theorem strip_trimmed (p : Str) :
    ∃ ws1 ws2 : Str, p = ws1 ++ strip p ++ ws2
      ∧ (∀ c ∈ ws1, is_space c = true) ∧ (∀ c ∈ ws2, is_space c = true)
      ∧ (∀ c, (strip p).head? = some c → is_space c = false)
      ∧ (∀ c, (strip p).getLast? = some c → is_space c = false) := by
  have h1 := List.takeWhile_append_dropWhile is_space p
  have h2 := List.takeWhile_append_dropWhile is_space (p.dropWhile is_space).reverse
  have h3 : p.dropWhile is_space
      = ((p.dropWhile is_space).reverse.dropWhile is_space).reverse
        ++ ((p.dropWhile is_space).reverse.takeWhile is_space).reverse := by
    rw [← List.reverse_append, h2, List.reverse_reverse]
  have hlast : ∀ c, (strip p).getLast? = some c → is_space c = false := by
    intro c hc
    unfold strip at hc
    rw [List.getLast?_reverse] at hc
    have := List.head?_dropWhile_not is_space (p.dropWhile is_space).reverse
    rw [hc] at this
    simpa using this
  refine ⟨p.takeWhile is_space,
    ((p.dropWhile is_space).reverse.takeWhile is_space).reverse, ?_, ?_, ?_, ?_, hlast⟩
  · unfold strip
    rw [List.append_assoc, ← h3, h1]
  · intro c hc
    exact List.mem_takeWhile_imp hc
  · intro c hc
    exact List.mem_takeWhile_imp (List.mem_reverse.mp hc)
  · intro c hc
    have hd := List.head?_dropWhile_not is_space p
    cases hs : strip p with
    | nil => rw [hs] at hc; simp at hc
    | cons a as =>
      rw [hs] at hc
      simp only [List.head?_cons, Option.some.injEq] at hc
      subst hc
      have h4 : p.dropWhile is_space = a :: (as ++
          ((p.dropWhile is_space).reverse.takeWhile is_space).reverse) := by
        have h5 := h3
        unfold strip at hs
        rw [hs] at h5
        simpa using h5
      rw [h4] at hd
      simpa using hd

/-- C24.  For every line, let `spec_pieces line` be the pieces of its
description.  Joined again with `:` they give the line; every piece but the
last holds an even number of quotes, so each `:` at which the line was cut
lies outside the quoted literals, and every `:` within a piece has an odd
number of quotes before it, so it lies inside one.  The parts that
`exec_stmt_line` collects are these pieces in their order, each one
stripped, the last one left out when it is empty after stripping; no part
holds a `:` outside quotes.  Stripping a piece takes a run of white space
(blank, tab, line feed, carriage return, form feed, vertical tab) from each
of its ends and nothing else, and what is left neither begins nor ends with
white space.  Executing the parts is executing all the stripped pieces from
left to right, since the empty statement does nothing. -/
theorem split_cuts_outside_quotes (line : Str) (lineno : Int) (immediate : Bool)
    (s : BasicInterpreter) :
    List.intercalate [':'] (spec_pieces line) = line
    ∧ (∀ p ∈ (spec_pieces line).dropLast, in_quotes p = false)
    ∧ (∀ p ∈ spec_pieces line, ∀ a b, p = a ++ ':' :: b → in_quotes a = true)
    ∧ split_stmts line [] false
        = ((spec_pieces line).dropLast.map strip)
          ++ (((spec_pieces line).getLast?.toList.map strip).filter (fun p => !p.isEmpty))
    ∧ (∀ part ∈ split_stmts line [] false, ∀ a b, part = a ++ ':' :: b → in_quotes a = true)
    ∧ (∀ p : Str, ∃ ws1 ws2 : Str, p = ws1 ++ strip p ++ ws2
        ∧ (∀ c ∈ ws1, is_space c = true) ∧ (∀ c ∈ ws2, is_space c = true)
        ∧ (∀ c, (strip p).head? = some c → is_space c = false)
        ∧ (∀ c, (strip p).getLast? = some c → is_space c = false))
    ∧ (∀ c : Char, is_space c = true
        ↔ c ∈ [' ', '\t', '\n', '\r', Char.ofNat 12, Char.ofNat 11])
    ∧ exec_stmt_line lineno line immediate s
        = exec_parts ((spec_pieces line).map strip) (if immediate then -1 else lineno) s := by
  have hjoin := spec_pieces_from_join line [] []
  have hclosed := spec_pieces_from_closed line [] [] rfl
  have hinside := spec_pieces_from_inside line [] [] rfl
    (fun a b hab => absurd (congrArg List.length hab) (by simp; omega))
  have hsplit := split_stmts_pieces line [] []
  have hq : in_quotes [] = false := rfl
  rw [hq] at hsplit
  have hne := spec_pieces_from_ne_nil line [] []
  obtain ⟨ps, last, hP⟩ : ∃ ps last, spec_pieces_from [] [] line = ps ++ [last] := by
    rcases List.eq_nil_or_concat (spec_pieces_from [] [] line) with h | ⟨ps, last, h⟩
    · exact absurd h hne
    · exact ⟨ps, last, by rw [h, List.concat_eq_append]⟩
  refine ⟨by simpa using hjoin, hclosed, hinside, hsplit, ?_, strip_trimmed, ?_, ?_⟩
  · intro part hpart
    rw [hsplit] at hpart
    rcases List.mem_append.mp hpart with h | h
    · obtain ⟨p, hp, rfl⟩ := List.mem_map.mp h
      exact strip_inside p (hinside p (List.mem_of_mem_dropLast hp))
    · have h1 := (List.mem_filter.mp h).1
      obtain ⟨p, hp, rfl⟩ := List.mem_map.mp h1
      have hp2 : p ∈ spec_pieces line := by
        show p ∈ spec_pieces_from [] [] line
        rw [hP] at hp ⊢
        simp at hp
        simp [hp]
      exact strip_inside p (hinside p hp2)
  · intro c
    simp [is_space, or_assoc]
  · unfold exec_stmt_line
    rw [hsplit]
    unfold spec_pieces
    rw [hP]
    simp only [List.dropLast_concat, List.getLast?_append, List.getLast?_singleton,
      List.map_append, List.map_cons, List.map_nil]
    by_cases he : strip last = []
    · simp [he, exec_parts_append_empty]
    · simp [he]

/-- C25.  For all texts `s` and `t` and every environment, the postfix
sequence of the `STRING` tokens `s` and `t` and the operator `=` evaluates to
the number 1 and the one with `<>` to the number 0; the environment is left
as it was.  With any operator the result is that of the same operator on the
numbers 0 and 0: `eval_rpn` reads both operands with `as_number`, which gives
0 for every text. -/
theorem text_comparison_is_of_zeros (s t : Str) (env : Env) :
    eval_rpn [⟨TokenType.STRING, TokenValue.str s⟩, ⟨TokenType.STRING, TokenValue.str t⟩,
        tOP "="] env = (Except.ok (TokenValue.num 1), env)
    ∧ eval_rpn [⟨TokenType.STRING, TokenValue.str s⟩, ⟨TokenType.STRING, TokenValue.str t⟩,
        tOP "<>"] env = (Except.ok (TokenValue.num 0), env)
    ∧ ∀ op : Str,
        eval_rpn [⟨TokenType.STRING, TokenValue.str s⟩, ⟨TokenType.STRING, TokenValue.str t⟩,
          ⟨TokenType.OP, TokenValue.str op⟩] env
        = eval_rpn [tNUM 0, tNUM 0, ⟨TokenType.OP, TokenValue.str op⟩] env := by
  refine ⟨?_, ?_, ?_⟩
  · simp [eval_rpn, eval_rpn_loop, eval_rpn_step, tOP, get_string, as_number, eval_op]
  · simp [eval_rpn, eval_rpn_loop, eval_rpn_step, tOP, get_string, as_number, eval_op]
  · intro op
    simp [eval_rpn, eval_rpn_loop, eval_rpn_step, tNUM, get_string, as_number]

/-! ## Statements as the interpreter receives them

The properties below are about statement texts: the tokens are those that
`tokenize` returns for the text. -/

/-! ### The tokens of a text -/

theorem match_word_txt (w s : Str) (len : Nat) (txt : Str)
    (h : match_word w s = some (len, txt)) : txt = w := by
  unfold match_word at h
  split at h
  · split at h
    · simp only [Option.some.injEq, Prod.mk.injEq] at h
      exact h.2.symm
    · split at h
      · simp at h
      · simp only [Option.some.injEq, Prod.mk.injEq] at h
        exact h.2.symm
  · simp at h

theorem match_BITWISE_txt (s : Str) (len : Nat) (txt : Str)
    (h : match_BITWISE s = some (len, txt)) :
    txt = "AND".toList ∨ txt = "OR".toList ∨ txt = "NOT".toList := by
  unfold match_BITWISE at h
  cases h1 : match_word "AND".toList s with
  | some r =>
    rw [h1] at h
    simp only [Option.orElse] at h
    rw [h] at h1
    exact Or.inl (match_word_txt _ s len txt h1)
  | none =>
    rw [h1] at h
    simp only [Option.orElse] at h
    cases h2 : match_word "OR".toList s with
    | some r =>
      rw [h2] at h
      simp only at h
      rw [h] at h2
      exact Or.inr (Or.inl (match_word_txt _ s len txt h2))
    | none =>
      rw [h2] at h
      simp only at h
      exact Or.inr (Or.inr (match_word_txt _ s len txt h))

theorem match_NAME_txt (s : Str) (len : Nat) (txt : Str)
    (h : match_NAME s = some (len, txt)) : txt = [] := by
  unfold match_NAME at h
  split at h
  · split at h
    · simp only [Option.some.injEq, Prod.mk.injEq] at h
      exact h.2.symm
    · simp at h
  · simp at h

theorem match_OP_txt (s : Str) (len : Nat) (txt : Str)
    (h : match_OP s = some (len, txt)) : txt = [] := by
  unfold match_OP at h
  split at h
  all_goals first
    | (simp only [Option.some.injEq, Prod.mk.injEq] at h
       exact h.2.symm)
    | (split at h
       · simp only [Option.some.injEq, Prod.mk.injEq] at h
         exact h.2.symm
       · simp at h)
    | simp at h

theorem match_char_txt (x : Char) (s : Str) (len : Nat) (txt : Str)
    (h : match_char x s = some (len, txt)) : txt = [] := by
  unfold match_char at h
  split at h
  · split at h
    · simp only [Option.some.injEq, Prod.mk.injEq] at h
      exact h.2.symm
    · simp at h
  · simp at h

theorem match_UNKNOWN_txt (s : Str) (len : Nat) (txt : Str)
    (h : match_UNKNOWN s = some (len, txt)) : txt = [] := by
  unfold match_UNKNOWN at h
  split at h
  · split at h
    · simp at h
    · simp only [Option.some.injEq, Prod.mk.injEq] at h
      exact h.2.symm
  · simp at h

/-- What the first rule that matches hands to `make_token`. -/
theorem first_match_txt (s : Str) (kind : TokenType) (len : Nat) (txt : Str)
    (h : first_match rules s = some (kind, len, txt)) :
    kind = TokenType.NUMBER ∨ kind = TokenType.STRING
    ∨ (kind = TokenType.BITWISE
        ∧ (txt = "AND".toList ∨ txt = "OR".toList ∨ txt = "NOT".toList))
    ∨ (kind = TokenType.SKIP)
    ∨ ((kind = TokenType.NAME ∨ kind = TokenType.OP ∨ kind = TokenType.LPAREN
          ∨ kind = TokenType.RPAREN ∨ kind = TokenType.COMMA ∨ kind = TokenType.UNKNOWN)
        ∧ txt = []) := by
  simp only [rules, first_match] at h
  cases h1 : match_NUMBER s with
  | some r =>
    obtain ⟨l1, t1⟩ := r
    simp only [h1, Option.some.injEq, Prod.mk.injEq] at h
    exact Or.inl h.1.symm
  | none =>
  simp only [h1] at h
  cases h2 : match_STRING s with
  | some r =>
    obtain ⟨l1, t1⟩ := r
    simp only [h2, Option.some.injEq, Prod.mk.injEq] at h
    exact Or.inr (Or.inl h.1.symm)
  | none =>
  simp only [h2] at h
  cases h3 : match_BITWISE s with
  | some r =>
    obtain ⟨l1, t1⟩ := r
    simp only [h3, Option.some.injEq, Prod.mk.injEq] at h
    obtain ⟨hk, _, ht⟩ := h
    subst ht
    exact Or.inr (Or.inr (Or.inl ⟨hk.symm, match_BITWISE_txt s l1 t1 h3⟩))
  | none =>
  simp only [h3] at h
  cases h4 : match_NAME s with
  | some r =>
    obtain ⟨l1, t1⟩ := r
    simp only [h4, Option.some.injEq, Prod.mk.injEq] at h
    obtain ⟨hk, _, ht⟩ := h
    subst ht
    exact Or.inr (Or.inr (Or.inr (Or.inr ⟨Or.inl hk.symm, match_NAME_txt s l1 t1 h4⟩)))
  | none =>
  simp only [h4] at h
  cases h5 : match_OP s with
  | some r =>
    obtain ⟨l1, t1⟩ := r
    simp only [h5, Option.some.injEq, Prod.mk.injEq] at h
    obtain ⟨hk, _, ht⟩ := h
    subst ht
    exact Or.inr (Or.inr (Or.inr (Or.inr ⟨Or.inr (Or.inl hk.symm), match_OP_txt s l1 t1 h5⟩)))
  | none =>
  simp only [h5] at h
  cases h6 : match_char '(' s with
  | some r =>
    obtain ⟨l1, t1⟩ := r
    simp only [h6, Option.some.injEq, Prod.mk.injEq] at h
    obtain ⟨hk, _, ht⟩ := h
    subst ht
    exact Or.inr (Or.inr (Or.inr (Or.inr
      ⟨Or.inr (Or.inr (Or.inl hk.symm)), match_char_txt _ s l1 t1 h6⟩)))
  | none =>
  simp only [h6] at h
  cases h7 : match_char ')' s with
  | some r =>
    obtain ⟨l1, t1⟩ := r
    simp only [h7, Option.some.injEq, Prod.mk.injEq] at h
    obtain ⟨hk, _, ht⟩ := h
    subst ht
    exact Or.inr (Or.inr (Or.inr (Or.inr
      ⟨Or.inr (Or.inr (Or.inr (Or.inl hk.symm))), match_char_txt _ s l1 t1 h7⟩)))
  | none =>
  simp only [h7] at h
  cases h8 : match_char ',' s with
  | some r =>
    obtain ⟨l1, t1⟩ := r
    simp only [h8, Option.some.injEq, Prod.mk.injEq] at h
    obtain ⟨hk, _, ht⟩ := h
    subst ht
    exact Or.inr (Or.inr (Or.inr (Or.inr
      ⟨Or.inr (Or.inr (Or.inr (Or.inr (Or.inl hk.symm)))), match_char_txt _ s l1 t1 h8⟩)))
  | none =>
  simp only [h8] at h
  cases h9 : match_SKIP s with
  | some r =>
    obtain ⟨l1, t1⟩ := r
    simp only [h9, Option.some.injEq, Prod.mk.injEq] at h
    exact Or.inr (Or.inr (Or.inr (Or.inl h.1.symm)))
  | none =>
  simp only [h9] at h
  cases h10 : match_UNKNOWN s with
  | some r =>
    obtain ⟨l1, t1⟩ := r
    simp only [h10, Option.some.injEq, Prod.mk.injEq] at h
    obtain ⟨hk, _, ht⟩ := h
    subst ht
    exact Or.inr (Or.inr (Or.inr (Or.inr
      ⟨Or.inr (Or.inr (Or.inr (Or.inr (Or.inr hk.symm)))), match_UNKNOWN_txt s l1 t1 h10⟩)))
  | none => simp [h10] at h

theorem make_token_lexed (s : Str) (kind : TokenType) (len : Nat) (txt : Str) (t : Token)
    (h : first_match rules s = some (kind, len, txt)) (hk : make_token kind txt = some t) :
    lexed t = true := by
  rcases first_match_txt s kind len txt h with h1 | h1 | ⟨h1, h2⟩ | h1 | ⟨h1, h2⟩
  · subst h1
    simp only [make_token, Option.some.injEq] at hk
    subst hk; rfl
  · subst h1
    simp only [make_token, Option.some.injEq] at hk
    subst hk; rfl
  · subst h1
    simp only [make_token, Option.some.injEq] at hk
    subst hk
    rcases h2 with h2 | h2 | h2 <;> (subst h2; decide)
  · subst h1
    simp [make_token] at hk
  · subst h2
    rcases h1 with h1 | h1 | h1 | h1 | h1 | h1 <;> subst h1
    all_goals
      have hk2 := hk
      revert hk2
      first
        | (have : make_token TokenType.NAME [] = some ⟨TokenType.NAME, TokenValue.str []⟩ := by
             decide
           rw [this]; intro hk2
           simp only [Option.some.injEq] at hk2
           subst hk2; rfl)
        | (simp only [make_token, Option.some.injEq]
           intro hk2
           subst hk2; rfl)

theorem tokenize_loop_lexed (fuel : Nat) : ∀ (s : Str) (toks : List Token),
    tokenize_loop fuel s = Except.ok toks → ∀ t ∈ toks, lexed t = true := by
  induction fuel with
  | zero =>
    intro s toks h
    cases s with
    | nil =>
      simp only [tokenize_loop, Except.ok.injEq] at h
      subst h; simp
    | cons c cs => simp [tokenize_loop] at h
  | succ f ih =>
    intro s toks h
    cases s with
    | nil =>
      simp only [tokenize_loop, Except.ok.injEq] at h
      subst h; simp
    | cons c cs =>
      unfold tokenize_loop at h
      cases hm : first_match rules (c :: cs) with
      | none => simp [hm] at h
      | some r =>
        obtain ⟨kind, len, txt⟩ := r
        simp only [hm] at h
        cases hr : tokenize_loop f ((c :: cs).drop len) with
        | error e => simp [hr] at h
        | ok toks1 =>
          simp only [hr] at h
          have ih1 := ih _ toks1 hr
          cases hk : make_token kind txt with
          | none =>
            simp only [hk, Except.ok.injEq] at h
            subst h
            exact ih1
          | some t0 =>
            simp only [hk, Except.ok.injEq] at h
            subst h
            intro t ht
            rcases List.mem_cons.mp ht with rfl | ht
            · exact make_token_lexed _ kind len txt _ hm hk
            · exact ih1 t ht

/-- Every token that `tokenize` returns is one that the lexer can emit: there
is no `KEYWORD` and no `FUNC` token, and only a quoted text and the words
`AND`, `OR`, `NOT` carry a payload. -/
theorem tokenize_lexed (s : Str) (toks : List Token) (h : tokenize s = Except.ok toks) :
    ∀ t ∈ toks, lexed t = true :=
  tokenize_loop_lexed s.length s toks h

/-- One turn of the loop of `tokenize`: the token of the first match, then
the tokens of the rest. -/
theorem tokenize_step (s : Str) (kind : TokenType) (len : Nat) (txt : Str)
    (hm : first_match rules s = some (kind, len, txt)) :
    tokenize s =
      match tokenize (s.drop len) with
      | Except.error e => Except.error e
      | Except.ok toks =>
        match make_token kind txt with
        | none => Except.ok toks
        | some t => Except.ok (t :: toks) := by
  cases s with
  | nil => simp [first_match, rules, match_NUMBER, match_STRING, match_BITWISE, match_word,
      match_NAME, match_OP, match_char, match_SKIP, match_UNKNOWN] at hm
  | cons c cs =>
    have hb := rules_len (c :: cs) kind len txt hm
    have hd : ((c :: cs).drop len).length ≤ cs.length := by
      rw [List.length_drop]; simp only [List.length_cons]; omega
    have hf := tokenize_loop_fuel cs.length ((c :: cs).drop len).length ((c :: cs).drop len)
      hd (le_refl _)
    simp only [tokenize, List.length_cons, tokenize_loop, hm, hf]

/-! ### Statements on tokens that a text can give -/

theorem lexed_not_keyword (t : Token) (h : lexed t = true) : t.type ≠ TokenType.KEYWORD := by
  intro hk
  obtain ⟨ty, v⟩ := t
  simp only at hk
  subst hk
  cases v <;> simp [lexed] at h

theorem lexed_op (t : Token) (h : lexed t = true) (ho : t.type = TokenType.OP) :
    t.value = TokenValue.str [] := by
  obtain ⟨ty, v⟩ := t
  simp only at ho
  subst ho
  cases v with
  | num x => simp [lexed] at h
  | str w =>
    simp only [lexed, List.isEmpty_iff] at h
    simp [h]

/-- The test of the assignment branch fails on the tokens of every text: an
`OP` token never carries the payload `=`. -/
theorem is_assign_lexed (toks : List Token) (first : Token)
    (h : ∀ t ∈ toks, lexed t = true) : is_assign toks first = Except.ok false := by
  unfold is_assign
  split
  · unfold tok_at
    cases hg : toks.get? 1 with
    | none => 
      rename_i hlen
      have : toks.length ≤ 1 := by
        rw [List.get?_eq_none] at hg; exact hg
      omega
    | some t1 =>
      simp only
      have hm : t1 ∈ toks := List.get?_mem hg
      split
      · rename_i ho
        rw [lexed_op t1 (h t1 hm) ho]
        simp [get_string]
      · rfl
  · rfl

theorem find_keyword_lexed (kw : Str) (toks : List Token)
    (h : ∀ t ∈ toks, lexed t = true) : find_keyword kw toks = Except.ok toks.length := by
  induction toks with
  | nil => rfl
  | cons t ts ih =>
    have h1 : t.type ≠ TokenType.KEYWORD := lexed_not_keyword t (h t (List.mem_cons_self _ _))
    have h2 := ih (fun x hx => h x (List.mem_cons_of_mem _ hx))
    simp [find_keyword, h1, h2]

/-- On the tokens of a text the `IF` branch finds no `THEN`. -/
theorem exec_IF_lexed (toks : List Token) (s : BasicInterpreter)
    (h : ∀ t ∈ toks, lexed t = true) : exec_IF toks s = (some Err.ifWithoutThen, s) := by
  simp [exec_IF, find_keyword_lexed _ toks h]

/-- On the tokens of a text the `FOR` branch does not get past its first
test. -/
theorem exec_FOR_lexed (toks : List Token) (s : BasicInterpreter)
    (h : ∀ t ∈ toks, lexed t = true) :
    exec_FOR toks s = (some Err.malformedFor, s)
      ∨ exec_FOR toks s = (some Err.undefinedBehaviour, s) := by
  unfold exec_FOR for_malformed tok_at
  cases h1 : toks.get? 1 with
  | none => right; rfl
  | some t1 =>
    simp only
    by_cases hn : t1.type = TokenType.NAME
    · simp only [hn, ne_eq, not_true_eq_false, if_false]
      cases h2 : toks.get? 2 with
      | none => right; rfl
      | some t2 =>
        simp only
        by_cases ho : t2.type = TokenType.OP
        · have hv := lexed_op t2 (h t2 (List.get?_mem h2)) ho
          left
          simp [ho, hv, get_string]
        · left
          simp [ho]
    · left
      simp [hn]

/-- A statement whose first token carries the empty payload, as every word,
operator, parenthesis and comma of a text does, is thrown out as unknown. -/
theorem exec_toks_no_payload (first : Token) (rest : List Token) (stmt : Str)
    (s : BasicInterpreter) (h : ∀ t ∈ first :: rest, lexed t = true)
    (hv : first.value = TokenValue.str []) :
    exec_toks (first :: rest) stmt s = (some (Err.unknownStatement stmt), s) := by
  have ha := is_assign_lexed (first :: rest) first h
  simp [exec_toks, hv, get_string, ha]

theorem exec_toks_if_lexed (first : Token) (rest : List Token) (stmt : Str)
    (s : BasicInterpreter) (h : ∀ t ∈ first :: rest, lexed t = true)
    (hv : first.value = TokenValue.str "IF".toList) :
    exec_toks (first :: rest) stmt s = (some Err.ifWithoutThen, s) := by
  have ha := is_assign_lexed (first :: rest) first h
  have hi := exec_IF_lexed (first :: rest) s h
  simp [exec_toks, hv, get_string, ha, hi]

theorem exec_toks_for_lexed (first : Token) (rest : List Token) (stmt : Str)
    (s : BasicInterpreter) (h : ∀ t ∈ first :: rest, lexed t = true)
    (hv : first.value = TokenValue.str "FOR".toList) :
    exec_toks (first :: rest) stmt s = exec_FOR (first :: rest) s := by
  have ha := is_assign_lexed (first :: rest) first h
  simp [exec_toks, hv, get_string, ha]

theorem tokenize_result (s : Str) :
    tokenize s = Except.error Err.tokenizerStuck ∨ ∃ toks, tokenize s = Except.ok toks := by
  rcases tokenize_loop_result s.length s (le_refl _) with h | ⟨toks, h, _⟩
  · exact Or.inl h
  · exact Or.inr ⟨toks, h⟩

/-- A text that begins with a letter and not with one of the words `AND`,
`OR`, `NOT` begins with a `NAME` match, whose payload is empty. -/
theorem first_match_word (c : Char) (cs : Str) (hc : c.isAlpha = true)
    (hb : match_BITWISE (c :: cs) = none) :
    first_match rules (c :: cs)
      = some (TokenType.NAME,
          1 + (cs.takeWhile (fun d => d.isAlphanum || d == '$')).length, []) := by
  have hnum : match_NUMBER (c :: cs) = none := by
    simp [match_NUMBER, List.takeWhile, alpha_not_digit c hc]
  have hq : c ≠ dquote := by
    rintro rfl
    revert hc; decide
  have hstr : match_STRING (c :: cs) = none := by
    simp [match_STRING, hq]
  have hname : match_NAME (c :: cs)
      = some (1 + (cs.takeWhile (fun d => d.isAlphanum || d == '$')).length, []) := by
    simp only [match_NAME, hc, if_true]
  simp only [rules, first_match, hnum, hstr, hb, hname]

/-- The statement text that begins with a name fails: `tokenize` is stuck,
or the statement is thrown out as unknown; the state stays as it was. -/
theorem exec_stmt_word (c : Char) (cs : Str) (l : Int) (s : BasicInterpreter)
    (hc : c.isAlpha = true) (hb : match_BITWISE (c :: cs) = none) :
    (tokenize (c :: cs) = Except.error Err.tokenizerStuck
        ∧ exec_stmt (c :: cs) l s = (some Err.tokenizerStuck, s))
    ∨ ((∃ toks, tokenize (c :: cs) = Except.ok toks)
        ∧ exec_stmt (c :: cs) l s = (some (Err.unknownStatement (c :: cs)), s)) := by
  rcases tokenize_result (c :: cs) with h | ⟨toks, h⟩
  · left
    exact ⟨h, by simp [exec_stmt, h]⟩
  · right
    refine ⟨⟨toks, h⟩, ?_⟩
    have hl := tokenize_lexed _ toks h
    have hstep := tokenize_step (c :: cs) _ _ _ (first_match_word c cs hc hb)
    rw [h] at hstep
    have hmk : make_token TokenType.NAME [] = some ⟨TokenType.NAME, TokenValue.str []⟩ := by
      decide
    cases hr : tokenize ((c :: cs).drop
        (1 + (cs.takeWhile (fun d => d.isAlphanum || d == '$')).length)) with
    | error e => simp [hr] at hstep
    | ok rest =>
      simp only [hr, hmk, Except.ok.injEq] at hstep
      subst hstep
      simp only [exec_stmt, h]
      exact exec_toks_no_payload _ rest (c :: cs) s hl rfl

/-- A text that opens with the quoted word `w` begins with a `STRING` match
that gives `w`. -/
theorem first_match_quoted (w rest : Str) (hw : ∀ c ∈ w, c ≠ dquote) :
    first_match rules (dquote :: (w ++ dquote :: rest))
      = some (TokenType.STRING, w.length + 2, w) := by
  have htw : (w ++ dquote :: rest).takeWhile (fun c => c != dquote) = w := by
    induction w with
    | nil => simp [List.takeWhile]
    | cons a as ih =>
      have ha : (a != dquote) = true := by
        simpa using hw a (List.mem_cons_self _ _)
      rw [List.cons_append, List.takeWhile_cons, ha]
      simp only [if_true]
      rw [ih (fun c hc => hw c (List.mem_cons_of_mem _ hc))]
  have hnum : match_NUMBER (dquote :: (w ++ dquote :: rest)) = none := by
    have : dquote.isDigit = false := by decide
    simp [match_NUMBER, List.takeWhile, this]
  have hstr : match_STRING (dquote :: (w ++ dquote :: rest)) = some (w.length + 2, w) := by
    simp only [match_STRING, if_true, htw]
    simp
  simp only [rules, first_match, hnum, hstr]

/-- The tokens of a text that opens with the quoted word `w`: the `STRING`
token of `w`, then the tokens of the rest. -/
theorem tokenize_quoted (w rest : Str) (hw : ∀ c ∈ w, c ≠ dquote) :
    tokenize (dquote :: (w ++ dquote :: rest)) =
      match tokenize rest with
      | Except.error e => Except.error e
      | Except.ok toks => Except.ok (⟨TokenType.STRING, TokenValue.str w⟩ :: toks) := by
  have h := tokenize_step _ _ _ _ (first_match_quoted w rest hw)
  have hd : (dquote :: (w ++ dquote :: rest)).drop (w.length + 2) = rest := by
    simp [List.drop_append]
  rw [hd] at h
  rw [h]
  cases tokenize rest <;> rfl

/-! ### The stored program is not changed by a statement -/

theorem first_match_blank (c : Char) (cs : Str) (hc : (c == ' ' || c == '\t') = false) :
    first_match rules (' ' :: c :: cs) = some (TokenType.SKIP, 1, []) := by
  have h1 : match_NUMBER (' ' :: c :: cs) = none := by
    simp [match_NUMBER, List.takeWhile]
  have h2 : match_STRING (' ' :: c :: cs) = none := by
    have : ¬ (' ' = dquote) := by decide
    simp [match_STRING, this]
  have h3 : match_BITWISE (' ' :: c :: cs) = none := by
    simp [match_BITWISE, match_word]
  have h4 : match_NAME (' ' :: c :: cs) = none := by
    simp [match_NAME]
  have h5 : match_OP (' ' :: c :: cs) = none := by
    simp [match_OP, is_op_char]
  have h6 : ∀ x : Char, x ≠ ' ' → match_char x (' ' :: c :: cs) = none := by
    intro x hx
    have : ¬ (' ' = x) := fun e => hx e.symm
    simp [match_char, this]
  have h7 : match_SKIP (' ' :: c :: cs) = some (1, []) := by
    simp [match_SKIP, List.takeWhile, hc]
  simp only [rules, first_match, h1, h2, h3, h4, h5, h6 '(' (by decide), h6 ')' (by decide),
    h6 ',' (by decide), h7]

/-- One blank before a character that is not a blank is skipped. -/
theorem tokenize_blank (c : Char) (cs : Str) (hc : (c == ' ' || c == '\t') = false) :
    tokenize (' ' :: c :: cs) = tokenize (c :: cs) := by
  have h := tokenize_step _ _ _ _ (first_match_blank c cs hc)
  rw [h]
  simp only [List.drop_succ_cons, List.drop_zero, make_token]
  cases tokenize (c :: cs) <;> rfl

theorem digitChar_isDigit (d : Nat) (h : d < 10) : (Nat.digitChar d).isDigit = true := by
  interval_cases d <;> decide

theorem toDigitsCore_isDigit (fuel : Nat) : ∀ (n : Nat) (ds : List Char),
    (∀ c ∈ ds, c.isDigit = true) → ∀ c ∈ Nat.toDigitsCore 10 fuel n ds, c.isDigit = true := by
  induction fuel with
  | zero => intro n ds h; simpa [Nat.toDigitsCore] using h
  | succ f ih =>
    intro n ds h
    have hd : (Nat.digitChar (n % 10)).isDigit = true :=
      digitChar_isDigit _ (Nat.mod_lt _ (by decide))
    have h2 : ∀ c ∈ Nat.digitChar (n % 10) :: ds, c.isDigit = true := by
      intro c hc
      rcases List.mem_cons.mp hc with rfl | hc
      · exact hd
      · exact h c hc
    unfold Nat.toDigitsCore
    simp only
    split
    · exact h2
    · exact ih _ _ h2

theorem toDigitsCore_ne_nil (fuel : Nat) : ∀ (n : Nat) (ds : List Char),
    ds ≠ [] → Nat.toDigitsCore 10 fuel n ds ≠ [] := by
  induction fuel with
  | zero => intro n ds h; simpa [Nat.toDigitsCore] using h
  | succ f ih =>
    intro n ds h
    unfold Nat.toDigitsCore
    simp only
    split
    · simp
    · exact ih _ _ (by simp)

/-- The decimal numeral of a natural number consists of digits. -/
theorem toDigits_isDigit (n : Nat) : ∀ c ∈ Nat.toDigits 10 n, c.isDigit = true :=
  toDigitsCore_isDigit _ _ _ (by simp)

theorem toDigits_ne_nil (n : Nat) : Nat.toDigits 10 n ≠ [] := by
  unfold Nat.toDigits Nat.toDigitsCore
  simp only
  split
  · simp
  · exact toDigitsCore_ne_nil _ _ _ (by simp)

/-- The statement text made of a quoted word, a blank and a whole numeral
has two tokens: the word and the number 0. -/
theorem tokenize_quoted_numeral (w : Str) (n : Nat) (hw : ∀ c ∈ w, c ≠ dquote) :
    tokenize (dquote :: (w ++ dquote :: ' ' :: Nat.toDigits 10 n))
      = Except.ok [⟨TokenType.STRING, TokenValue.str w⟩, tNUM 0] := by
  rw [tokenize_quoted w _ hw]
  have hne := toDigits_ne_nil n
  have hdig := toDigits_isDigit n
  cases hds : Nat.toDigits 10 n with
  | nil => exact absurd hds hne
  | cons d ds =>
    rw [hds] at hdig hne
    have hd : d.isDigit = true := hdig d (List.mem_cons_self _ _)
    have hb : (d == ' ' || d == '\t') = false := by
      have h1 : is_space d = false := digit_not_space d hd
      unfold is_space at h1
      simp only [Bool.or_eq_false_iff] at h1 ⊢
      exact ⟨h1.1.1.1.1.1, h1.1.1.1.1.2⟩
    rw [tokenize_blank d ds hb, whole_number_token_is_zero (d :: ds) hne hdig]

theorem alpha_not_blank (c : Char) (h : c.isAlpha = true) : (c == ' ' || c == '\t') = false := by
  cases hb : (c == ' ' || c == '\t') with
  | false => rfl
  | true =>
    simp only [Bool.or_eq_true, beq_iff_eq] at hb
    rcases hb with rfl | rfl <;> revert h <;> decide

/-- The tokens of `LET ` followed by a text that begins with a letter: a
`NAME` token with the empty payload, then the tokens of that text. -/
theorem tokenize_let (c : Char) (cs : Str) (hc : c.isAlpha = true) :
    tokenize ("LET ".toList ++ c :: cs) =
      match tokenize (c :: cs) with
      | Except.error e => Except.error e
      | Except.ok toks => Except.ok (⟨TokenType.NAME, TokenValue.str []⟩ :: toks) := by
  have hb : match_BITWISE ('L' :: ("ET ".toList ++ c :: cs)) = none := by
    simp [match_BITWISE, match_word]
  have h := first_match_word 'L' ("ET ".toList ++ c :: cs) (by decide) hb
  have hlen : 1 + (("ET ".toList ++ c :: cs).takeWhile
      (fun d => d.isAlphanum || d == '$')).length = 3 := by
    have h1 : ('E'.isAlphanum || 'E' == '$') = true := by decide
    have h2 : ('T'.isAlphanum || 'T' == '$') = true := by decide
    have h3 : (' '.isAlphanum || ' ' == '$') = false := by decide
    show 1 + (List.takeWhile _ ('E' :: 'T' :: ' ' :: c :: cs)).length = 3
    rw [List.takeWhile_cons, h1]
    simp only [if_true]
    rw [List.takeWhile_cons, h2]
    simp only [if_true]
    rw [List.takeWhile_cons, h3]
    simp
  rw [hlen] at h
  have hs := tokenize_step ('L' :: ("ET ".toList ++ c :: cs)) _ _ _ h
  have hd : ('L' :: ("ET ".toList ++ c :: cs)).drop 3 = ' ' :: c :: cs := rfl
  rw [hd, tokenize_blank c cs (alpha_not_blank c hc)] at hs
  have hmk : make_token TokenType.NAME [] = some ⟨TokenType.NAME, TokenValue.str []⟩ := by
    decide
  show tokenize ('L' :: ("ET ".toList ++ c :: cs)) = _
  rw [hs]
  cases tokenize (c :: cs) with
  | error e => rfl
  | ok toks => simp only [hmk]

/-- C11.  Let `c :: cs` be a statement text that begins with a name, such as
a bare assignment `v = e` (it begins with a letter and not with one of the
words `AND`, `OR`, `NOT`).  In every state the statement and the statement
`LET ` followed by it fail together: either `tokenize` is stuck on both
texts, or both are thrown out as unknown statements; each leaves the state as
it was.  So the `LET` form fails exactly when the bare form fails, and there
is no state that one of them produces and the other does not. -/
theorem let_fails_like_the_bare_form (c : Char) (cs : Str) (l : Int) (s : BasicInterpreter)
    (hc : c.isAlpha = true) (hb : match_BITWISE (c :: cs) = none) :
    (exec_stmt (c :: cs) l s = (some Err.tokenizerStuck, s)
        ∧ exec_stmt ("LET ".toList ++ c :: cs) l s = (some Err.tokenizerStuck, s))
    ∨ (exec_stmt (c :: cs) l s = (some (Err.unknownStatement (c :: cs)), s)
        ∧ exec_stmt ("LET ".toList ++ c :: cs) l s
          = (some (Err.unknownStatement ("LET ".toList ++ c :: cs)), s)) := by
  have hlet := tokenize_let c cs hc
  rcases exec_stmt_word c cs l s hc hb with ⟨ht, he⟩ | ⟨⟨toks, ht⟩, he⟩
  · left
    refine ⟨he, ?_⟩
    rw [ht] at hlet
    simp only [exec_stmt, hlet]
  · right
    refine ⟨he, ?_⟩
    rw [ht] at hlet
    simp only at hlet
    have hl : ∀ t ∈ (⟨TokenType.NAME, TokenValue.str []⟩ : Token) :: toks, lexed t = true :=
      tokenize_lexed _ _ hlet
    simp only [exec_stmt, hlet]
    exact exec_toks_no_payload _ toks _ s hl rfl

/-- An instance of `let_fails_like_the_bare_form`: the texts `A = 2` and
`LET A = 2` in the initial state. -/
theorem let_fails_like_the_bare_form_witness :
    (exec_stmt ('A' :: " = 2".toList) 0 (BasicInterpreter.init [])
          = (some Err.tokenizerStuck, BasicInterpreter.init [])
        ∧ exec_stmt ("LET ".toList ++ 'A' :: " = 2".toList) 0 (BasicInterpreter.init [])
          = (some Err.tokenizerStuck, BasicInterpreter.init []))
    ∨ (exec_stmt ('A' :: " = 2".toList) 0 (BasicInterpreter.init [])
          = (some (Err.unknownStatement ('A' :: " = 2".toList)), BasicInterpreter.init [])
        ∧ exec_stmt ("LET ".toList ++ 'A' :: " = 2".toList) 0 (BasicInterpreter.init [])
          = (some (Err.unknownStatement ("LET ".toList ++ 'A' :: " = 2".toList)),
              BasicInterpreter.init [])) :=
  let_fails_like_the_bare_form 'A' " = 2".toList 0 (BasicInterpreter.init [])
    (by decide) (by decide)

/-- C19.  Let the statements of the line `line` be `pre`, then `stmt`, then
`post`.  When `stmt` throws the error `e` after the statements of `pre`
returned, `exec_stmt_line` ends with `e` in the state in which `stmt` threw:
the statements of `post` are not executed, and the environment is the one
that `stmt` found.  (The error `undefinedBehaviour` marks a statement for
which the source has no defined behaviour, and `inexact` one at which the
model ends; neither is an error that the source raises.)  No text reaches the
assignment branch, whose `catch` block is the only place that would print a
parse error and go on: its test fails on the tokens of every text.  A
statement text that begins with a name, such as an assignment with a
mismatched parenthesis in its expression, fails and leaves the state as it
was. -/
theorem error_ends_the_line (line : Str) (pre post : List Str) (stmt : Str) (lineno : Int)
    (immediate : Bool) (s s1 s2 : BasicInterpreter) (e : Err)
    (hsplit : split_stmts line [] false = pre ++ stmt :: post)
    (hpre : exec_parts pre (if immediate = true then -1 else lineno) s = (none, s1))
    (hfail : exec_stmt stmt (if immediate = true then -1 else lineno) s1 = (some e, s2))
    (hub : e ≠ Err.undefinedBehaviour) (hin : e ≠ Err.inexact) :
    exec_stmt_line lineno line immediate s = (some e, s2) ∧ s2.vars = s1.vars
    ∧ (∀ (x : Str) (first : Token) (rest : List Token),
        tokenize x = Except.ok (first :: rest) →
          is_assign (first :: rest) first = Except.ok false)
    ∧ (∀ (c : Char) (cs : Str) (l : Int) (st : BasicInterpreter),
        c.isAlpha = true → match_BITWISE (c :: cs) = none →
          exec_stmt (c :: cs) l st = (some Err.tokenizerStuck, st)
          ∨ exec_stmt (c :: cs) l st = (some (Err.unknownStatement (c :: cs)), st)) := by
  refine ⟨?_, ?_, ?_, ?_⟩
  · unfold exec_stmt_line
    rw [hsplit]
    exact exec_parts_append_error pre post stmt _ s s1 s2 e hpre hfail
  · have h := exec_stmt_error_vars stmt _ s1 e (by rw [hfail]) hub hin
    rw [hfail] at h
    exact h
  · intro x first rest hx
    exact is_assign_lexed _ _ (tokenize_lexed x _ hx)
  · intro c cs l st hc hb
    rcases exec_stmt_word c cs l st hc hb with ⟨_, he⟩ | ⟨_, he⟩
    · exact Or.inl he
    · exact Or.inr he

/-- An instance of `error_ends_the_line`: in the line
`"PRINT" "A":A = ( 3:"PRINT" "B"` the assignment throws, and `"PRINT" "B"` is
not executed. -/
theorem error_ends_the_line_witness :
    exec_stmt_line 7 "\"PRINT\" \"A\":A = ( 3:\"PRINT\" \"B\"".toList false
        (BasicInterpreter.init [])
      = (some (Err.unknownStatement "A = ( 3".toList),
          { BasicInterpreter.init [] with cout := "A \n".toList })
    ∧ ({ BasicInterpreter.init [] with cout := "A \n".toList } : BasicInterpreter).vars
      = ({ BasicInterpreter.init [] with cout := "A \n".toList } : BasicInterpreter).vars
    ∧ (∀ (x : Str) (first : Token) (rest : List Token),
        tokenize x = Except.ok (first :: rest) →
          is_assign (first :: rest) first = Except.ok false)
    ∧ (∀ (c : Char) (cs : Str) (l : Int) (st : BasicInterpreter),
        c.isAlpha = true → match_BITWISE (c :: cs) = none →
          exec_stmt (c :: cs) l st = (some Err.tokenizerStuck, st)
          ∨ exec_stmt (c :: cs) l st = (some (Err.unknownStatement (c :: cs)), st)) :=
  error_ends_the_line "\"PRINT\" \"A\":A = ( 3:\"PRINT\" \"B\"".toList
    ["\"PRINT\" \"A\"".toList] ["\"PRINT\" \"B\"".toList]
    "A = ( 3".toList 7 false (BasicInterpreter.init [])
    { BasicInterpreter.init [] with cout := "A \n".toList }
    { BasicInterpreter.init [] with cout := "A \n".toList }
    (Err.unknownStatement "A = ( 3".toList)
    (by decide) (by decide!) (by decide!) (by decide) (by decide)

/-- The statement `"GOTO" n` for a whole numeral `n`: the target is read as
0. -/
theorem exec_stmt_goto_numeral (n : Nat) (l : Int) (s : BasicInterpreter) :
    exec_stmt ("\"GOTO\" ".toList ++ Nat.toDigits 10 n) l s
      = if find_line_index s 0 = -1 then
          (some (Err.gotoUnknownLine "GOTO TO UNKNOWN line ".toList), s)
        else (none, { s with pc := find_line_index s 0 }) := by
  have ht := tokenize_quoted_numeral "GOTO".toList n (by decide)
  have hi : float_to_int (as_number (tNUM 0).value) = Except.ok 0 := by decide!
  show exec_stmt (dquote :: ("GOTO".toList ++ dquote :: ' ' :: Nat.toDigits 10 n)) l s = _
  simp only [exec_stmt, ht]
  rw [exec_toks_goto ⟨TokenType.STRING, TokenValue.str "GOTO".toList⟩ (tNUM 0) _ s rfl]
  simp only [exec_GOTO, tok_at, List.get?, hi]
  split
  · rfl
  · rfl

/-- The statement `"GOSUB" n` for a whole numeral `n`: the target is read as
0. -/
theorem exec_stmt_gosub_numeral (n : Nat) (l : Int) (s : BasicInterpreter) :
    exec_stmt ("\"GOSUB\" ".toList ++ Nat.toDigits 10 n) l s
      = if find_line_index s 0 = -1 then
          (some (Err.gotoUnknownLine "GOTO TO UNKNOWN line ".toList), s)
        else if s.pc = 2147483647 then (some Err.undefinedBehaviour, s)
        else (none, { s with gosub_stack := (s.pc + 1) :: s.gosub_stack,
                             pc := find_line_index s 0 }) := by
  have ht := tokenize_quoted_numeral "GOSUB".toList n (by decide)
  have hi : float_to_int (as_number (tNUM 0).value) = Except.ok 0 := by decide!
  show exec_stmt (dquote :: ("GOSUB".toList ++ dquote :: ' ' :: Nat.toDigits 10 n)) l s = _
  simp only [exec_stmt, ht]
  rw [exec_toks_gosub ⟨TokenType.STRING, TokenValue.str "GOSUB".toList⟩ (tNUM 0) _ s rfl]
  simp only [exec_GOSUB, tok_at, List.get?, hi]
  split
  · rfl
  · rfl

/-- A statement text that opens with the quoted word `IF`: the branch finds
no `THEN`, whatever follows. -/
theorem exec_stmt_quoted_if (rest : Str) (l : Int) (s : BasicInterpreter) :
    exec_stmt ("\"IF\"".toList ++ rest) l s = (some Err.tokenizerStuck, s)
    ∨ exec_stmt ("\"IF\"".toList ++ rest) l s = (some Err.ifWithoutThen, s) := by
  have hq := tokenize_quoted "IF".toList rest (by decide)
  show exec_stmt (dquote :: ("IF".toList ++ dquote :: rest)) l s = _
    ∨ exec_stmt (dquote :: ("IF".toList ++ dquote :: rest)) l s = _
  rcases tokenize_result rest with h | ⟨toks, h⟩
  · left
    rw [h] at hq
    simp only [exec_stmt, hq]
  · right
    rw [h] at hq
    simp only at hq
    have hl := tokenize_lexed _ _ hq
    simp only [exec_stmt, hq]
    exact exec_toks_if_lexed _ toks _ s hl rfl

/-- A statement text that opens with the quoted word `FOR`: the branch does
not get past its first test, whatever follows, and pushes no frame. -/
theorem exec_stmt_quoted_for (rest : Str) (l : Int) (s : BasicInterpreter) :
    exec_stmt ("\"FOR\"".toList ++ rest) l s = (some Err.tokenizerStuck, s)
    ∨ exec_stmt ("\"FOR\"".toList ++ rest) l s = (some Err.malformedFor, s)
    ∨ exec_stmt ("\"FOR\"".toList ++ rest) l s = (some Err.undefinedBehaviour, s) := by
  have hq := tokenize_quoted "FOR".toList rest (by decide)
  show exec_stmt (dquote :: ("FOR".toList ++ dquote :: rest)) l s = _
    ∨ exec_stmt (dquote :: ("FOR".toList ++ dquote :: rest)) l s = _
    ∨ exec_stmt (dquote :: ("FOR".toList ++ dquote :: rest)) l s = _
  rcases tokenize_result rest with h | ⟨toks, h⟩
  · left
    rw [h] at hq
    simp only [exec_stmt, hq]
  · right
    rw [h] at hq
    simp only at hq
    have hl := tokenize_lexed _ _ hq
    simp only [exec_stmt, hq]
    rw [exec_toks_for_lexed _ toks _ s hl rfl]
    exact exec_FOR_lexed _ s hl

/-- C4 (fails on the code).  `tokenize` reads every whole numeral as 0, so
`"GOSUB" n` calls the first line numbered 0 whatever `n` is, and throws when
there is none.  The program `10 GOSUB 100`, `20 END`, `100 RETURN` stops at
its first line with "Unknown statement"; with the words quoted it stops
there with the "unknown line" error although line 100 is stored, and no
return frame is pushed.  With a line 0 in the store, `"GOSUB" 100` enters
line 0 instead of line 100: the run ends in line 0 with the frame still on
the return stack. -/
theorem c4_gosub_target_is_read_as_zero :
    (∀ (n : Nat) (l : Int) (s : BasicInterpreter),
      exec_stmt ("\"GOSUB\" ".toList ++ Nat.toDigits 10 n) l s
        = if find_line_index s 0 = -1 then
            (some (Err.gotoUnknownLine "GOTO TO UNKNOWN line ".toList), s)
          else if s.pc = 2147483647 then (some Err.undefinedBehaviour, s)
          else (none, { s with gosub_stack := (s.pc + 1) :: s.gosub_stack,
                               pc := find_line_index s 0 }))
    ∧ input_lines 9 [ "10 GOSUB 100".toList, "20 END".toList, "100 RETURN".toList,
          "RUN".toList ] (BasicInterpreter.init [])
        = (some (Err.unknownStatement "GOSUB 100".toList),
            { BasicInterpreter.init [] with
              program := [⟨10, "GOSUB 100".toList⟩, ⟨20, "END".toList⟩,
                ⟨100, "RETURN".toList⟩],
              running := true })
    ∧ input_lines 9 [ "10 \"GOSUB\" 100".toList, "20 \"END\"".toList,
          "100 \"RETURN\"".toList, "RUN".toList ] (BasicInterpreter.init [])
        = (some (Err.gotoUnknownLine "GOTO TO UNKNOWN line ".toList),
            { BasicInterpreter.init [] with
              program := [⟨10, "\"GOSUB\" 100".toList⟩, ⟨20, "\"END\"".toList⟩,
                ⟨100, "\"RETURN\"".toList⟩],
              running := true })
    ∧ input_lines 9 [ "10 \"GOSUB\" 100".toList, "100 \"RETURN\"".toList,
          "0 \"END\"".toList, "RUN".toList ] (BasicInterpreter.init [])
        = (none,
            { BasicInterpreter.init [] with
              program := [⟨10, "\"GOSUB\" 100".toList⟩, ⟨100, "\"RETURN\"".toList⟩,
                ⟨0, "\"END\"".toList⟩],
              gosub_stack := [1], pc := 2, running := false }) := by
  refine ⟨exec_stmt_gosub_numeral, ?_, ?_, ?_⟩ <;> decide!

/-- C5 (fails on the code).  `tokenize` reads every whole numeral as 0, so
`"GOTO" n` jumps to the first line numbered 0 whatever `n` is; the "unknown
line" error is thrown only when no line carries the number 0.  In a store
with the lines 20 and 0, `"GOTO" 15` returns normally with the program
counter at line 0, and `"GOSUB" 15` also pushes a return frame.  An `IF`
statement never reaches its jump: it throws "IF WITHOUT THEN".  Without the
quotes `GOTO 15` is thrown out as an unknown statement. -/
theorem c5_unknown_line_is_read_as_zero :
    (∀ (n : Nat) (l : Int) (s : BasicInterpreter),
      exec_stmt ("\"GOTO\" ".toList ++ Nat.toDigits 10 n) l s
        = if find_line_index s 0 = -1 then
            (some (Err.gotoUnknownLine "GOTO TO UNKNOWN line ".toList), s)
          else (none, { s with pc := find_line_index s 0 }))
    ∧ exec_stmt "\"GOTO\" 15".toList 0 low_state = (none, { low_state with pc := 1 })
    ∧ exec_stmt "\"GOSUB\" 15".toList 0 low_state
        = (none, { low_state with gosub_stack := [1], pc := 1 })
    ∧ (∀ (l : Int) (s : BasicInterpreter),
        exec_stmt "\"IF\" 1 \"THEN\" 15".toList l s = (some Err.ifWithoutThen, s))
    ∧ (∀ (l : Int) (s : BasicInterpreter),
        exec_stmt "GOTO 15".toList l s = (some (Err.unknownStatement "GOTO 15".toList), s)) := by
  refine ⟨exec_stmt_goto_numeral, by decide!, by decide!, ?_, ?_⟩
  · intro l s
    have ht : tokenize "\"IF\" 1 \"THEN\" 15".toList
        = Except.ok [tSTR "IF", tNUM 0, tSTR "THEN", tNUM 0] := by decide!
    simp only [exec_stmt, ht]
    rfl
  · intro l s
    have ht : tokenize "GOTO 15".toList
        = Except.ok [⟨TokenType.NAME, TokenValue.str []⟩, tNUM 0] := by decide!
    simp only [exec_stmt, ht]
    rfl

/-- C16 (fails on the code).  In every state the texts `NEXT` and `NEXT I`
are thrown out as unknown statements: with a frame on the loop stack nothing
is stepped, and with an empty loop stack the error is not "NEXT WITHOUT FOR".
With the word quoted the branch is reached, but the name after it has lost
its payload: in a state whose top frame is for `I`, `"NEXT" J` raises no
mismatch and steps `I`.  No session reaches such a state: a `FOR` statement
does not get past its first test, so `"NEXT"` always finds the loop stack
empty. -/
theorem c16_next_is_an_unknown_statement :
    (∀ (l : Int) (s : BasicInterpreter),
      exec_stmt "NEXT".toList l s = (some (Err.unknownStatement "NEXT".toList), s))
    ∧ (∀ (l : Int) (s : BasicInterpreter),
      exec_stmt "NEXT I".toList l s = (some (Err.unknownStatement "NEXT I".toList), s))
    ∧ exec_stmt "\"NEXT\" J".toList 0 loop_state
        = (none, { loop_state with vars := [("I".toList, TokenValue.num 2)], pc := 1 })
    ∧ (∀ (rest : Str) (l : Int) (s : BasicInterpreter),
        exec_stmt ("\"FOR\"".toList ++ rest) l s = (some Err.tokenizerStuck, s)
        ∨ exec_stmt ("\"FOR\"".toList ++ rest) l s = (some Err.malformedFor, s)
        ∨ exec_stmt ("\"FOR\"".toList ++ rest) l s = (some Err.undefinedBehaviour, s))
    ∧ exec_stmt "\"NEXT\"".toList 0 (BasicInterpreter.init [])
        = (some Err.nextWithoutFor, BasicInterpreter.init []) := by
  refine ⟨?_, ?_, by decide!, exec_stmt_quoted_for, by decide!⟩
  · intro l s
    have ht : tokenize "NEXT".toList = Except.ok [⟨TokenType.NAME, TokenValue.str []⟩] := by
      decide!
    simp only [exec_stmt, ht]
    rfl
  · intro l s
    have ht : tokenize "NEXT I".toList
        = Except.ok [⟨TokenType.NAME, TokenValue.str []⟩,
            ⟨TokenType.NAME, TokenValue.str []⟩] := by decide!
    simp only [exec_stmt, ht]
    rfl

/-- C23 (fails on the code).  The two tests agree: "the number of `c` is not
zero and the text of `c` is not empty" holds exactly when `c` is a number
other than zero.  But no `IF` statement branches: `tokenize` never emits a
`KEYWORD` token, so a statement that opens with `"IF"` throws "IF WITHOUT
THEN" in every state, whatever follows, and without the quotes the text is
thrown out as an unknown statement.  The text `"IF" 0.5 "THEN" 0` has the
condition 0.5, a number other than zero, and does not branch to the stored
line 0. -/
theorem c23_if_never_branches :
    (∀ c : TokenValue,
      (as_number c ≠ 0 ∧ as_string c ≠ []) ↔ ∃ x : ℚ, c = TokenValue.num x ∧ x ≠ 0)
    ∧ (∀ (rest : Str) (l : Int) (s : BasicInterpreter),
        exec_stmt ("\"IF\"".toList ++ rest) l s = (some Err.tokenizerStuck, s)
        ∨ exec_stmt ("\"IF\"".toList ++ rest) l s = (some Err.ifWithoutThen, s))
    ∧ tokenize "\"IF\" 0.5 \"THEN\" 0".toList
        = Except.ok [tSTR "IF", tNUM (1 / 2), tSTR "THEN", tNUM 0]
    ∧ exec_stmt "\"IF\" 0.5 \"THEN\" 0".toList 0 low_state
        = (some Err.ifWithoutThen, low_state)
    ∧ (∀ (l : Int) (s : BasicInterpreter),
        exec_stmt "IF 1 THEN 10".toList l s
          = (some (Err.unknownStatement "IF 1 THEN 10".toList), s)) := by
  refine ⟨if_test_iff, exec_stmt_quoted_if, by decide!, by decide!, ?_⟩
  intro l s
  have ht : tokenize "IF 1 THEN 10".toList
      = Except.ok [⟨TokenType.NAME, TokenValue.str []⟩, tNUM 0,
          ⟨TokenType.NAME, TokenValue.str []⟩, tNUM 0] := by decide!
  simp only [exec_stmt, ht]
  rfl

end C64Basic
